import Mathlib

/-!
# dra-example-driver: allocation protocol

A shallow embedding of the scheduling-time controller of the example DRA
resource driver (`cmd/controller/driver.go`, `cmd/controller/requests.go`), of
the per-node allocation record it works on
(`pkg/crd/example/v1alpha/mydeviceallocationstate.go` and its `api` wrapper) and
of the prepare and unprepare calls of the node-resident agent
(`cmd/kubelet-plugin/driver.go`, `cmd/kubelet-plugin/node_state.go`), followed by
theorems about the embedded functions.

Modelling conventions.

* A Go `map[string]T` is an association list `GoMap T`.  `mlookup` reads the
  first binding of a key, `minsert` overwrites it in place or appends a new
  binding, `mdelete` removes every binding of the key.  `range` over a map
  visits the bindings in list order.  Go leaves the iteration order
  unspecified; the general theorems below quantify over all association lists,
  hence over all iteration orders.  An evaluation at a sample record is the run
  that visits the bindings in the order written; where its conclusion depends on
  that order, the statement says which device is visited last.
* A nil map and an empty map are told apart only for `ResourceClaimRequests`,
  the one field whose nil-ness the controller branches on
  (`allocatePendingClaim`).  For the two other maps of the record every read of
  nil behaves as a read of the empty map and the only write is preceded by
  `make`.
* The range variable of a `for ... range` loop is one variable for the whole
  loop: the module is written against `k8s.io/api/resource/v1alpha1`, the API of
  Kubernetes 1.26, hence in a Go language version before 1.22, where the
  variable is not renewed per iteration.  `Available` stores `&device`, the
  address of that variable, under every key, so after the loop every value of
  the map it returns reads the device visited last.  The embedding keeps the
  keys and the range variable apart (`availableStep`).
* Calls to the record store (`ListNames`, `Get`, `Update`) are the fields of a
  `Clientset` value; the per-node mutex and logging are not modelled.
* An operation returns an `Outcome`: the Go return value, the record handed to
  a successful `Update` (if any), and the PendingRequest table afterwards.
* A failed unchecked type assertion or an index out of range is the error
  `DriverError.runtimePanic`.
* The agent's calls to the record store are the fields of a `NodeStore`, indexed
  by the attempt of the retry loop.  A call of the agent returns an
  `AgentOutcome`: the error of the retried function (the caller wraps it in a
  message) or the response, the local node state afterwards and the record
  handed to an accepted `Update`.  A nil slice and an empty slice of device
  names are the same list.
* The CDI registry library is not modelled: the registry is the map that
  `getAllocatedAsCDIDevices` reads, and what the calls of `newNodeState`,
  `announceNewDevices` and `unannounceDevices` into the library did is a
  `RegistryCalls` value; the devices detected on the host are a parameter of
  `newNodeState`.
-/

namespace Dra

/-! ## Go maps -/

/-- Association-list model of a Go map with string keys. -/
abbrev GoMap (α : Type) := List (String × α)

/-- Map read `m[k]` with the comma-ok flag folded into the option. -/
def mlookup {α : Type} : GoMap α → String → Option α
  | [], _ => none
  | (k1, v) :: rest, k => if k1 = k then some v else mlookup rest k

/-- Comma-ok test `_, exists := m[k]`. -/
def mhas {α : Type} (m : GoMap α) (k : String) : Bool :=
  (mlookup m k).isSome

/-- Map write `m[k] = v`. -/
def minsert {α : Type} : GoMap α → String → α → GoMap α
  | [], k, v => [(k, v)]
  | (k1, v1) :: rest, k, v =>
    if k1 = k then (k, v) :: rest else (k1, v1) :: minsert rest k v

/-- Builtin `delete(m, k)`. -/
def mdelete {α : Type} : GoMap α → String → GoMap α
  | [], _ => []
  | (k1, v) :: rest, k => if k1 = k then mdelete rest k else (k1, v) :: mdelete rest k

/-- Keys of a map, in iteration order. -/
def mkeys {α : Type} (m : GoMap α) : List String :=
  m.map Prod.fst

/-! ## Data model (`pkg/crd/example/v1alpha`) -/

/-- Device type constant `MydeviceType0`. -/
def MydeviceType0 : String := "type0"

/-- Status constant `MydeviceAllocationStateStatusReady`. -/
def MydeviceAllocationStateStatusReady : String := "Ready"

/-- Status constant `MydeviceAllocationStateStatusNotReady`. -/
def MydeviceAllocationStateStatusNotReady : String := "NotReady"

/-- An allocatable device on a node. -/
structure AllocatableMydevice where
  CDIDevice : String
  Type_ : String
  UID : String
deriving DecidableEq, Repr

/-- An allocated device on a node. -/
structure AllocatedMydevice where
  CDIDevice : String
  Type_ : String
  UID : String
deriving DecidableEq, Repr

/-- A device being requested for allocation. -/
structure RequestedMydevice where
  UID : String
deriving DecidableEq, Repr

/-- Claim parameters: `Count` is a Go `int`, `Type` a `MydeviceType` string. -/
structure MydeviceClaimParametersSpec where
  Count : Int
  Type_ : String
deriving DecidableEq, Repr

/-- A request spec together with the devices selected for it. -/
structure RequestedMydevices where
  Spec : MydeviceClaimParametersSpec
  Mydevices : List RequestedMydevice
deriving DecidableEq, Repr

/-- Go zero value of `RequestedMydevices`. -/
def RequestedMydevices.zero : RequestedMydevices :=
  { Spec := { Count := 0, Type_ := "" }, Mydevices := [] }

/-- Go zero value of `AllocatableMydevice`. -/
def AllocatableMydevice.zero : AllocatableMydevice :=
  { CDIDevice := "", Type_ := "", UID := "" }

/-- Spec of the per-node record.  `ResourceClaimRequests = none` is the nil map. -/
structure MydeviceAllocationStateSpec where
  AllocatableMydevices : GoMap AllocatableMydevice
  ResourceClaimAllocations : GoMap (List AllocatedMydevice)
  ResourceClaimRequests : Option (GoMap RequestedMydevices)
deriving DecidableEq, Repr

/-- The per-node allocation record. -/
structure MydeviceAllocationState where
  Name : String
  Spec : MydeviceAllocationStateSpec
  Status : String
deriving DecidableEq, Repr

/-- Reads of `Spec.ResourceClaimRequests`: a nil map reads as the empty map. -/
def MydeviceAllocationStateSpec.requests (s : MydeviceAllocationStateSpec) :
    GoMap RequestedMydevices :=
  s.ResourceClaimRequests.getD []

/-- Read `Spec.ResourceClaimRequests[claimUID]`, the zero value when absent. -/
def MydeviceAllocationStateSpec.requestOf (s : MydeviceAllocationStateSpec)
    (claimUID : String) : RequestedMydevices :=
  (mlookup s.requests claimUID).getD RequestedMydevices.zero

/-- Write `Spec.ResourceClaimRequests[claimUID] = r` on a non-nil map (a nil map
is first replaced by `make`, as every caller does). -/
def MydeviceAllocationState.setRequest (g : MydeviceAllocationState)
    (claimUID : String) (r : RequestedMydevices) : MydeviceAllocationState :=
  { g with Spec := { g.Spec with
      ResourceClaimRequests := some (minsert g.Spec.requests claimUID r) } }

/-! ## Record operations (`pkg/crd/example/v1alpha/api`) -/

/-- Embedding of `DeviceIsAllocated`: does some claim allocation list the device? -/
def DeviceIsAllocated (g : MydeviceAllocationState) (deviceUid : String) : Bool :=
  g.Spec.ResourceClaimAllocations.any
    (fun claimAllocation => claimAllocation.2.any
      (fun allocatedDevice => allocatedDevice.UID = deviceUid))

/-- One iteration of the loop of `Available`.  The map `available` holds
pointers, and the pointer stored under every key is `&device`, the address of the
one range variable of the loop.  The state is the list of the keys stored so far
and the value of `device`, which every iteration overwrites. -/
def availableStep (g : MydeviceAllocationState) (st : List String × AllocatableMydevice)
    (e : String × AllocatableMydevice) : List String × AllocatableMydevice :=
  let device := e.2
  if device.Type_ = MydeviceType0 then
    if DeviceIsAllocated g device.UID then (st.1, device)
    else (if device.UID ∈ st.1 then st.1 else st.1 ++ [device.UID], device)
  else (st.1, device)

/-- Embedding of `Available`.  The keys of the returned map are the UIDs of the
allocatable devices of the supported type that no claim allocation lists; every
value is the pointer to the range variable, which after the loop holds the device
visited last, so every key reads that one device. -/
def Available (g : MydeviceAllocationState) : GoMap AllocatableMydevice :=
  let st := g.Spec.AllocatableMydevices.foldl (availableStep g) ([], AllocatableMydevice.zero)
  st.1.map (fun uid => (uid, st.2))

/-- The value of the range variable of `Available` after the loop: the device
visited last (the zero value stands for a loop without iteration, after which
the map holds no pointer). -/
def lastVisited (g : MydeviceAllocationState) : AllocatableMydevice :=
  match g.Spec.AllocatableMydevices.getLast? with
  | some e => e.2
  | none => AllocatableMydevice.zero

/-- The device descriptor copied for one requested device: the allocatable entry
stored under its UID, the zero value when there is none. -/
def allocatedOf (g : MydeviceAllocationState) (device : RequestedMydevice) :
    AllocatedMydevice :=
  let sourceDevice :=
    (mlookup g.Spec.AllocatableMydevices device.UID).getD AllocatableMydevice.zero
  { CDIDevice := sourceDevice.CDIDevice, Type_ := sourceDevice.Type_,
    UID := sourceDevice.UID }

/-- Embedding of `MakeResourceClaimAllocation`. -/
def MakeResourceClaimAllocation (g : MydeviceAllocationState) (claimUID : String) :
    MydeviceAllocationState :=
  let allocated := (g.Spec.requestOf claimUID).Mydevices.map (allocatedOf g)
  { g with Spec := { g.Spec with
      ResourceClaimAllocations := minsert g.Spec.ResourceClaimAllocations claimUID allocated } }

/-! ## Kubernetes objects seen by the controller -/

/-- A node selector requirement (`corev1.NodeSelectorRequirement`). -/
structure NodeSelectorRequirement where
  Key : String
  Operator : String
  Values : List String
deriving DecidableEq, Repr

/-- A node selector term (`corev1.NodeSelectorTerm`). -/
structure NodeSelectorTerm where
  MatchFields : List NodeSelectorRequirement
deriving DecidableEq, Repr

/-- A node selector (`corev1.NodeSelector`). -/
structure NodeSelector where
  NodeSelectorTerms : List NodeSelectorTerm
deriving DecidableEq, Repr

/-- The allocation result; `AvailableOnNodes = none` is the nil pointer. -/
structure AllocationResult where
  AvailableOnNodes : Option NodeSelector
deriving DecidableEq, Repr

/-- Allocation mode of a claim (`resourcev1alpha1.AllocationMode`). -/
inductive AllocationMode where
  | Immediate
  | WaitForFirstConsumer
deriving DecidableEq, Repr

/-- The fields of a `ResourceClaim` the driver reads: `UID`,
`Spec.AllocationMode` and `Status.Allocation`. -/
structure ResourceClaim where
  UID : String
  AllocationMode : AllocationMode
  Allocation : Option AllocationResult
deriving DecidableEq, Repr

/-- The dynamic value behind `claimParameters interface{}`: either a
`*MydeviceClaimParametersSpec` or a value of another type. -/
inductive ClaimParameters where
  | mydevice (spec : MydeviceClaimParametersSpec)
  | other
deriving DecidableEq, Repr

/-- The fields of `controller.ClaimAllocation` the driver uses. -/
structure ClaimAllocation where
  Claim : ResourceClaim
  ClaimParameters : ClaimParameters
  UnsuitableNodes : List String
deriving DecidableEq, Repr

/-- Errors returned by the controller, one constructor per `fmt.Errorf` site. -/
inductive DriverError where
  | listFailed
  | getFailed (node : String)
  | updateFailed
  | noSuitableNode
  | unknownParametersKind
  | notReady (status : String)
  | noAllocationRequests (claimUID node : String)
  | insufficientResources (node : String)
  | unknownDeviceType (deviceType : String)
  | runtimePanic
deriving DecidableEq, Repr

/-- The record store as the controller sees it: the results of `ListNames`
(`none` when the call fails), of `Get` by node name (`none` when it fails) and
whether `Update` of a record is accepted. -/
structure Clientset where
  ListNames : Option (List String)
  Get : String → Option MydeviceAllocationState
  Update : MydeviceAllocationState → Bool

/-- Embedding of `NewMydeviceAllocationState` followed by `Get`: the record
stored under `nodename`. -/
def masGet (cs : Clientset) (nodename : String) : Option MydeviceAllocationState :=
  (cs.Get nodename).map (fun mas => { mas with Name := nodename })

/-! ## Pending-request table (`cmd/controller/requests.go`) -/

/-- The table `claim UID → node name → RequestedMydevices`. -/
structure PerNodeClaimRequests where
  requests : GoMap (GoMap RequestedMydevices)
deriving DecidableEq, Repr

/-- Embedding of `NewPerNodeClaimRequests`. -/
def NewPerNodeClaimRequests : PerNodeClaimRequests := { requests := [] }

/-- Embedding of `PerNodeClaimRequests.Exists`. -/
def PerNodeClaimRequests.Exists (p : PerNodeClaimRequests) (claimUID node : String) :
    Bool :=
  match mlookup p.requests claimUID with
  | none => false
  | some nodes => mhas nodes node

/-- Embedding of `PerNodeClaimRequests.Get`. -/
def PerNodeClaimRequests.Get (p : PerNodeClaimRequests) (claimUID node : String) :
    RequestedMydevices :=
  if !p.Exists claimUID node then RequestedMydevices.zero
  else (mlookup ((mlookup p.requests claimUID).getD []) node).getD RequestedMydevices.zero

/-- One iteration of the loop of `CleanupNode`, for the table key `claimUID`. -/
def cleanupStep (st : PerNodeClaimRequests × MydeviceAllocationState)
    (claimUID : String) : PerNodeClaimRequests × MydeviceAllocationState :=
  match mlookup ((mlookup st.1.requests claimUID).getD []) st.2.Name with
  | some request =>
    if mhas st.2.Spec.requests claimUID then
      ({ requests := mdelete st.1.requests claimUID }, st.2)
    else (st.1, st.2.setRequest claimUID request)
  | none => st

/-- Embedding of `PerNodeClaimRequests.CleanupNode`; returns the table and the
in-memory record after the loop. -/
def PerNodeClaimRequests.CleanupNode (p : PerNodeClaimRequests)
    (mas : MydeviceAllocationState) : PerNodeClaimRequests × MydeviceAllocationState :=
  (mkeys p.requests).foldl cleanupStep (p, mas)

/-- Embedding of `PerNodeClaimRequests.Set`. -/
def PerNodeClaimRequests.Set (p : PerNodeClaimRequests) (claimUID node : String)
    (devices : RequestedMydevices) : PerNodeClaimRequests :=
  { requests :=
      minsert p.requests claimUID
        (minsert ((mlookup p.requests claimUID).getD []) node devices) }

/-- Embedding of `PerNodeClaimRequests.Remove`. -/
def PerNodeClaimRequests.Remove (p : PerNodeClaimRequests) (claimUID : String) :
    PerNodeClaimRequests :=
  { requests := mdelete p.requests claimUID }

/-! ## Device selection (`cmd/controller/driver.go`) -/

/-- The validation loop of `selectPotentialDevices` over a stored selection:
every stored device found in the pool is deleted from it; the first one missing
stops the loop with `reusePending = false`.  Returns the pool and `reusePending`. -/
def reuseLoop : GoMap AllocatableMydevice → List RequestedMydevice →
    GoMap AllocatableMydevice × Bool
  | available, [] => (available, true)
  | available, allocatedDevice :: rest =>
    if mhas available allocatedDevice.UID then
      reuseLoop (mdelete available allocatedDevice.UID) rest
    else (available, false)

/-- One iteration of the outer counting loop of the greedy selection: the inner
`range available` stops at the first entry whose value is a device of the
supported type, appends the UID of that value to `devices` and deletes the key
`device.UID` (the UID read through the value, not the key visited) from the
pool; without such an entry nothing changes. -/
def pickStep (st : GoMap AllocatableMydevice × List RequestedMydevice) :
    GoMap AllocatableMydevice × List RequestedMydevice :=
  match st.1.find? (fun e => e.2.Type_ = MydeviceType0) with
  | some e => (mdelete st.1 e.2.UID, st.2 ++ [{ UID := e.2.UID }])
  | none => st

/-- The greedy loop `for i := 0; i < Count; i++`, run `n` times. -/
def pickLoop : Nat → GoMap AllocatableMydevice × List RequestedMydevice →
    GoMap AllocatableMydevice × List RequestedMydevice
  | 0, st => st
  | n + 1, st => pickLoop n (pickStep st)

/-- Body of the loop of `selectPotentialDevices` for one claim whose parameters
are `claimParamsSpec`: the state is the working pool and `newlyAllocated`. -/
def selectOne (mas : MydeviceAllocationState) (claimUID : String)
    (claimParamsSpec : MydeviceClaimParametersSpec)
    (st : GoMap AllocatableMydevice × GoMap RequestedMydevices) :
    GoMap AllocatableMydevice × GoMap RequestedMydevices :=
  let greedy (available : GoMap AllocatableMydevice) :=
    let picked := pickLoop claimParamsSpec.Count.toNat (available, [])
    (picked.1, minsert st.2 claimUID { Spec := claimParamsSpec, Mydevices := picked.2 })
  match mlookup mas.Spec.requests claimUID with
  | some stored =>
    let validated := reuseLoop st.1 stored.Mydevices
    if validated.2 then
      (validated.1,
        minsert st.2 claimUID { Spec := claimParamsSpec, Mydevices := stored.Mydevices })
    else greedy validated.1
  | none => greedy st.1

/-- The loop of `selectPotentialDevices` over the batch; `none` when the
unchecked assertion `ca.ClaimParameters.(*MydeviceClaimParametersSpec)` fails. -/
def selectLoop (mas : MydeviceAllocationState) : List ClaimAllocation →
    GoMap AllocatableMydevice × GoMap RequestedMydevices →
    Option (GoMap AllocatableMydevice × GoMap RequestedMydevices)
  | [], st => some st
  | ca :: rest, st =>
    match ca.ClaimParameters with
    | .mydevice claimParamsSpec =>
      selectLoop mas rest (selectOne mas ca.Claim.UID claimParamsSpec st)
    | .other => none

/-- Embedding of `selectPotentialDevices`. -/
def selectPotentialDevices (mas : MydeviceAllocationState)
    (mcas : List ClaimAllocation) : Option (GoMap RequestedMydevices) :=
  (selectLoop mas mcas (Available mas, [])).map Prod.snd

/-- Working pool left by `selectPotentialDevices` after the claims `mcas`. -/
def poolAfter (mas : MydeviceAllocationState)
    (mcas : List ClaimAllocation) : Option (GoMap AllocatableMydevice) :=
  (selectLoop mas mcas (Available mas, [])).map Prod.fst

/-- Read `allocated[claimUID]` of a selection result, the zero value when absent. -/
def selectionOf (allocated : GoMap RequestedMydevices) (claimUID : String) :
    RequestedMydevices :=
  (mlookup allocated claimUID).getD RequestedMydevices.zero

/-! ## Scheduling-time controller (`cmd/controller/driver.go`) -/

/-- What one controller operation did: the Go return value, the record handed
to a successful `Update` (`none` when no update was accepted) and the
PendingRequest table after the call. -/
structure Outcome (α : Type) where
  result : Except DriverError α
  persisted : Option MydeviceAllocationState
  pending : PerNodeClaimRequests

/-- Embedding of `buildAllocationResult`. -/
def buildAllocationResult (selectedNode : String) (_shared : Bool) : AllocationResult :=
  { AvailableOnNodes := some
      { NodeSelectorTerms :=
          [{ MatchFields :=
              [{ Key := "metadata.name", Operator := "In", Values := [selectedNode] }] }] } }

/-- Embedding of `getSelectedNode`; `none` when an index is out of range. -/
def getSelectedNode (claim : ResourceClaim) : Option String :=
  match claim.Allocation with
  | none => some ""
  | some allocation =>
    match allocation.AvailableOnNodes with
    | none => some ""
    | some selector =>
      match selector.NodeSelectorTerms with
      | [] => none
      | term :: _ =>
        match term.MatchFields with
        | [] => none
        | field :: _ =>
          match field.Values with
          | [] => none
          | value :: _ => some value

/-- The loop of `unique`: `set` is the list of strings seen so far. -/
def uniqueLoop : List String → List String → List String → List String
  | [], _, filtered => filtered
  | str :: rest, set, filtered =>
    if str ∈ set then uniqueLoop rest set filtered
    else uniqueLoop rest (str :: set) (filtered ++ [str])

/-- Embedding of `unique`. -/
def unique (s : List String) : List String :=
  uniqueLoop s [] []

/-- The loop of `allocateImmediateClaim` over the listed node names. -/
def allocateImmediateLoop (cs : Clientset) (pending : PerNodeClaimRequests)
    (claim : ResourceClaim) (claimParameters : ClaimParameters) :
    List String → Outcome AllocationResult
  | [] => { result := .error .noSuitableNode, persisted := none, pending := pending }
  | nodename :: rest =>
    match masGet cs nodename with
    | none => allocateImmediateLoop cs pending claim claimParameters rest
    | some mas =>
      let ca : ClaimAllocation :=
        { Claim := claim, ClaimParameters := claimParameters, UnsuitableNodes := [] }
      match selectPotentialDevices mas [ca], claimParameters with
      | some allocated, .mydevice claimParamsSpec =>
        let claimUID := claim.UID
        if claimParamsSpec.Count ≠ ((selectionOf allocated claimUID).Mydevices.length : Int) then
          allocateImmediateLoop cs pending claim claimParameters rest
        else
          let mas1 := mas.setRequest claimUID (selectionOf allocated claimUID)
          let mas2 := MakeResourceClaimAllocation mas1 claimUID
          if cs.Update mas2 then
            { result := .ok (buildAllocationResult nodename true), persisted := some mas2,
              pending := pending }
          else { result := .error .updateFailed, persisted := none, pending := pending }
      | _, _ => { result := .error .runtimePanic, persisted := none, pending := pending }

/-- Embedding of `allocateImmediateClaim`. -/
def allocateImmediateClaim (cs : Clientset) (pending : PerNodeClaimRequests)
    (claim : ResourceClaim) (claimParameters : ClaimParameters) :
    Outcome AllocationResult :=
  match cs.ListNames with
  | none => { result := .error .listFailed, persisted := none, pending := pending }
  | some masnames => allocateImmediateLoop cs pending claim claimParameters masnames

/-- Embedding of `enoughResourcesForPendingClaim`. -/
def enoughResourcesForPendingClaim (pending : PerNodeClaimRequests)
    (mas : MydeviceAllocationState) (pendingClaimUID selectedNode : String) : Bool :=
  (pending.Get pendingClaimUID selectedNode).Mydevices.all
    (fun device => mhas (Available mas) device.UID)

/-- Does `allocatePendingClaim` take its early return: the requests map is not
nil and the allocations map has the claim. -/
def alreadyAllocated (mas : MydeviceAllocationState) (claimUID : String) : Bool :=
  match mas.Spec.ResourceClaimRequests with
  | none => false
  | some _ => mhas mas.Spec.ResourceClaimAllocations claimUID

/-- Embedding of `allocatePendingClaim`. -/
def allocatePendingClaim (cs : Clientset) (pending : PerNodeClaimRequests)
    (claim : ResourceClaim) (claimParameters : ClaimParameters) (nodename : String) :
    Outcome AllocationResult :=
  match claimParameters with
  | .other => { result := .error .unknownParametersKind, persisted := none, pending := pending }
  | .mydevice _ =>
    let claimUID := claim.UID
    match masGet cs nodename with
    | none => { result := .error (.getFailed nodename), persisted := none, pending := pending }
    | some mas =>
      if mas.Status ≠ MydeviceAllocationStateStatusReady then
        { result := .error (.notReady mas.Status), persisted := none, pending := pending }
      else if alreadyAllocated mas claimUID then
        { result := .ok (buildAllocationResult nodename true), persisted := none,
          pending := pending }
      else if claim.AllocationMode ≠ AllocationMode.Immediate
          ∧ pending.Exists claimUID nodename = false then
        { result := .error (.noAllocationRequests claimUID nodename), persisted := none,
          pending := pending }
      else if enoughResourcesForPendingClaim pending mas claimUID nodename then
        let mas1 := mas.setRequest claimUID (pending.Get claimUID nodename)
        let mas2 := MakeResourceClaimAllocation mas1 claimUID
        if cs.Update mas2 then
          { result := .ok (buildAllocationResult nodename true), persisted := some mas2,
            pending := pending.Remove claimUID }
        else { result := .error .updateFailed, persisted := none, pending := pending }
      else
        { result := .error (.insufficientResources nodename), persisted := none,
          pending := pending }

/-- Embedding of `Allocate`. -/
def Allocate (cs : Clientset) (pending : PerNodeClaimRequests) (claim : ResourceClaim)
    (claimParameters : ClaimParameters) (selectedNode : String) :
    Outcome AllocationResult :=
  if selectedNode = "" then allocateImmediateClaim cs pending claim claimParameters
  else allocatePendingClaim cs pending claim claimParameters selectedNode

/-- The record `Deallocate` hands to `Update`: the claim deleted from the
requests and from the allocations. -/
def deallocated (mas : MydeviceAllocationState) (claimUID : String) :
    MydeviceAllocationState :=
  { mas with Spec := { mas.Spec with
      ResourceClaimRequests := mas.Spec.ResourceClaimRequests.map (fun m => mdelete m claimUID),
      ResourceClaimAllocations := mdelete mas.Spec.ResourceClaimAllocations claimUID } }

/-- Embedding of `Deallocate`. -/
def Deallocate (cs : Clientset) (pending : PerNodeClaimRequests) (claim : ResourceClaim) :
    Outcome Unit :=
  match getSelectedNode claim with
  | none => { result := .error .runtimePanic, persisted := none, pending := pending }
  | some selectedNode =>
    if selectedNode = "" then { result := .ok (), persisted := none, pending := pending }
    else
      match masGet cs selectedNode with
      | none =>
        { result := .error (.getFailed selectedNode), persisted := none, pending := pending }
      | some mas =>
        let claimUID := claim.UID
        match mlookup mas.Spec.requests claimUID with
        | none => { result := .ok (), persisted := none, pending := pending }
        | some devices =>
          if devices.Spec.Type_ = MydeviceType0 then
            let pending1 := pending.Remove claimUID
            let mas1 := deallocated mas claimUID
            if cs.Update mas1 then
              { result := .ok (), persisted := some mas1, pending := pending1 }
            else { result := .error .updateFailed, persisted := none, pending := pending1 }
          else
            { result := .error (.unknownDeviceType devices.Spec.Type_), persisted := none,
              pending := pending }

/-! ### Unsuitable nodes -/

/-- What the filtering of one node did: the error returned, the batch with its
`UnsuitableNodes` lists, the PendingRequest table and the in-memory record
(which is not persisted). -/
structure FilterOutcome where
  err : Option DriverError
  cas : List ClaimAllocation
  pending : PerNodeClaimRequests
  mas : Option MydeviceAllocationState
deriving DecidableEq, Repr

/-- The statement `ca.UnsuitableNodes = append(ca.UnsuitableNodes, node)` for every
claim allocation of the batch. -/
def markUnsuitable (allcas : List ClaimAllocation) (node : String) : List ClaimAllocation :=
  allcas.map (fun ca => { ca with UnsuitableNodes := ca.UnsuitableNodes ++ [node] })

/-- The loop of `unsuitableMydeviceNode` over `mcas`, after the selection. -/
def unsuitableLoop (allocated : GoMap RequestedMydevices) (allcas : List ClaimAllocation) :
    List ClaimAllocation → PerNodeClaimRequests → MydeviceAllocationState → FilterOutcome
  | [], pending, mas => { err := none, cas := allcas, pending := pending, mas := some mas }
  | ca :: rest, pending, mas =>
    match ca.ClaimParameters with
    | .other => { err := some .runtimePanic, cas := allcas, pending := pending, mas := some mas }
    | .mydevice claimParamsSpec =>
      let claimUID := ca.Claim.UID
      if claimParamsSpec.Count ≠ ((selectionOf allocated claimUID).Mydevices.length : Int) then
        { err := none, cas := markUnsuitable allcas mas.Name, pending := pending,
          mas := some mas }
      else
        unsuitableLoop allocated allcas rest
          (pending.Set claimUID mas.Name (selectionOf allocated claimUID))
          (mas.setRequest claimUID (selectionOf allocated claimUID))

/-- Embedding of `unsuitableMydeviceNode`. -/
def unsuitableMydeviceNode (pending : PerNodeClaimRequests) (mas : MydeviceAllocationState)
    (mcas allcas : List ClaimAllocation) : FilterOutcome :=
  let cleaned := pending.CleanupNode mas
  match selectPotentialDevices cleaned.2 mcas with
  | none =>
    { err := some .runtimePanic, cas := allcas, pending := cleaned.1, mas := some cleaned.2 }
  | some allocated => unsuitableLoop allocated allcas mcas cleaned.1 cleaned.2

/-- The claim allocations whose parameters pass the checked type assertion. -/
def filteredCAs (allcas : List ClaimAllocation) : List ClaimAllocation :=
  allcas.filter (fun ca =>
    match ca.ClaimParameters with
    | .mydevice _ => true
    | .other => false)

/-- The in-memory record `unsuitableNode` hands to `unsuitableMydeviceNode`: a nil
requests map replaced by an empty one. -/
def withRequestsMap (mas : MydeviceAllocationState) : MydeviceAllocationState :=
  { mas with Spec := { mas.Spec with ResourceClaimRequests := some mas.Spec.requests } }

/-- Embedding of `unsuitableNode`. -/
def unsuitableNode (cs : Clientset) (pending : PerNodeClaimRequests)
    (allcas : List ClaimAllocation) (potentialNode : String) : FilterOutcome :=
  match masGet cs potentialNode with
  | none =>
    { err := none, cas := markUnsuitable allcas potentialNode, pending := pending, mas := none }
  | some mas =>
    if mas.Status ≠ MydeviceAllocationStateStatusReady then
      { err := none, cas := markUnsuitable allcas potentialNode, pending := pending,
        mas := some mas }
    else
      unsuitableMydeviceNode pending (withRequestsMap mas) (filteredCAs allcas) allcas

/-- The loop of `UnsuitableNodes` over the candidate nodes. -/
def unsuitableNodesLoop (cs : Clientset) :
    List String → PerNodeClaimRequests → List ClaimAllocation → FilterOutcome
  | [], pending, cas => { err := none, cas := cas, pending := pending, mas := none }
  | node :: rest, pending, cas =>
    let out := unsuitableNode cs pending cas node
    match out.err with
    | some e => { out with err := some e }
    | none => unsuitableNodesLoop cs rest out.pending out.cas

/-- Embedding of `UnsuitableNodes`: on success every list is deduplicated. -/
def UnsuitableNodes (cs : Clientset) (pending : PerNodeClaimRequests)
    (cas : List ClaimAllocation) (potentialNodes : List String) : FilterOutcome :=
  let out := unsuitableNodesLoop cs potentialNodes pending cas
  match out.err with
  | some _ => out
  | none =>
    let dedup (claimallocation : ClaimAllocation) : ClaimAllocation :=
      { claimallocation with UnsuitableNodes := unique claimallocation.UnsuitableNodes }
    { out with cas := out.cas.map dedup }

/-! ## Predicates on records -/

/-- No double-booking: two different entries of `ResourceClaimAllocations` never
list the same device UID. -/
def NoDoubleBooking (g : MydeviceAllocationState) : Prop :=
  g.Spec.ResourceClaimAllocations.Pairwise
    (fun e1 e2 => ∀ d1 ∈ e1.2, ∀ d2 ∈ e2.2, d1.UID ≠ d2.UID)

/-- Every key of `AllocatableMydevices` is the UID of the device stored under it. -/
def KeysAreUIDs (g : MydeviceAllocationState) : Prop :=
  ∀ e ∈ g.Spec.AllocatableMydevices, e.1 = e.2.UID

instance (g : MydeviceAllocationState) : Decidable (NoDoubleBooking g) := by
  unfold NoDoubleBooking
  infer_instance

instance (g : MydeviceAllocationState) : Decidable (KeysAreUIDs g) := by
  unfold KeysAreUIDs
  infer_instance

/-! ## Sample records and claims -/

/-- A device of the supported type stored under its own UID. -/
def sampleDevice (uid : String) : AllocatableMydevice :=
  { CDIDevice := uid, Type_ := MydeviceType0, UID := uid }

/-- The allocatable map of the devices `uids`, each keyed by its UID. -/
def sampleDevices (uids : List String) : GoMap AllocatableMydevice :=
  uids.map (fun uid => (uid, sampleDevice uid))

/-- A record store holding the single record `mas`, every call succeeding. -/
def singleNode (mas : MydeviceAllocationState) : Clientset :=
  { ListNames := some [mas.Name],
    Get := fun nodename => if nodename = mas.Name then some mas else none,
    Update := fun _ => true }

/-- A Ready record of node `n1` with the devices `d0`, `d1`, `d2`, of which `d0`
is requested by and committed to claim `c0`. -/
def sampleRecord : MydeviceAllocationState :=
  { Name := "n1",
    Spec :=
      { AllocatableMydevices := sampleDevices ["d0", "d1", "d2"],
        ResourceClaimAllocations :=
          [("c0", [{ CDIDevice := "d0", Type_ := MydeviceType0, UID := "d0" }])],
        ResourceClaimRequests :=
          some [("c0", { Spec := { Count := 1, Type_ := MydeviceType0 },
                         Mydevices := [{ UID := "d0" }] })] },
    Status := MydeviceAllocationStateStatusReady }

/-- A claim with the given UID, allocation mode and no recorded allocation. -/
def sampleClaim (uid : String) (mode : AllocationMode) : ResourceClaim :=
  { UID := uid, AllocationMode := mode, Allocation := none }

/-- Claim parameters asking for `count` devices of the supported type. -/
def sampleParams (count : Int) : ClaimParameters :=
  .mydevice { Count := count, Type_ := MydeviceType0 }

/-- Subset invariant: every device UID listed in `ResourceClaimRequests` or in
`ResourceClaimAllocations` is a key of `AllocatableMydevices`. -/
def SubsetInvariant (g : MydeviceAllocationState) : Prop :=
  (∀ e ∈ g.Spec.requests, ∀ d ∈ e.2.Mydevices,
      mhas g.Spec.AllocatableMydevices d.UID = true) ∧
  (∀ e ∈ g.Spec.ResourceClaimAllocations, ∀ d ∈ e.2,
      mhas g.Spec.AllocatableMydevices d.UID = true)

instance (g : MydeviceAllocationState) : Decidable (SubsetInvariant g) := by
  unfold SubsetInvariant
  infer_instance

/-- A Ready record of node `n1` whose only device, of UID `d0`, is stored under
the key `slot0`; nothing is requested or committed. -/
def misKeyedRecord : MydeviceAllocationState :=
  { Name := "n1",
    Spec :=
      { AllocatableMydevices := [("slot0", sampleDevice "d0")],
        ResourceClaimAllocations := [],
        ResourceClaimRequests := none },
    Status := MydeviceAllocationStateStatusReady }

/-- A PendingRequest table with the single entry `(claimUID, node)` selecting the
devices `uids`. -/
def samplePending (claimUID node : String) (uids : List String) : PerNodeClaimRequests :=
  { requests :=
      [(claimUID,
        [(node, { Spec := { Count := uids.length, Type_ := MydeviceType0 },
                  Mydevices := uids.map (fun uid => { UID := uid }) })])] }

/-- Every claim allocation of the batch carries Mydevice claim parameters. -/
def Supported (mcas : List ClaimAllocation) : Prop :=
  ∀ ca ∈ mcas, ∃ spec, ca.ClaimParameters = .mydevice spec

/-- A claim allocation for claim `uid` asking for `count` devices. -/
def sampleCA (uid : String) (count : Int) : ClaimAllocation :=
  { Claim := sampleClaim uid .WaitForFirstConsumer, ClaimParameters := sampleParams count,
    UnsuitableNodes := [] }

/-- A Ready record of node `n1` with the single free device `d0` whose stored
selection for claim `c1` lists `d0` twice. -/
def duplicateSelectionRecord : MydeviceAllocationState :=
  { Name := "n1",
    Spec :=
      { AllocatableMydevices := sampleDevices ["d0"],
        ResourceClaimAllocations := [],
        ResourceClaimRequests :=
          some [("c1", { Spec := { Count := 2, Type_ := MydeviceType0 },
                         Mydevices := [{ UID := "d0" }, { UID := "d0" }] })] },
    Status := MydeviceAllocationStateStatusReady }

/-- A working pool all of whose values read the one device `v`, as every pool
derived from `Available` does. -/
def SharedPool (v : AllocatableMydevice) (pool : GoMap AllocatableMydevice) : Prop :=
  ∀ e ∈ pool, e.2 = v

/-- The state of the loop of `selectPotentialDevices` while no claim of the batch
has a stored selection: the values of the pool read the device `v`, the pool has
a key other than the UID of `v`, and every selection recorded lists the UID of
`v` as many times as the claim requests devices. -/
def Repeats (v : AllocatableMydevice)
    (st : GoMap AllocatableMydevice × GoMap RequestedMydevices) : Prop :=
  SharedPool v st.1 ∧ mdelete st.1 v.UID ≠ [] ∧
  ∀ e ∈ st.2, e.2.Mydevices
    = List.replicate e.2.Spec.Count.toNat ({ UID := v.UID } : RequestedMydevice)

/-- A record of node `n1` that is not Ready although it lists the free device `d0`. -/
def notReadyRecord : MydeviceAllocationState :=
  { Name := "n1",
    Spec :=
      { AllocatableMydevices := sampleDevices ["d0"],
        ResourceClaimAllocations := [],
        ResourceClaimRequests := none },
    Status := MydeviceAllocationStateStatusNotReady }

/-- A Ready record of node `n1` with devices `d0`, `d1` in which `d0` is committed
to claim `c1` while the requests map is nil. -/
def committedWithoutRequests : MydeviceAllocationState :=
  { Name := "n1",
    Spec :=
      { AllocatableMydevices := sampleDevices ["d0", "d1"],
        ResourceClaimAllocations :=
          [("c1", [{ CDIDevice := "d0", Type_ := MydeviceType0, UID := "d0" }])],
        ResourceClaimRequests := none },
    Status := MydeviceAllocationStateStatusReady }

/-- A Ready record of node `n1` with the four free devices `d0` to `d3`. -/
def fourDevicesRecord : MydeviceAllocationState :=
  { Name := "n1",
    Spec :=
      { AllocatableMydevices := sampleDevices ["d0", "d1", "d2", "d3"],
        ResourceClaimAllocations := [],
        ResourceClaimRequests := none },
    Status := MydeviceAllocationStateStatusReady }

/-- The record `fourDevicesRecord` after `d3` was committed twice to `c1`. -/
def fourDevicesFirst : MydeviceAllocationState :=
  { Name := "n1",
    Spec :=
      { AllocatableMydevices := sampleDevices ["d0", "d1", "d2", "d3"],
        ResourceClaimAllocations :=
          [("c1", [{ CDIDevice := "d3", Type_ := MydeviceType0, UID := "d3" },
                   { CDIDevice := "d3", Type_ := MydeviceType0, UID := "d3" }])],
        ResourceClaimRequests :=
          some [("c1", { Spec := { Count := 2, Type_ := MydeviceType0 },
                         Mydevices := [{ UID := "d3" }, { UID := "d3" }] })] },
    Status := MydeviceAllocationStateStatusReady }

/-- The record `fourDevicesFirst` as a later `range` over its allocatable map
visits it: the same bindings, `d1` last. -/
def fourDevicesFirstReordered : MydeviceAllocationState :=
  { fourDevicesFirst with
    Spec := { fourDevicesFirst.Spec with
      AllocatableMydevices := sampleDevices ["d3", "d2", "d0", "d1"] } }

/-- The record `sampleRecord` as a `range` over its allocatable map visits it
when the committed device `d0` comes last: the same bindings in the order `d1`,
`d2`, `d0`. -/
def committedLastRecord : MydeviceAllocationState :=
  { sampleRecord with
    Spec := { sampleRecord.Spec with
      AllocatableMydevices := sampleDevices ["d1", "d2", "d0"] } }

/-- A Ready record of node `n1` whose single device `d0` is requested by and
committed to claim `c0`. -/
def busyDeviceRecord : MydeviceAllocationState :=
  { Name := "n1",
    Spec :=
      { AllocatableMydevices := sampleDevices ["d0"],
        ResourceClaimAllocations :=
          [("c0", [{ CDIDevice := "d0", Type_ := MydeviceType0, UID := "d0" }])],
        ResourceClaimRequests :=
          some [("c0", { Spec := { Count := 1, Type_ := MydeviceType0 },
                         Mydevices := [{ UID := "d0" }] })] },
    Status := MydeviceAllocationStateStatusReady }

/-- A Ready record of node `n1` with the two free devices `d0` and `d1`. -/
def twoDevicesRecord : MydeviceAllocationState :=
  { Name := "n1",
    Spec :=
      { AllocatableMydevices := sampleDevices ["d0", "d1"],
        ResourceClaimAllocations := [],
        ResourceClaimRequests := none },
    Status := MydeviceAllocationStateStatusReady }

/-- A claim with UID `uid` whose recorded allocation binds it to `node`. -/
def boundClaim (uid node : String) : ResourceClaim :=
  { UID := uid, AllocationMode := .WaitForFirstConsumer,
    Allocation := some (buildAllocationResult node true) }

/-- A Ready record of node `n1` with the five free devices `d0` to `d4`. -/
def fiveDevicesRecord : MydeviceAllocationState :=
  { Name := "n1",
    Spec :=
      { AllocatableMydevices := sampleDevices ["d0", "d1", "d2", "d3", "d4"],
        ResourceClaimAllocations := [],
        ResourceClaimRequests := none },
    Status := MydeviceAllocationStateStatusReady }

/-- The test of the loop of `allocateImmediateClaim` for one listed node: the
record loads and the selection for the claim has the requested length. -/
def nodeFits (cs : Clientset) (claim : ResourceClaim) (spec : MydeviceClaimParametersSpec)
    (nodename : String) : Bool :=
  match masGet cs nodename with
  | none => false
  | some mas =>
    match selectPotentialDevices mas
      [{ Claim := claim, ClaimParameters := .mydevice spec, UnsuitableNodes := [] }] with
    | none => false
    | some allocated =>
      decide (spec.Count = ((selectionOf allocated claim.UID).Mydevices.length : Int))

/-- A record store holding the records `records` under their names, listed in
this order, every call succeeding. -/
def nodeList (records : List MydeviceAllocationState) : Clientset :=
  { ListNames := some (records.map (fun mas => mas.Name)),
    Get := fun nodename => records.find? (fun mas => mas.Name = nodename),
    Update := fun _ => true }

/-- A Ready record of node `n0` with the single free device `e0`. -/
def oneDeviceRecord : MydeviceAllocationState :=
  { Name := "n0",
    Spec :=
      { AllocatableMydevices := sampleDevices ["e0"],
        ResourceClaimAllocations := [],
        ResourceClaimRequests := none },
    Status := MydeviceAllocationStateStatusReady }

/-- A record store without any record: every `Get` fails. -/
def emptyStore : Clientset :=
  { ListNames := some [], Get := fun _ => none, Update := fun _ => true }

/-- The strings of `s`, each once, in the order of their first occurrence: the
head of the list first, then the first occurrences of the remaining strings. -/
def firstOccurrences : List String → List String
  | [] => []
  | x :: s => x :: (firstOccurrences s).filter (fun y => y ≠ x)

/-! ## Node-resident agent (`cmd/kubelet-plugin`) -/

/-- A device as the agent knows it (`DeviceInfo`). -/
structure DeviceInfo where
  uid : String
  cdiname : String
  deviceType : String
  card : String
  renderd : String
deriving DecidableEq, Repr

/-- Constants the agent takes from files that are not among the sources: the CDI
kind `cdiKind` of the plugin's main file and the number of attempts of
`retry.DefaultRetry` (5 in client-go). -/
structure AgentConfig where
  cdiKind : String
  retrySteps : Nat
deriving DecidableEq, Repr

/-- Embedding of `DeviceInfo.CDIDevice`: `fmt.Sprintf("%s=%s", cdiKind, g.cdiname)`. -/
def DeviceInfo.CDIDevice (cfg : AgentConfig) (g : DeviceInfo) : String :=
  cfg.cdiKind ++ "=" ++ g.cdiname

/-- The device database of the CDI registry as `getAllocatedAsCDIDevices` reads
it: a device reference is mapped to the qualified name of the device found
(`GetDevice` followed by `GetQualifiedName`); a reference without binding is a
failed lookup. -/
structure CdiRegistry where
  devices : GoMap String
deriving DecidableEq, Repr

/-- Local node state (`nodeState`): the registry, the allocatable devices by UID
and the active allocations by claim.  The slices stored in `allocations` are
never nil in the code, so a missing key is the only nil read. -/
structure nodeState where
  cdi : CdiRegistry
  allocatable : GoMap DeviceInfo
  allocations : GoMap (List DeviceInfo)
deriving DecidableEq, Repr

/-- An error of the record store: a version conflict (`errors.IsConflict`) or
another error. -/
inductive ApiError where
  | conflict
  | other
deriving DecidableEq, Repr

/-- Errors of the agent, one constructor per error site: a store error returned
as it is, the wrapped error of `NodeUnprepareResource`, the two errors of the
local state, a failed call into the CDI registry, and the timeout of the retry
loop. -/
inductive AgentError where
  | store (e : ApiError)
  | freeingDevices (claimUid : String)
  | deviceNotFound (deviceUid claimUid : String)
  | unsupportedDeviceType (deviceType : String)
  | registryFailed
  | waitTimeout
deriving DecidableEq, Repr

/-- Is the error a version conflict for `retry.RetryOnConflict`: only a store
error returned unwrapped can be. -/
def AgentError.isConflict : AgentError → Bool
  | .store .conflict => true
  | _ => false

/-- The record store as the agent sees it: the result of `d.mas.Get()` and of
`d.mas.Update` in the attempt with the given number (`none` for an accepted
update). -/
structure NodeStore where
  Get : Nat → Except ApiError MydeviceAllocationState
  Update : Nat → MydeviceAllocationState → Option ApiError

/-- The loop of `free` over the devices of the claim: nothing is done for a device
of the supported type, another type is an error. -/
def freeLoop : List DeviceInfo → Option AgentError
  | [] => none
  | device :: rest =>
    if device.deviceType = MydeviceType0 then freeLoop rest
    else some (.unsupportedDeviceType device.deviceType)

/-- Embedding of `nodeState.free`. -/
def nodeState.free (s : nodeState) (claimUid : String) : nodeState × Option AgentError :=
  match mlookup s.allocations claimUid with
  | none => (s, none)
  | some devices =>
    match freeLoop devices with
    | some e => (s, some e)
    | none => ({ s with allocations := mdelete s.allocations claimUid }, none)

/-- Embedding of `syncAllocatableDevicesToMASSpec`. -/
def nodeState.syncAllocatableDevicesToMASSpec (s : nodeState)
    (spec : MydeviceAllocationStateSpec) : MydeviceAllocationStateSpec :=
  let devices := s.allocatable.foldl
    (fun (devices : GoMap AllocatableMydevice) e =>
      minsert devices e.2.uid
        { CDIDevice := e.2.cdiname, Type_ := e.2.deviceType, UID := e.2.uid }) []
  { spec with AllocatableMydevices := devices }

/-- The allocated devices written for one claim by `syncAllocatedDevicesToMASSpec`:
the devices of the supported type. -/
def allocatedDevicesOf (cfg : AgentConfig) (devices : List DeviceInfo) :
    List AllocatedMydevice :=
  devices.filterMap (fun device =>
    if device.deviceType = MydeviceType0 then
      some { UID := device.uid, CDIDevice := device.CDIDevice cfg,
             Type_ := device.deviceType }
    else none)

/-- Embedding of `syncAllocatedDevicesToMASSpec`. -/
def nodeState.syncAllocatedDevicesToMASSpec (cfg : AgentConfig) (s : nodeState)
    (masspec : MydeviceAllocationStateSpec) : MydeviceAllocationStateSpec :=
  let outrcas := s.allocations.foldl
    (fun (outrcas : GoMap (List AllocatedMydevice)) e =>
      minsert outrcas e.1 (allocatedDevicesOf cfg e.2)) []
  { masspec with ResourceClaimAllocations := outrcas }

/-- Embedding of `getUpdatedSpec`. -/
def nodeState.getUpdatedSpec (cfg : AgentConfig) (s : nodeState)
    (inspec : MydeviceAllocationStateSpec) : MydeviceAllocationStateSpec :=
  s.syncAllocatedDevicesToMASSpec cfg (s.syncAllocatableDevicesToMASSpec inspec)

/-- The loop of `getAllocatedAsCDIDevices` over the devices of the claim: a failed
lookup returns the empty list. -/
def cdiNamesLoop (cfg : AgentConfig) (cdi : CdiRegistry) :
    List DeviceInfo → List String → List String
  | [], devs => devs
  | device :: rest, devs =>
    match mlookup cdi.devices (device.CDIDevice cfg) with
    | none => []
    | some qualifiedName => cdiNamesLoop cfg cdi rest (devs ++ [qualifiedName])

/-- Embedding of `getAllocatedAsCDIDevices`. -/
def nodeState.getAllocatedAsCDIDevices (cfg : AgentConfig) (s : nodeState)
    (claimUid : String) : List String :=
  cdiNamesLoop cfg s.cdi ((mlookup s.allocations claimUid).getD []) []

/-- The inner loop of `syncAllocatedDevicesFromMASSpec` over the devices committed
to one claim. -/
def syncClaimLoop (claimUid : String) :
    List AllocatedMydevice → nodeState → nodeState × Option AgentError
  | [], s => (s, none)
  | d :: rest, s =>
    if d.Type_ = MydeviceType0 then
      match mlookup s.allocatable d.UID with
      | none => (s, some (.deviceNotFound d.UID claimUid))
      | some newdevice =>
        let devices := (mlookup s.allocations claimUid).getD [] ++ [newdevice]
        syncClaimLoop claimUid rest
          { s with allocations := minsert s.allocations claimUid devices }
    else syncClaimLoop claimUid rest s

/-- The outer loop of `syncAllocatedDevicesFromMASSpec` over the claims. -/
def syncLoop : GoMap (List AllocatedMydevice) → nodeState → nodeState × Option AgentError
  | [], s => (s, none)
  | (claimUid, devices) :: rest, s =>
    match syncClaimLoop claimUid devices
        { s with allocations := minsert s.allocations claimUid [] } with
    | (s1, some e) => (s1, some e)
    | (s1, none) => syncLoop rest s1

/-- Embedding of `syncAllocatedDevicesFromMASSpec`: the state after the call and
the error returned. -/
def nodeState.syncAllocatedDevicesFromMASSpec (s : nodeState)
    (spec : MydeviceAllocationStateSpec) : nodeState × Option AgentError :=
  syncLoop spec.ResourceClaimAllocations s

/-- Modelled from the spec: the bounded retry on a version conflict
(`retry.RetryOnConflict`, a library function).  `fn` is run in the attempts
`attempt`, `attempt + 1`, ... until it returns no error or an error that is not
a conflict, at most `steps` times; the last conflict is returned when the
attempts are used up. -/
def retryOnConflict {σ α : Type} (fn : Nat → σ → σ × Except AgentError α) :
    Nat → Nat → σ → σ × Except AgentError α
  | 0, _, s => (s, .error .waitTimeout)
  | steps + 1, attempt, s =>
    match fn attempt s with
    | (s1, .ok a) => (s1, .ok a)
    | (s1, .error e) =>
      if e.isConflict then
        if steps = 0 then (s1, .error e) else retryOnConflict fn steps (attempt + 1) s1
      else (s1, .error e)

/-- What one call of the agent did: the Go return value, the local node state
after the call and the record handed to an accepted `Update` (if any). -/
structure AgentOutcome (α : Type) where
  result : Except AgentError α
  state : nodeState
  persisted : Option MydeviceAllocationState

/-- The function retried by `NodePrepareResource`. -/
def prepareAttempt (cfg : AgentConfig) (store : NodeStore) (claimUid : String)
    (attempt : Nat) (s : nodeState) : nodeState × Except AgentError (List String) :=
  match store.Get attempt with
  | .error e => (s, .error (.store e))
  | .ok mas =>
    match s.syncAllocatedDevicesFromMASSpec mas.Spec with
    | (s1, some e) => (s1, .error e)
    | (s1, none) => (s1, .ok (s1.getAllocatedAsCDIDevices cfg claimUid))

/-- Embedding of `NodePrepareResource`: the response is the list `CdiDevices`.  The
function calls `Get` in every attempt and never `getUpdatedSpec` or `Update`, so
it hands no record to the store. -/
def NodePrepareResource (cfg : AgentConfig) (store : NodeStore) (s : nodeState)
    (claimUid : String) : AgentOutcome (List String) :=
  let out := retryOnConflict (prepareAttempt cfg store claimUid) cfg.retrySteps 0 s
  { result := out.2, state := out.1, persisted := none }

/-- The function retried by `NodeUnprepareResource`; the state carries the record
handed to an accepted `Update`. -/
def unprepareAttempt (cfg : AgentConfig) (store : NodeStore) (claimUid : String)
    (attempt : Nat) (st : nodeState × Option MydeviceAllocationState) :
    (nodeState × Option MydeviceAllocationState) × Except AgentError Unit :=
  match store.Get attempt with
  | .error _ => (st, .error (.freeingDevices claimUid))
  | .ok mas =>
    match st.1.free claimUid with
    | (s1, some _) => ((s1, st.2), .error (.freeingDevices claimUid))
    | (s1, none) =>
      let updated : MydeviceAllocationState :=
        { mas with Spec := s1.getUpdatedSpec cfg mas.Spec }
      match store.Update attempt updated with
      | some e => ((s1, st.2), .error (.store e))
      | none => ((s1, some updated), .ok ())

/-- Embedding of `NodeUnprepareResource`. -/
def NodeUnprepareResource (cfg : AgentConfig) (store : NodeStore) (s : nodeState)
    (claimUid : String) : AgentOutcome Unit :=
  let out := retryOnConflict (unprepareAttempt cfg store claimUid) cfg.retrySteps 0 (s, none)
  { result := out.2, state := out.1.1, persisted := out.1.2 }


/-! ## Fixtures of the agent -/

/-- An agent configuration with a sample CDI kind and the five attempts of the
default retry. -/
def sampleAgentConfig : AgentConfig :=
  { cdiKind := "example.com/mydevice", retrySteps := 5 }

/-- A device of the given type whose CDI name is its UID. -/
def sampleDeviceInfo (uid deviceType : String) : DeviceInfo :=
  { uid := uid, cdiname := uid, deviceType := deviceType,
    card := "card-" ++ uid, renderd := "renderD-" ++ uid }

/-- A node state with the allocatable devices `d0` and `d1`, both known to the
CDI registry, and no active allocation. -/
def sampleNodeState : nodeState :=
  { cdi := { devices := [("example.com/mydevice=d0", "example.com/mydevice=d0"),
                         ("example.com/mydevice=d1", "example.com/mydevice=d1")] },
    allocatable := [("d0", sampleDeviceInfo "d0" MydeviceType0),
                    ("d1", sampleDeviceInfo "d1" MydeviceType0)],
    allocations := [] }

/-- A store that returns the given record in every attempt and accepts every
update. -/
def constStore (mas : MydeviceAllocationState) : NodeStore :=
  { Get := fun _ => .ok mas, Update := fun _ _ => none }

/-- A record spec that commits device `d7` of the unsupported type `type1` to
claim `c0`. -/
def unsupportedCommittedSpec : MydeviceAllocationStateSpec :=
  { AllocatableMydevices := [],
    ResourceClaimAllocations :=
      [("c0", [{ CDIDevice := "d7", Type_ := "type1", UID := "d7" }])],
    ResourceClaimRequests := none }

/-- A record spec that commits device `d9` of the supported type, which the
sample node state does not have, to claim `c0`. -/
def missingCommittedSpec : MydeviceAllocationStateSpec :=
  { AllocatableMydevices := [],
    ResourceClaimAllocations :=
      [("c0", [{ CDIDevice := "d9", Type_ := MydeviceType0, UID := "d9" }])],
    ResourceClaimRequests := none }

/-- The sample node state with the CDI registry knowing only device `d0`. -/
def partialRegistryState : nodeState :=
  { sampleNodeState with
    cdi := { devices := [("example.com/mydevice=d0", "example.com/mydevice=d0")] } }

/-- A Ready record of node `n1` that commits the devices `d0` and `d1` to claim
`c1`. -/
def twoCommittedRecord : MydeviceAllocationState :=
  { Name := "n1",
    Spec :=
      { AllocatableMydevices := sampleDevices ["d0", "d1"],
        ResourceClaimAllocations :=
          [("c1", [{ CDIDevice := "d0", Type_ := MydeviceType0, UID := "d0" },
                   { CDIDevice := "d1", Type_ := MydeviceType0, UID := "d1" }])],
        ResourceClaimRequests := none },
    Status := MydeviceAllocationStateStatusReady }

/-- The sample node state with the devices `d0` and `d1` in the active
allocation of claim `c1`. -/
def allocatedNodeState : nodeState :=
  { sampleNodeState with
    allocations := [("c1", [sampleDeviceInfo "d0" MydeviceType0,
                            sampleDeviceInfo "d1" MydeviceType0])] }

/-! ## Device inventory of the agent (`cmd/kubelet-plugin/node_state.go`) -/

/-- What the calls of one function into the CDI registry library did (`Refresh`,
the reads of the vendor specs and `WriteSpec`, in `syncDetectedDevicesWithCdiRegistry`
as well): whether a call whose error the function returns failed, and the
registry afterwards.  The library is not modelled. -/
structure RegistryCalls where
  failed : Bool
  registry : CdiRegistry
deriving DecidableEq, Repr

/-- Embedding of `newNodeState`.  `detecteddevices` is the result of
`enumerateAllPossibleDevices`, which reads the host. -/
def newNodeState (detecteddevices : GoMap DeviceInfo) (calls : RegistryCalls)
    (mas : MydeviceAllocationState) : Except AgentError nodeState :=
  if calls.failed then .error .registryFailed
  else
    let state : nodeState :=
      { cdi := calls.registry, allocatable := detecteddevices, allocations := [] }
    match state.syncAllocatedDevicesFromMASSpec mas.Spec with
    | (_, some e) => .error e
    | (state1, none) => .ok state1

/-- Embedding of `announceNewDevices`: the state after the call and the error
returned. -/
def nodeState.announceNewDevices (s : nodeState) (calls : RegistryCalls)
    (newDevices : GoMap DeviceInfo) : nodeState × Option AgentError :=
  if calls.failed then ({ s with cdi := calls.registry }, some .registryFailed)
  else
    let allocatable := newDevices.foldl
      (fun (allocatable : GoMap DeviceInfo) e => minsert allocatable e.1 e.2) s.allocatable
    ({ s with cdi := calls.registry, allocatable := allocatable }, none)

/-- Embedding of `unannounceDevices`: the loop over the allocatable devices deletes
the key `availDev.uid` for every device with the given UID; the error of
`Refresh` is returned after the loop. -/
def nodeState.unannounceDevices (s : nodeState) (calls : RegistryCalls)
    (deviceUid : String) : nodeState × Option AgentError :=
  let allocatable := s.allocatable.foldl
    (fun (allocatable : GoMap DeviceInfo) e =>
      if e.2.uid = deviceUid then mdelete allocatable e.2.uid else allocatable) s.allocatable
  ({ s with cdi := calls.registry, allocatable := allocatable },
    if calls.failed then some .registryFailed else none)

/-- A call that changes the local node state. -/
inductive AgentCall where
  | sync (spec : MydeviceAllocationStateSpec)
  | free (claimUid : String)
  | announce (calls : RegistryCalls) (newDevices : GoMap DeviceInfo)
  | unannounce (calls : RegistryCalls) (deviceUid : String)
deriving DecidableEq, Repr

/-- The local node state after one call, whether it returned an error or not. -/
def AgentCall.run (call : AgentCall) (s : nodeState) : nodeState :=
  match call with
  | .sync spec => (s.syncAllocatedDevicesFromMASSpec spec).1
  | .free claimUid => (s.free claimUid).1
  | .announce calls newDevices => (s.announceNewDevices calls newDevices).1
  | .unannounce calls deviceUid => (s.unannounceDevices calls deviceUid).1

/-- The local node state after a sequence of calls. -/
def runCalls : List AgentCall → nodeState → nodeState
  | [], s => s
  | call :: rest, s => runCalls rest (call.run s)

/-- A call that keeps the devices of the active allocations allocatable: announced
devices are keyed by their UID, and an unannounced device is in no active
allocation. -/
def AgentCall.KeepsAllocated (call : AgentCall) (s : nodeState) : Prop :=
  match call with
  | .sync _ => True
  | .free _ => True
  | .announce _ newDevices => ∀ e ∈ newDevices, e.1 = e.2.uid
  | .unannounce _ deviceUid => ∀ e ∈ s.allocations, ∀ device ∈ e.2, device.uid ≠ deviceUid

instance (call : AgentCall) (s : nodeState) : Decidable (call.KeepsAllocated s) :=
  match call with
  | .sync _ => isTrue trivial
  | .free _ => isTrue trivial
  | .announce _ newDevices =>
    inferInstanceAs (Decidable (∀ e ∈ newDevices, e.1 = e.2.uid))
  | .unannounce _ deviceUid =>
    inferInstanceAs (Decidable (∀ e ∈ s.allocations, ∀ device ∈ e.2, device.uid ≠ deviceUid))

/-- Every call of the sequence keeps the allocated devices allocatable in the
state it is run on. -/
def CallsKeepAllocated : List AgentCall → nodeState → Prop
  | [], _ => True
  | call :: rest, s => call.KeepsAllocated s ∧ CallsKeepAllocated rest (call.run s)

/-- The local allocatable devices are keyed by their UID and every device of an
active allocation is allocatable. -/
def StateOK (s : nodeState) : Prop :=
  (∀ e ∈ s.allocatable, e.1 = e.2.uid) ∧
  ∀ e ∈ s.allocations, ∀ device ∈ e.2, device.uid ∈ mkeys s.allocatable

/-- Subset invariant for the committed allocations of a record spec: every device
UID of an allocation is a key of the allocatable map. -/
def AllocationsSubset (spec : MydeviceAllocationStateSpec) : Prop :=
  ∀ e ∈ spec.ResourceClaimAllocations, ∀ d ∈ e.2, d.UID ∈ mkeys spec.AllocatableMydevices

instance (spec : MydeviceAllocationStateSpec) : Decidable (AllocationsSubset spec) := by
  unfold AllocationsSubset
  infer_instance

/-- Registry calls that all succeed and leave the registry of the sample node
state. -/
def sampleCalls : RegistryCalls :=
  { failed := false, registry := sampleNodeState.cdi }

/-- The node state of `allocatedNodeState` after device `d1` has gone from the
allocatable set: claim `c1` still holds `d0` and `d1`. -/
def unpluggedNodeState : nodeState :=
  { allocatedNodeState with allocatable := [("d0", sampleDeviceInfo "d0" MydeviceType0)] }

/-- A Ready record of node `n1` that commits `d0` to claim `c0` and `d1` to claim
`c1`. -/
def twoClaimsRecord : MydeviceAllocationState :=
  { Name := "n1",
    Spec :=
      { AllocatableMydevices := sampleDevices ["d0", "d1"],
        ResourceClaimAllocations :=
          [("c0", [{ CDIDevice := "d0", Type_ := MydeviceType0, UID := "d0" }]),
           ("c1", [{ CDIDevice := "d1", Type_ := MydeviceType0, UID := "d1" }])],
        ResourceClaimRequests := none },
    Status := MydeviceAllocationStateStatusReady }

/-- The sample node state with device `d1` in the active allocation of claim `c1`
and no active allocation for `c0`. -/
def oneClaimNodeState : nodeState :=
  { sampleNodeState with
    allocations := [("c1", [sampleDeviceInfo "d1" MydeviceType0])] }

/-- A PendingRequest table in which claim `c1` has a selection on the nodes `n1`
and `n2` and claim `c2` has a selection on `n1`. -/
def twoNodePending : PerNodeClaimRequests :=
  { requests :=
      [("c1", [("n1", { Spec := { Count := 1, Type_ := MydeviceType0 },
                        Mydevices := [{ UID := "d1" }] }),
               ("n2", { Spec := { Count := 1, Type_ := MydeviceType0 },
                        Mydevices := [{ UID := "x1" }] })]),
       ("c2", [("n1", { Spec := { Count := 1, Type_ := MydeviceType0 },
                        Mydevices := [{ UID := "d2" }] })])] }

/-- A Ready record of node `n1` with free devices `d0`, `d1`, `d2` whose requests
hold a selection for claim `c1`; nothing is committed. -/
def requestedOnlyRecord : MydeviceAllocationState :=
  { Name := "n1",
    Spec :=
      { AllocatableMydevices := sampleDevices ["d0", "d1", "d2"],
        ResourceClaimAllocations := [],
        ResourceClaimRequests :=
          some [("c1", { Spec := { Count := 1, Type_ := MydeviceType0 },
                         Mydevices := [{ UID := "d1" }] })] },
    Status := MydeviceAllocationStateStatusReady }

/-- The table after the statements `PendingClaimRequests.Set(claimUID, mas.Name,
allocated[claimUID])` for the claim allocations `done`, in order. -/
def setSelections (allocated : GoMap RequestedMydevices) (node : String)
    (done : List ClaimAllocation) (pending : PerNodeClaimRequests) : PerNodeClaimRequests :=
  done.foldl
    (fun p ca => p.Set ca.Claim.UID node (selectionOf allocated ca.Claim.UID)) pending

/-- A Ready record of node `n1` with the single device `d0`, whose requests hold
for claim `c1` a selection of the device `d9`, which is not allocatable. -/
def unknownRequestRecord : MydeviceAllocationState :=
  { Name := "n1",
    Spec :=
      { AllocatableMydevices := sampleDevices ["d0"],
        ResourceClaimAllocations := [],
        ResourceClaimRequests :=
          some [("c1", { Spec := { Count := 1, Type_ := MydeviceType0 },
                         Mydevices := [{ UID := "d9" }] })] },
    Status := MydeviceAllocationStateStatusReady }

/-! # Theorems -/

/-! ## Lemmas on Go maps -/

theorem mlookup_mem {α : Type} (m : GoMap α) (k : String) (v : α)
    (h : mlookup m k = some v) : (k, v) ∈ m := by
  induction m with
  | nil => simp [mlookup] at h
  | cons e rest ih =>
    obtain ⟨k1, v1⟩ := e
    by_cases hk : k1 = k
    · simp [mlookup, hk] at h
      simp [hk, h]
    · simp [mlookup, hk] at h
      exact List.mem_cons_of_mem _ (ih h)

theorem mhas_iff_mem_keys {α : Type} (m : GoMap α) (k : String) :
    mhas m k = true ↔ k ∈ mkeys m := by
  induction m with
  | nil => simp [mhas, mlookup, mkeys]
  | cons e rest ih =>
    obtain ⟨k1, v1⟩ := e
    by_cases hk : k1 = k
    · simp [mhas, mlookup, mkeys, hk]
    · have hk2 : ¬ k = k1 := fun h => hk h.symm
      simp only [mhas, mlookup, mkeys, hk, if_false, List.map_cons, List.mem_cons, hk2,
        false_or]
      simpa [mhas, mkeys] using ih

theorem mhas_of_mem {α : Type} (m : GoMap α) (k : String) (v : α) (h : (k, v) ∈ m) :
    mhas m k = true := by
  rw [mhas_iff_mem_keys]
  exact List.mem_map.mpr ⟨(k, v), h, rfl⟩

theorem mhas_iff_lookup {α : Type} (m : GoMap α) (k : String) :
    mhas m k = true ↔ ∃ v, mlookup m k = some v := by
  simp [mhas, Option.isSome_iff_exists]

theorem mlookup_minsert_same {α : Type} (m : GoMap α) (k : String) (v : α) :
    mlookup (minsert m k v) k = some v := by
  induction m with
  | nil => simp [minsert, mlookup]
  | cons e rest ih =>
    obtain ⟨k1, v1⟩ := e
    by_cases hk : k1 = k
    · simp [minsert, mlookup, hk]
    · simp [minsert, mlookup, hk, ih]

theorem mlookup_minsert_ne {α : Type} (m : GoMap α) (k k2 : String) (v : α)
    (h : k ≠ k2) : mlookup (minsert m k v) k2 = mlookup m k2 := by
  induction m with
  | nil => simp [minsert, mlookup, h]
  | cons e rest ih =>
    obtain ⟨k1, v1⟩ := e
    by_cases hk : k1 = k
    · subst hk
      simp [minsert, mlookup, h]
    · by_cases hk2 : k1 = k2
      · subst hk2
        simp [minsert, mlookup, hk]
      · simp [minsert, mlookup, hk, hk2, ih]

theorem mem_minsert {α : Type} (m : GoMap α) (k : String) (v : α) (e : String × α)
    (h : e ∈ minsert m k v) : e = (k, v) ∨ e ∈ m := by
  induction m with
  | nil => simpa [minsert] using h
  | cons e1 rest ih =>
    obtain ⟨k1, v1⟩ := e1
    by_cases hk : k1 = k
    · simp only [minsert, hk, if_true, List.mem_cons] at h
      rcases h with h | h
      · exact Or.inl h
      · exact Or.inr (List.mem_cons_of_mem _ h)
    · simp only [minsert, hk, if_false, List.mem_cons] at h
      rcases h with h | h
      · exact Or.inr (by simp [h])
      · rcases ih h with h2 | h2
        · exact Or.inl h2
        · exact Or.inr (List.mem_cons_of_mem _ h2)

theorem mkeys_minsert {α : Type} (m : GoMap α) (k : String) (v : α) :
    mkeys (minsert m k v) = if k ∈ mkeys m then mkeys m else mkeys m ++ [k] := by
  induction m with
  | nil => simp [minsert, mkeys]
  | cons e rest ih =>
    obtain ⟨k1, v1⟩ := e
    by_cases hk : k1 = k
    · subst hk
      simp [minsert, mkeys]
    · have hk2 : ¬ k = k1 := fun h => hk h.symm
      simp only [mkeys] at ih
      simp only [minsert, hk, if_false, mkeys, List.map_cons, List.mem_cons, hk2, false_or, ih]
      split <;> simp

theorem mem_mdelete {α : Type} (m : GoMap α) (k : String) (e : String × α) :
    e ∈ mdelete m k ↔ e ∈ m ∧ e.1 ≠ k := by
  induction m with
  | nil => simp [mdelete]
  | cons e1 rest ih =>
    obtain ⟨k1, v1⟩ := e1
    by_cases hk : k1 = k
    · subst hk
      simp only [mdelete, if_true, ih, List.mem_cons]
      constructor
      · rintro ⟨h1, h2⟩
        exact ⟨Or.inr h1, h2⟩
      · rintro ⟨h1 | h1, h2⟩
        · exact absurd (by rw [h1]) h2
        · exact ⟨h1, h2⟩
    · simp only [mdelete, hk, if_false, List.mem_cons, ih]
      constructor
      · rintro (h1 | ⟨h1, h2⟩)
        · exact ⟨Or.inl h1, by rw [h1]; exact hk⟩
        · exact ⟨Or.inr h1, h2⟩
      · rintro ⟨h1 | h1, h2⟩
        · exact Or.inl h1
        · exact Or.inr ⟨h1, h2⟩

theorem mkeys_mdelete {α : Type} (m : GoMap α) (k : String) :
    mkeys (mdelete m k) = (mkeys m).filter (fun x => x ≠ k) := by
  induction m with
  | nil => simp [mdelete, mkeys]
  | cons e rest ih =>
    obtain ⟨k1, v1⟩ := e
    simp only [mkeys] at ih
    by_cases hk : k1 = k
    · simp [mdelete, mkeys, hk, List.filter_cons, ih]
    · simp [mdelete, mkeys, hk, List.filter_cons, ih]

theorem mlookup_mdelete_same {α : Type} (m : GoMap α) (k : String) :
    mlookup (mdelete m k) k = none := by
  induction m with
  | nil => simp [mdelete, mlookup]
  | cons e rest ih =>
    obtain ⟨k1, v1⟩ := e
    by_cases hk : k1 = k
    · simp [mdelete, hk, ih]
    · simp [mdelete, hk, mlookup, ih]

theorem mlookup_mdelete_ne {α : Type} (m : GoMap α) (k k2 : String) (h : k ≠ k2) :
    mlookup (mdelete m k) k2 = mlookup m k2 := by
  induction m with
  | nil => simp [mdelete, mlookup]
  | cons e rest ih =>
    obtain ⟨k1, v1⟩ := e
    by_cases hk : k1 = k
    · subst hk
      simp [mdelete, mlookup, h, ih]
    · by_cases hk2 : k1 = k2
      · subst hk2
        simp [mdelete, hk, mlookup]
      · simp [mdelete, hk, mlookup, hk2, ih]

theorem pairwise_minsert {α : Type} (R : String × α → String × α → Prop)
    (m : GoMap α) (k : String) (v : α) (hm : m.Pairwise R)
    (hnew : ∀ e ∈ m, R (k, v) e ∧ R e (k, v)) : (minsert m k v).Pairwise R := by
  induction m with
  | nil => simp [minsert]
  | cons e rest ih =>
    obtain ⟨k1, v1⟩ := e
    rw [List.pairwise_cons] at hm
    by_cases hk : k1 = k
    · simp only [minsert, hk, if_true, List.pairwise_cons]
      exact ⟨fun e he => (hnew e (List.mem_cons_of_mem _ he)).1, hm.2⟩
    · simp only [minsert, hk, if_false, List.pairwise_cons]
      refine ⟨?_, ih hm.2 (fun e he => hnew e (List.mem_cons_of_mem _ he))⟩
      intro e he
      rcases mem_minsert rest k v e he with h | h
      · rw [h]
        exact (hnew (k1, v1) (List.mem_cons_self _ _)).2
      · exact hm.1 e h

theorem mdelete_absent {α : Type} (m : GoMap α) (k : String) (h : k ∉ mkeys m) :
    mdelete m k = m := by
  induction m with
  | nil => rfl
  | cons e rest ih =>
    obtain ⟨k1, v1⟩ := e
    simp only [mkeys, List.map_cons, List.mem_cons, not_or] at h
    have hk : ¬ k1 = k := fun heq => h.1 heq.symm
    simp only [mdelete, hk, if_false]
    rw [ih (by simpa [mkeys] using h.2)]

theorem not_mem_mkeys_mdelete {α : Type} (m : GoMap α) (k : String) :
    k ∉ mkeys (mdelete m k) := by
  rw [mkeys_mdelete]
  simp

theorem mdelete_mdelete {α : Type} (m : GoMap α) (k : String) :
    mdelete (mdelete m k) k = mdelete m k :=
  mdelete_absent _ _ (not_mem_mkeys_mdelete m k)

theorem mdelete_ne_nil {α : Type} (m : GoMap α) (k u : String)
    (hu : mhas m u = true) (hne : u ≠ k) : mdelete m k ≠ [] := by
  obtain ⟨v, hv⟩ := (mhas_iff_lookup _ _).mp hu
  have hmem : (u, v) ∈ mdelete m k := (mem_mdelete _ _ _).mpr ⟨mlookup_mem _ _ _ hv, hne⟩
  intro h
  rw [h] at hmem
  simp at hmem

theorem minsert_absent {α : Type} (m : GoMap α) (k : String) (v : α) (h : k ∉ mkeys m) :
    minsert m k v = m ++ [(k, v)] := by
  induction m with
  | nil => rfl
  | cons e rest ih =>
    obtain ⟨k1, v1⟩ := e
    simp only [mkeys, List.map_cons, List.mem_cons, not_or] at h
    have hk : ¬ k1 = k := fun heq => h.1 heq.symm
    simp only [minsert, hk, if_false, List.cons_append]
    rw [ih (by simpa [mkeys] using h.2)]

theorem mlookup_of_mem_nodup {α : Type} (m : GoMap α) (k : String) (v : α)
    (hnd : (mkeys m).Nodup) (h : (k, v) ∈ m) : mlookup m k = some v := by
  induction m with
  | nil => simp at h
  | cons e rest ih =>
    obtain ⟨k1, v1⟩ := e
    simp only [mkeys, List.map_cons, List.nodup_cons] at hnd
    rcases List.mem_cons.mp h with h1 | h1
    · cases h1
      simp [mlookup]
    · have hk : ¬ k1 = k := by
        intro heq
        apply hnd.1
        rw [heq]
        exact List.mem_map.mpr ⟨(k, v), h1, rfl⟩
      simp only [mlookup, hk, if_false]
      exact ih hnd.2 h1

theorem not_mem_mkeys_of_lookup_none {α : Type} (m : GoMap α) (k : String)
    (h : mlookup m k = none) : k ∉ mkeys m := by
  intro hmem
  have := (mhas_iff_mem_keys m k).mpr hmem
  simp [mhas, h] at this

/-! ## Lemmas on the record operations -/

theorem deviceIsAllocated_false (g : MydeviceAllocationState) (u : String) :
    DeviceIsAllocated g u = false ↔
      ∀ e ∈ g.Spec.ResourceClaimAllocations, ∀ x ∈ e.2, x.UID ≠ u := by
  simp [DeviceIsAllocated]

/-- Every iteration of the loop of `Available` overwrites the range variable. -/
theorem availableStep_device (g : MydeviceAllocationState)
    (st : List String × AllocatableMydevice) (x : String × AllocatableMydevice) :
    (availableStep g st x).2 = x.2 := by
  unfold availableStep
  by_cases ht : x.2.Type_ = MydeviceType0
  · by_cases ha : DeviceIsAllocated g x.2.UID = true
    · simp [ht, ha]
    · simp [ht, ha]
  · simp [ht]

/-- One iteration of the loop of `Available` stores the key of a device of the
supported type that no allocation lists, and no other key. -/
theorem availableStep_keys (g : MydeviceAllocationState)
    (st : List String × AllocatableMydevice) (x : String × AllocatableMydevice) (u : String) :
    u ∈ (availableStep g st x).1 ↔
      u ∈ st.1 ∨ (x.2.UID = u ∧ x.2.Type_ = MydeviceType0 ∧ DeviceIsAllocated g u = false) := by
  unfold availableStep
  by_cases ht : x.2.Type_ = MydeviceType0
  · by_cases ha : DeviceIsAllocated g x.2.UID = true
    · simp only [ht, ha, if_true]
      constructor
      · intro h
        exact Or.inl h
      · rintro (h | ⟨h1, _, h3⟩)
        · exact h
        · rw [← h1, ha] at h3
          cases h3
    · simp only [ht, ha, if_true, Bool.false_eq_true, if_false]
      by_cases hm : x.2.UID ∈ st.1
      · simp only [hm, if_true]
        constructor
        · intro h
          exact Or.inl h
        · rintro (h | ⟨h1, _, _⟩)
          · exact h
          · rw [← h1]
            exact hm
      · simp only [hm, if_false, List.mem_append, List.mem_singleton]
        constructor
        · rintro (h | h)
          · exact Or.inl h
          · right
            subst h
            exact ⟨rfl, trivial, by simpa using ha⟩
        · rintro (h | ⟨h1, _, _⟩)
          · exact Or.inl h
          · exact Or.inr h1.symm
  · simp only [ht, if_false]
    constructor
    · intro h
      exact Or.inl h
    · rintro (h | ⟨_, h2, _⟩)
      · exact h
      · exact h2.elim

theorem availableStep_nodup (g : MydeviceAllocationState)
    (st : List String × AllocatableMydevice) (x : String × AllocatableMydevice)
    (h : st.1.Nodup) : (availableStep g st x).1.Nodup := by
  unfold availableStep
  simp only
  split
  · split
    · exact h
    · split
      · exact h
      · rename_i hnot
        exact List.Nodup.append h (List.nodup_singleton _)
          (by
            intro a ha hb
            rw [List.mem_singleton] at hb
            exact hnot (hb ▸ ha))
  · exact h

/-- The loop of `Available`: the range variable after the loop, the keys stored
and that no key is stored twice. -/
theorem availableFold_spec (g : MydeviceAllocationState) :
    ∀ (l : GoMap AllocatableMydevice) (st : List String × AllocatableMydevice),
      (l.foldl (availableStep g) st).2 = (match l.getLast? with
        | some e => e.2
        | none => st.2) ∧
      (∀ u, u ∈ (l.foldl (availableStep g) st).1 ↔
        u ∈ st.1 ∨ ∃ e ∈ l, e.2.UID = u ∧ e.2.Type_ = MydeviceType0 ∧
          DeviceIsAllocated g u = false) ∧
      (st.1.Nodup → (l.foldl (availableStep g) st).1.Nodup) := by
  intro l
  induction l with
  | nil =>
    intro st
    exact ⟨rfl, fun u => by simp, fun h => h⟩
  | cons x rest ih =>
    intro st
    rw [List.foldl_cons]
    obtain ⟨h1, h2, h3⟩ := ih (availableStep g st x)
    refine ⟨?_, ?_, ?_⟩
    · rw [h1]
      cases rest with
      | nil => simp [availableStep_device]
      | cons y r =>
        rw [List.getLast?_cons_cons, List.getLast?_eq_getLast _ (List.cons_ne_nil y r)]
    · intro u
      rw [h2, availableStep_keys]
      simp only [List.mem_cons, exists_eq_or_imp]
      tauto
    · intro h
      exact h3 (availableStep_nodup g st x h)

theorem mkeys_available (g : MydeviceAllocationState) :
    mkeys (Available g)
      = (g.Spec.AllocatableMydevices.foldl (availableStep g)
          ([], AllocatableMydevice.zero)).1 := by
  simp [Available, mkeys, List.map_map, Function.comp_def]

/-- Every value of the map `Available` returns is the device visited last. -/
theorem available_values (g : MydeviceAllocationState) :
    SharedPool (lastVisited g) (Available g) := by
  intro e he
  simp only [Available, List.mem_map] at he
  obtain ⟨uid, _, hu⟩ := he
  rw [← hu]
  exact (availableFold_spec g _ _).1

theorem available_nodup (g : MydeviceAllocationState) : (mkeys (Available g)).Nodup := by
  rw [mkeys_available]
  exact (availableFold_spec g _ _).2.2 List.nodup_nil

/-- A device is in the available set exactly when it is an allocatable device of
the supported type that no allocation lists. -/
theorem mhas_available_iff (g : MydeviceAllocationState) (u : String) :
    mhas (Available g) u = true ↔
      DeviceIsAllocated g u = false ∧
        ∃ e ∈ g.Spec.AllocatableMydevices, e.2.UID = u ∧ e.2.Type_ = MydeviceType0 := by
  rw [mhas_iff_mem_keys, mkeys_available, (availableFold_spec g _ _).2.1]
  simp only [List.not_mem_nil, false_or]
  constructor
  · rintro ⟨e, he, h1, h2, h3⟩
    exact ⟨h3, e, he, h1, h2⟩
  · rintro ⟨h3, e, he, h1, h2⟩
    exact ⟨e, he, h1, h2, h3⟩

/-- A device of the available set is an allocatable device of the supported
type that no claim allocation lists. -/
theorem mhas_available (g : MydeviceAllocationState) (u : String)
    (h : mhas (Available g) u = true) :
    DeviceIsAllocated g u = false ∧
      ∃ k0 d, (k0, d) ∈ g.Spec.AllocatableMydevices ∧ d.UID = u ∧ d.Type_ = MydeviceType0 := by
  obtain ⟨h1, e, he, hu, ht⟩ := (mhas_available_iff g u).mp h
  exact ⟨h1, e.1, e.2, he, hu, ht⟩

/-- When the record lists a device at all, the device visited last is one of the
allocatable devices. -/
theorem lastVisited_mem (g : MydeviceAllocationState)
    (h : g.Spec.AllocatableMydevices ≠ []) :
    ∃ k, (k, lastVisited g) ∈ g.Spec.AllocatableMydevices := by
  unfold lastVisited
  cases hl : g.Spec.AllocatableMydevices.getLast? with
  | none =>
    rw [List.getLast?_eq_none_iff] at hl
    exact absurd hl h
  | some e =>
    exact ⟨e.1, List.mem_of_mem_getLast? hl⟩

theorem available_nil_of_allocatable_nil (g : MydeviceAllocationState)
    (h : g.Spec.AllocatableMydevices = []) : Available g = [] := by
  simp [Available, h]

/-! ## Lemmas on the selection -/

theorem mhas_mdelete {α : Type} (m : GoMap α) (k k2 : String)
    (h : mhas (mdelete m k) k2 = true) : mhas m k2 = true := by
  obtain ⟨v, hv⟩ := (mhas_iff_lookup _ _).mp h
  have hmem := (mem_mdelete _ _ _).mp (mlookup_mem _ _ _ hv)
  exact mhas_of_mem _ _ _ hmem.1

theorem reuseLoop_sub (base : GoMap AllocatableMydevice) :
    ∀ (l : List RequestedMydevice) (pool : GoMap AllocatableMydevice),
      (∀ e ∈ pool, e ∈ base) → ∀ e ∈ (reuseLoop pool l).1, e ∈ base := by
  intro l
  induction l with
  | nil => intro pool h e he; exact h e he
  | cons d rest ih =>
    intro pool h e he
    unfold reuseLoop at he
    by_cases hd : mhas pool d.UID = true
    · simp only [hd, if_true] at he
      exact ih (mdelete pool d.UID) (fun x hx => h x ((mem_mdelete _ _ _).mp hx).1) e he
    · simp only [hd] at he
      exact h e he

theorem reuseLoop_ok_mem :
    ∀ (l : List RequestedMydevice) (pool : GoMap AllocatableMydevice),
      (reuseLoop pool l).2 = true → ∀ d ∈ l, mhas pool d.UID = true := by
  intro l
  induction l with
  | nil => intro pool _ d hd; simp at hd
  | cons d rest ih =>
    intro pool h x hx
    unfold reuseLoop at h
    by_cases hd : mhas pool d.UID = true
    · simp only [hd, if_true] at h
      rcases List.mem_cons.mp hx with h1 | h1
      · rw [h1]; exact hd
      · exact mhas_mdelete _ _ _ (ih _ h x h1)
    · simp [hd] at h

/-- One turn of the greedy loop: the pool stays inside `base`, and the UID it
appends is the UID read through a value of `base`. -/
theorem pickStep_sub (base : GoMap AllocatableMydevice) (Q : String → Prop)
    (hbase : ∀ e ∈ base, Q e.1 ∧ Q e.2.UID)
    (st : GoMap AllocatableMydevice × List RequestedMydevice)
    (hpool : ∀ e ∈ st.1, e ∈ base) :
    (∀ e ∈ (pickStep st).1, e ∈ base) ∧
      ∀ d ∈ (pickStep st).2, d ∈ st.2 ∨ Q d.UID := by
  unfold pickStep
  cases hf : st.1.find? (fun e => e.2.Type_ = MydeviceType0) with
  | none => exact ⟨hpool, fun d hd => Or.inl hd⟩
  | some e =>
    have hmem : e ∈ st.1 := List.mem_of_find?_eq_some hf
    refine ⟨fun x hx => hpool x ((mem_mdelete _ _ _).mp hx).1, ?_⟩
    intro d hd
    simp only [List.mem_append, List.mem_singleton] at hd
    rcases hd with hd | hd
    · exact Or.inl hd
    · right
      rw [hd]
      exact (hbase e (hpool e hmem)).2

theorem pickLoop_sub (base : GoMap AllocatableMydevice) (Q : String → Prop)
    (hbase : ∀ e ∈ base, Q e.1 ∧ Q e.2.UID) :
    ∀ (n : Nat) (st : GoMap AllocatableMydevice × List RequestedMydevice),
      (∀ e ∈ st.1, e ∈ base) →
      (∀ e ∈ (pickLoop n st).1, e ∈ base) ∧
        ∀ d ∈ (pickLoop n st).2, d ∈ st.2 ∨ Q d.UID := by
  intro n
  induction n with
  | zero => intro st h; exact ⟨h, fun d hd => Or.inl hd⟩
  | succ n ih =>
    intro st h
    have hs := pickStep_sub base Q hbase st h
    have hl := ih (pickStep st) hs.1
    refine ⟨hl.1, ?_⟩
    intro d hd
    rcases hl.2 d hd with h1 | h1
    · exact hs.2 d h1
    · exact Or.inr h1

/-- One claim of the batch: the pool stays inside `base` and the UIDs recorded
for the claim are keys of `base` (a reused selection) or UIDs read through a
value of `base` (a greedy selection). -/
theorem selectOne_sub (mas : MydeviceAllocationState) (base : GoMap AllocatableMydevice)
    (Q : String → Prop) (hbase : ∀ e ∈ base, Q e.1 ∧ Q e.2.UID) (claimUID : String)
    (spec : MydeviceClaimParametersSpec)
    (st : GoMap AllocatableMydevice × GoMap RequestedMydevices)
    (hpool : ∀ e ∈ st.1, e ∈ base)
    (hsel : ∀ e ∈ st.2, ∀ d ∈ e.2.Mydevices, Q d.UID) :
    (∀ e ∈ (selectOne mas claimUID spec st).1, e ∈ base) ∧
      ∀ e ∈ (selectOne mas claimUID spec st).2, ∀ d ∈ e.2.Mydevices, Q d.UID := by
  have greedy : ∀ pool : GoMap AllocatableMydevice, (∀ e ∈ pool, e ∈ base) →
      (∀ e ∈ (pickLoop spec.Count.toNat (pool, [])).1, e ∈ base) ∧
      ∀ e ∈ minsert st.2 claimUID
          { Spec := spec, Mydevices := (pickLoop spec.Count.toNat (pool, [])).2 },
        ∀ d ∈ e.2.Mydevices, Q d.UID := by
    intro pool hp
    have hl := pickLoop_sub base Q hbase spec.Count.toNat (pool, []) hp
    refine ⟨hl.1, ?_⟩
    intro e he d hd
    rcases mem_minsert _ _ _ _ he with h1 | h1
    · rw [h1] at hd
      rcases hl.2 d hd with h2 | h2
      · simp at h2
      · exact h2
    · exact hsel e h1 d hd
  unfold selectOne
  cases hreq : mlookup mas.Spec.requests claimUID with
  | none => exact greedy st.1 hpool
  | some stored =>
    simp only
    by_cases hok : (reuseLoop st.1 stored.Mydevices).2 = true
    · simp only [hok, if_true]
      refine ⟨reuseLoop_sub base _ _ hpool, ?_⟩
      intro e he d hd
      rcases mem_minsert _ _ _ _ he with h1 | h1
      · rw [h1] at hd
        have hm := reuseLoop_ok_mem _ _ hok d hd
        obtain ⟨v, hv⟩ := (mhas_iff_lookup _ _).mp hm
        exact (hbase _ (hpool _ (mlookup_mem _ _ _ hv))).1
      · exact hsel e h1 d hd
    · simp only [hok]
      exact greedy _ (reuseLoop_sub base _ _ hpool)

theorem selectLoop_sub (mas : MydeviceAllocationState) (base : GoMap AllocatableMydevice)
    (Q : String → Prop) (hbase : ∀ e ∈ base, Q e.1 ∧ Q e.2.UID) :
    ∀ (mcas : List ClaimAllocation)
      (st out : GoMap AllocatableMydevice × GoMap RequestedMydevices),
      (∀ e ∈ st.1, e ∈ base) →
      (∀ e ∈ st.2, ∀ d ∈ e.2.Mydevices, Q d.UID) →
      selectLoop mas mcas st = some out →
      (∀ e ∈ out.1, e ∈ base) ∧ ∀ e ∈ out.2, ∀ d ∈ e.2.Mydevices, Q d.UID := by
  intro mcas
  induction mcas with
  | nil =>
    intro st out h1 h2 h
    simp only [selectLoop, Option.some.injEq] at h
    subst h
    exact ⟨h1, h2⟩
  | cons ca rest ih =>
    intro st out h1 h2 h
    unfold selectLoop at h
    cases hp : ca.ClaimParameters with
    | other => simp [hp] at h
    | mydevice spec =>
      simp only [hp] at h
      have hs := selectOne_sub mas base Q hbase ca.Claim.UID spec st h1 h2
      exact ih _ out hs.1 hs.2 h

/-- Every UID `selectPotentialDevices` selects, for whatever claim, is a key of
the available set of the record or the UID of the device its values read. -/
theorem select_uids (mas : MydeviceAllocationState) (Q : String → Prop)
    (hQ : ∀ e ∈ Available mas, Q e.1 ∧ Q e.2.UID) (mcas : List ClaimAllocation)
    (allocated : GoMap RequestedMydevices)
    (h : selectPotentialDevices mas mcas = some allocated) (claimUID : String) :
    ∀ d ∈ (selectionOf allocated claimUID).Mydevices, Q d.UID := by
  unfold selectPotentialDevices at h
  cases hl : selectLoop mas mcas (Available mas, []) with
  | none => simp [hl] at h
  | some out =>
    simp only [hl, Option.map_some', Option.some.injEq] at h
    have hs := selectLoop_sub mas (Available mas) Q hQ mcas (Available mas, []) out
      (fun e he => he) (by intro e he; simp at he) hl
    intro d hd
    unfold selectionOf at hd
    cases hlook : mlookup allocated claimUID with
    | none => simp [hlook, RequestedMydevices.zero] at hd
    | some r =>
      simp only [hlook, Option.getD_some] at hd
      rw [← h] at hlook
      exact hs.2 _ (mlookup_mem _ _ _ hlook) d hd

/-- A device of the available set is a key of the allocatable map when every
allocatable key is the UID of its device. -/
theorem mhas_allocatable_of_available (mas : MydeviceAllocationState) (hk : KeysAreUIDs mas)
    (u : String) (h : mhas (Available mas) u = true) :
    mhas mas.Spec.AllocatableMydevices u = true := by
  obtain ⟨_, k0, dev, hmem, huid, _⟩ := mhas_available mas u h
  have := hk (k0, dev) hmem
  simp only at this
  rw [this, huid] at hmem
  exact mhas_of_mem _ _ _ hmem

/-- When every allocatable key is the UID of its device, the device visited
last is stored under its UID. -/
theorem mhas_allocatable_lastVisited (mas : MydeviceAllocationState) (hk : KeysAreUIDs mas)
    (h : mas.Spec.AllocatableMydevices ≠ []) :
    mhas mas.Spec.AllocatableMydevices (lastVisited mas).UID = true := by
  obtain ⟨k, hmem⟩ := lastVisited_mem mas h
  have := hk _ hmem
  simp only at this
  rw [this] at hmem
  exact mhas_of_mem _ _ _ hmem

/-- Every UID `selectPotentialDevices` selects is a key of the allocatable map
when every allocatable key is the UID of its device. -/
theorem select_sub_allocatable (mas : MydeviceAllocationState) (hk : KeysAreUIDs mas)
    (mcas : List ClaimAllocation) (allocated : GoMap RequestedMydevices)
    (h : selectPotentialDevices mas mcas = some allocated) (claimUID : String) :
    ∀ d ∈ (selectionOf allocated claimUID).Mydevices,
      mhas mas.Spec.AllocatableMydevices d.UID = true := by
  apply select_uids mas (fun u => mhas mas.Spec.AllocatableMydevices u = true) _ mcas
    allocated h claimUID
  intro e he
  refine ⟨mhas_allocatable_of_available mas hk e.1 (mhas_of_mem _ _ _ he), ?_⟩
  rw [available_values mas e he]
  apply mhas_allocatable_lastVisited mas hk
  intro hnil
  rw [available_nil_of_allocatable_nil mas hnil] at he
  simp at he

theorem selectLoop_append (mas : MydeviceAllocationState) :
    ∀ (l1 l2 : List ClaimAllocation)
      (st : GoMap AllocatableMydevice × GoMap RequestedMydevices),
      selectLoop mas (l1 ++ l2) st = (selectLoop mas l1 st).bind (selectLoop mas l2) := by
  intro l1
  induction l1 with
  | nil => intro l2 st; simp [selectLoop]
  | cons ca rest ih =>
    intro l2 st
    simp only [List.cons_append, selectLoop]
    cases ca.ClaimParameters with
    | other => simp
    | mydevice spec => exact ih l2 _

/-- On a batch of supported claims the selection loop returns. -/
theorem selectLoop_supported (mas : MydeviceAllocationState) :
    ∀ (l : List ClaimAllocation)
      (st : GoMap AllocatableMydevice × GoMap RequestedMydevices),
      Supported l → ∃ out, selectLoop mas l st = some out := by
  intro l
  induction l with
  | nil => intro st _; exact ⟨st, rfl⟩
  | cons ca rest ih =>
    intro st h
    obtain ⟨spec, hs⟩ := h ca (List.mem_cons_self _ _)
    simp only [selectLoop, hs]
    exact ih _ (fun c hc => h c (List.mem_cons_of_mem _ hc))

theorem selectOne_lookup_ne (mas : MydeviceAllocationState) (claimUID k : String)
    (spec : MydeviceClaimParametersSpec)
    (st : GoMap AllocatableMydevice × GoMap RequestedMydevices) (h : claimUID ≠ k) :
    mlookup (selectOne mas claimUID spec st).2 k = mlookup st.2 k := by
  unfold selectOne
  cases mlookup mas.Spec.requests claimUID with
  | none => simp [mlookup_minsert_ne _ _ _ _ h]
  | some stored =>
    simp only
    split <;> simp [mlookup_minsert_ne _ _ _ _ h]

/-- Claims processed later leave the entry of a claim they do not name. -/
theorem selectLoop_lookup_ne (mas : MydeviceAllocationState) (k : String) :
    ∀ (l : List ClaimAllocation)
      (st out : GoMap AllocatableMydevice × GoMap RequestedMydevices),
      (∀ c ∈ l, c.Claim.UID ≠ k) → selectLoop mas l st = some out →
      mlookup out.2 k = mlookup st.2 k := by
  intro l
  induction l with
  | nil =>
    intro st out _ h
    simp only [selectLoop, Option.some.injEq] at h
    rw [h]
  | cons ca rest ih =>
    intro st out hne h
    unfold selectLoop at h
    cases hp : ca.ClaimParameters with
    | other => simp [hp] at h
    | mydevice spec =>
      simp only [hp] at h
      rw [ih _ out (fun c hc => hne c (List.mem_cons_of_mem _ hc)) h]
      exact selectOne_lookup_ne mas _ _ _ _ (hne ca (List.mem_cons_self _ _))

theorem select_supported (mas : MydeviceAllocationState) (mcas : List ClaimAllocation)
    (h : Supported mcas) : ∃ allocated, selectPotentialDevices mas mcas = some allocated := by
  obtain ⟨out, hout⟩ := selectLoop_supported mas mcas (Available mas, []) h
  exact ⟨out.2, by simp [selectPotentialDevices, hout]⟩

theorem selectOne_spec (mas : MydeviceAllocationState) (claimUID : String)
    (spec : MydeviceClaimParametersSpec)
    (st : GoMap AllocatableMydevice × GoMap RequestedMydevices) :
    (selectionOf (selectOne mas claimUID spec st).2 claimUID).Spec = spec := by
  unfold selectOne selectionOf
  cases hl : mlookup mas.Spec.requests claimUID with
  | none => simp [mlookup_minsert_same]
  | some stored =>
    by_cases hv : (reuseLoop st.1 stored.Mydevices).2 = true
    · simp [hv, mlookup_minsert_same]
    · simp [hv, mlookup_minsert_same]

theorem selectOne_has (mas : MydeviceAllocationState) (claimUID k : String)
    (spec : MydeviceClaimParametersSpec)
    (st : GoMap AllocatableMydevice × GoMap RequestedMydevices)
    (h : k = claimUID ∨ mhas st.2 k = true) :
    mhas (selectOne mas claimUID spec st).2 k = true := by
  by_cases hk : claimUID = k
  · subst hk
    have hs : ∀ (pool : GoMap AllocatableMydevice) (sel : RequestedMydevices),
        mhas (minsert st.2 claimUID sel) claimUID = true := by
      intro pool sel
      simp [mhas, mlookup_minsert_same]
    unfold selectOne
    cases hl : mlookup mas.Spec.requests claimUID with
    | none => exact hs st.1 _
    | some stored =>
      by_cases hv : (reuseLoop st.1 stored.Mydevices).2 = true
      · simp only [hv, if_true]
        exact hs st.1 _
      · simp only [hv, Bool.false_eq_true, if_false]
        exact hs st.1 _
  · rcases h with h | h
    · exact absurd h.symm hk
    · unfold mhas at h ⊢
      rw [selectOne_lookup_ne mas claimUID k spec st hk]
      exact h

/-- Every claim of a batch that the selection loop gets through has an entry in
the result. -/
theorem selectLoop_has (mas : MydeviceAllocationState) :
    ∀ (mcas : List ClaimAllocation)
      (st out : GoMap AllocatableMydevice × GoMap RequestedMydevices),
      selectLoop mas mcas st = some out →
      (∀ k, mhas st.2 k = true → mhas out.2 k = true) ∧
      (∀ ca ∈ mcas, mhas out.2 ca.Claim.UID = true) := by
  intro mcas
  induction mcas with
  | nil =>
    intro st out h
    simp only [selectLoop, Option.some.injEq] at h
    subst h
    exact ⟨fun k hk => hk, by simp⟩
  | cons ca rest ih =>
    intro st out h
    unfold selectLoop at h
    cases hp : ca.ClaimParameters with
    | other => simp [hp] at h
    | mydevice spec =>
      simp only [hp] at h
      obtain ⟨i2, i3⟩ := ih _ out h
      refine ⟨?_, ?_⟩
      · intro k hk
        exact i2 k (selectOne_has mas ca.Claim.UID k spec st (Or.inr hk))
      · intro ca2 hca2
        rcases List.mem_cons.mp hca2 with h2 | h2
        · rw [h2]
          exact i2 _ (selectOne_has mas ca.Claim.UID ca.Claim.UID spec st (Or.inl rfl))
        · exact i3 ca2 h2

/-! ## Lemmas on a pool whose values read one device -/

theorem sharedPool_mdelete (v : AllocatableMydevice) (pool : GoMap AllocatableMydevice)
    (k : String) (h : SharedPool v pool) : SharedPool v (mdelete pool k) :=
  fun e he => h e ((mem_mdelete _ _ _).mp he).1

theorem reuseLoop_sharedPool (v : AllocatableMydevice) :
    ∀ (l : List RequestedMydevice) (pool : GoMap AllocatableMydevice),
      SharedPool v pool → SharedPool v (reuseLoop pool l).1 :=
  fun l pool h e he => h e (reuseLoop_sub pool l pool (fun _ hx => hx) e he)

/-- One turn of the greedy loop on a non-empty pool whose values read the device
`v` of the supported type: whatever key the inner loop visits first, the UID
appended is the UID of `v` and the key deleted is that UID. -/
theorem pickStep_shared (v : AllocatableMydevice) (pool : GoMap AllocatableMydevice)
    (acc : List RequestedMydevice) (hv : v.Type_ = MydeviceType0)
    (hs : SharedPool v pool) (hne : pool ≠ []) :
    pickStep (pool, acc) = (mdelete pool v.UID, acc ++ [{ UID := v.UID }]) := by
  cases pool with
  | nil => exact absurd rfl hne
  | cons e rest =>
    have he : e.2 = v := hs e (List.mem_cons_self _ _)
    simp [pickStep, List.find?, he, hv]

/-- The greedy loop selects nothing from an empty pool. -/
theorem pickLoop_nil (acc : List RequestedMydevice) :
    ∀ n : Nat, pickLoop n (([] : GoMap AllocatableMydevice), acc) = ([], acc) := by
  intro n
  induction n with
  | zero => rfl
  | succ n ih =>
    have : pickStep (([] : GoMap AllocatableMydevice), acc) = ([], acc) := by
      simp [pickStep]
    simp only [pickLoop, this]
    exact ih

/-- The greedy loop on a pool whose values read the device `v` of the supported
type and which has a key other than the UID of `v`: every turn appends the UID of
`v`, and the pool loses at most the key of that UID. -/
theorem pickLoop_shared (v : AllocatableMydevice) (hv : v.Type_ = MydeviceType0) :
    ∀ (n : Nat) (pool : GoMap AllocatableMydevice) (acc : List RequestedMydevice),
      SharedPool v pool → mdelete pool v.UID ≠ [] →
      pickLoop n (pool, acc) =
        (if n = 0 then pool else mdelete pool v.UID,
          acc ++ List.replicate n ({ UID := v.UID } : RequestedMydevice)) := by
  intro n
  induction n with
  | zero => intro pool acc _ _; simp [pickLoop]
  | succ n ih =>
    intro pool acc hs hdel
    have hne : pool ≠ [] := by
      intro h
      rw [h] at hdel
      exact hdel rfl
    simp only [pickLoop, pickStep_shared v pool acc hv hs hne]
    rw [ih (mdelete pool v.UID) _ (sharedPool_mdelete v pool v.UID hs)
      (by rw [mdelete_mdelete]; exact hdel)]
    simp [mdelete_mdelete, List.replicate_succ]

/-- The greedy loop on a pool whose values read the device `v` of the supported
type and whose only key is the UID of `v`: one device is selected, however many
are requested. -/
theorem pickLoop_shared_last (v : AllocatableMydevice) (hv : v.Type_ = MydeviceType0)
    (n : Nat) (pool : GoMap AllocatableMydevice) (acc : List RequestedMydevice)
    (hs : SharedPool v pool) (hne : pool ≠ []) (hdel : mdelete pool v.UID = []) :
    pickLoop (n + 1) (pool, acc) = ([], acc ++ [{ UID := v.UID }]) := by
  simp only [pickLoop, pickStep_shared v pool acc hv hs hne, hdel]
  exact pickLoop_nil _ n

/-- The greedy loop on a pool whose values read a device that is not of the
supported type selects nothing. -/
theorem pickLoop_shared_none (v : AllocatableMydevice) (hv : v.Type_ ≠ MydeviceType0)
    (pool : GoMap AllocatableMydevice) (acc : List RequestedMydevice)
    (hs : SharedPool v pool) :
    ∀ n : Nat, pickLoop n (pool, acc) = (pool, acc) := by
  have hstep : pickStep (pool, acc) = (pool, acc) := by
    have hf : pool.find? (fun e => e.2.Type_ = MydeviceType0) = none := by
      rw [List.find?_eq_none]
      intro e he
      rw [hs e he]
      simpa using hv
    simp [pickStep, hf]
  intro n
  induction n with
  | zero => rfl
  | succ n ih => simp only [pickLoop, hstep, ih]

theorem selectOne_shared (mas : MydeviceAllocationState) (v : AllocatableMydevice)
    (hv : v.Type_ = MydeviceType0) (claimUID : String) (spec : MydeviceClaimParametersSpec)
    (st : GoMap AllocatableMydevice × GoMap RequestedMydevices)
    (hno : mlookup mas.Spec.requests claimUID = none)
    (hs : SharedPool v st.1) (hdel : mdelete st.1 v.UID ≠ []) :
    selectOne mas claimUID spec st =
      (if spec.Count.toNat = 0 then st.1 else mdelete st.1 v.UID,
        minsert st.2 claimUID
          { Spec := spec,
            Mydevices := List.replicate spec.Count.toNat ({ UID := v.UID } : RequestedMydevice) }) := by
  unfold selectOne
  simp only [hno, pickLoop_shared v hv _ _ _ hs hdel, List.nil_append]

theorem selectOne_repeats (mas : MydeviceAllocationState) (v : AllocatableMydevice)
    (hv : v.Type_ = MydeviceType0) (claimUID : String) (spec : MydeviceClaimParametersSpec)
    (st : GoMap AllocatableMydevice × GoMap RequestedMydevices)
    (hno : mlookup mas.Spec.requests claimUID = none) (h : Repeats v st) :
    Repeats v (selectOne mas claimUID spec st) := by
  obtain ⟨h1, h2, h3⟩ := h
  rw [selectOne_shared mas v hv claimUID spec st hno h1 h2]
  refine ⟨?_, ?_, ?_⟩
  · simp only
    split
    · exact h1
    · exact sharedPool_mdelete v _ _ h1
  · simp only
    split
    · exact h2
    · rw [mdelete_mdelete]
      exact h2
  · intro e he
    rcases mem_minsert _ _ _ _ he with h4 | h4
    · rw [h4]
    · exact h3 e h4

theorem selectLoop_repeats (mas : MydeviceAllocationState) (v : AllocatableMydevice)
    (hv : v.Type_ = MydeviceType0) :
    ∀ (mcas : List ClaimAllocation)
      (st out : GoMap AllocatableMydevice × GoMap RequestedMydevices),
      (∀ ca ∈ mcas, mlookup mas.Spec.requests ca.Claim.UID = none) →
      Repeats v st → selectLoop mas mcas st = some out → Repeats v out := by
  intro mcas
  induction mcas with
  | nil =>
    intro st out _ hst h
    simp only [selectLoop, Option.some.injEq] at h
    subst h
    exact hst
  | cons ca rest ih =>
    intro st out hno hst h
    unfold selectLoop at h
    cases hp : ca.ClaimParameters with
    | other => simp [hp] at h
    | mydevice spec =>
      simp only [hp] at h
      exact ih _ out (fun c hc => hno c (List.mem_cons_of_mem _ hc))
        (selectOne_repeats mas v hv ca.Claim.UID spec st
          (hno ca (List.mem_cons_self _ _)) hst) h

/-- The state in which `selectPotentialDevices` starts its loop, when the device
visited last by `Available` is of the supported type and the available set has a
key other than its UID. -/
theorem repeats_available (mas : MydeviceAllocationState)
    (hother : ∃ u, mhas (Available mas) u = true ∧ u ≠ (lastVisited mas).UID) :
    Repeats (lastVisited mas) (Available mas, []) := by
  obtain ⟨u, hu, hne⟩ := hother
  refine ⟨available_values mas, mdelete_ne_nil _ _ u hu hne, ?_⟩
  intro e he
  simp at he

/-! ## What the controller operations persist -/

/-- The record `Allocate` builds before `Update`: the selection written to the
requests of the claim, then promoted by `MakeResourceClaimAllocation`. -/
theorem commit_spec (mas : MydeviceAllocationState) (claimUID : String)
    (sel : RequestedMydevices) :
    MakeResourceClaimAllocation (mas.setRequest claimUID sel) claimUID =
      { Name := mas.Name, Status := mas.Status,
        Spec := { AllocatableMydevices := mas.Spec.AllocatableMydevices,
                  ResourceClaimRequests := some (minsert mas.Spec.requests claimUID sel),
                  ResourceClaimAllocations :=
                    minsert mas.Spec.ResourceClaimAllocations claimUID
                      (sel.Mydevices.map (allocatedOf mas)) } } := by
  have h1 : (mas.setRequest claimUID sel).Spec.requestOf claimUID = sel := by
    simp [MydeviceAllocationState.setRequest, MydeviceAllocationStateSpec.requestOf,
      MydeviceAllocationStateSpec.requests, mlookup_minsert_same]
  have h2 : allocatedOf (mas.setRequest claimUID sel) = allocatedOf mas := by
    funext d
    simp [allocatedOf, MydeviceAllocationState.setRequest]
  simp only [MakeResourceClaimAllocation, h1, h2]
  simp [MydeviceAllocationState.setRequest]

theorem masGet_name (cs : Clientset) (nodename : String) (mas : MydeviceAllocationState)
    (h : masGet cs nodename = some mas) : mas.Name = nodename := by
  unfold masGet at h
  cases hg : cs.Get nodename with
  | none => simp [hg] at h
  | some m =>
    simp only [hg, Option.map_some', Option.some.injEq] at h
    rw [← h]

theorem masGet_spec (cs : Clientset) (nodename : String) (mas : MydeviceAllocationState)
    (h : masGet cs nodename = some mas) :
    ∃ m, cs.Get nodename = some m ∧ mas.Spec = m.Spec ∧ mas.Status = m.Status := by
  unfold masGet at h
  cases hg : cs.Get nodename with
  | none => simp [hg] at h
  | some m =>
    simp only [hg, Option.map_some', Option.some.injEq] at h
    exact ⟨m, rfl, by rw [← h], by rw [← h]⟩

/-- Immediate mode: a persisted record is the loaded record of its node with a
complete selection committed for the claim, and the result binds to that node. -/
theorem allocateImmediateLoop_persisted (cs : Clientset) (pending : PerNodeClaimRequests)
    (claim : ResourceClaim) (claimParameters : ClaimParameters)
    (masnames : List String) (out : MydeviceAllocationState)
    (h : (allocateImmediateLoop cs pending claim claimParameters masnames).persisted
      = some out) :
    ∃ mas spec allocated,
      out.Name ∈ masnames ∧ masGet cs out.Name = some mas ∧
      claimParameters = .mydevice spec ∧
      selectPotentialDevices mas
        [{ Claim := claim, ClaimParameters := claimParameters, UnsuitableNodes := [] }]
        = some allocated ∧
      spec.Count = ((selectionOf allocated claim.UID).Mydevices.length : Int) ∧
      out = MakeResourceClaimAllocation
        (mas.setRequest claim.UID (selectionOf allocated claim.UID)) claim.UID ∧
      (allocateImmediateLoop cs pending claim claimParameters masnames).result
        = .ok (buildAllocationResult out.Name true) := by
  induction masnames with
  | nil => simp [allocateImmediateLoop] at h
  | cons nodename rest ih =>
    unfold allocateImmediateLoop at h ⊢
    cases hg : masGet cs nodename with
    | none =>
      simp only [hg] at h ⊢
      obtain ⟨mas, spec, allocated, h1, h2⟩ := ih h
      exact ⟨mas, spec, allocated, List.mem_cons_of_mem _ h1, h2⟩
    | some mas =>
      simp only [hg] at h ⊢
      cases hp : claimParameters with
      | other =>
        cases hs : selectPotentialDevices mas
          [{ Claim := claim, ClaimParameters := ClaimParameters.other, UnsuitableNodes := [] }]
        <;> simp [hp, hs] at h
      | mydevice spec =>
        cases hs : selectPotentialDevices mas
          [{ Claim := claim, ClaimParameters := ClaimParameters.mydevice spec,
             UnsuitableNodes := [] }] with
        | none => simp [hp, hs] at h
        | some allocated =>
          simp only [hp, hs] at h ⊢
          by_cases hc : spec.Count = ((selectionOf allocated claim.UID).Mydevices.length : Int)
          · simp only [hc, ne_eq, not_true_eq_false, if_false] at h ⊢
            by_cases hu : cs.Update (MakeResourceClaimAllocation
                (mas.setRequest claim.UID (selectionOf allocated claim.UID)) claim.UID) = true
            · simp only [hu, if_true, Option.some.injEq] at h ⊢
              have hname : out.Name = nodename := by
                rw [← h, commit_spec]
                exact masGet_name cs nodename mas hg
              refine ⟨mas, spec, allocated, ?_, ?_, rfl, ?_, ?_, h.symm, ?_⟩
              · rw [hname]; exact List.mem_cons_self _ _
              · rw [hname]; exact hg
              · exact hs
              · rw [← hc]
              · rw [hname]
            · simp [hu] at h
          · simp only [ne_eq, hc, not_false_eq_true, if_true] at h ⊢
            rw [hp] at ih
            obtain ⟨mas2, spec2, allocated2, h1, h2⟩ := ih h
            exact ⟨mas2, spec2, allocated2, List.mem_cons_of_mem _ h1, h2⟩

/-- Pending mode: a persisted record is the loaded Ready record with the
re-validated PendingRequest selection committed for the claim. -/
theorem allocatePendingClaim_persisted (cs : Clientset) (pending : PerNodeClaimRequests)
    (claim : ResourceClaim) (claimParameters : ClaimParameters) (nodename : String)
    (out : MydeviceAllocationState)
    (h : (allocatePendingClaim cs pending claim claimParameters nodename).persisted
      = some out) :
    ∃ mas,
      masGet cs nodename = some mas ∧
      mas.Status = MydeviceAllocationStateStatusReady ∧
      alreadyAllocated mas claim.UID = false ∧
      enoughResourcesForPendingClaim pending mas claim.UID nodename = true ∧
      out = MakeResourceClaimAllocation
        (mas.setRequest claim.UID (pending.Get claim.UID nodename)) claim.UID ∧
      (allocatePendingClaim cs pending claim claimParameters nodename).result
        = .ok (buildAllocationResult nodename true) ∧
      (allocatePendingClaim cs pending claim claimParameters nodename).pending
        = pending.Remove claim.UID := by
  unfold allocatePendingClaim at h ⊢
  cases hp : claimParameters with
  | other => simp [hp] at h
  | mydevice spec =>
    simp only [hp] at h ⊢
    cases hg : masGet cs nodename with
    | none => simp [hg] at h
    | some mas =>
      simp only [hg] at h ⊢
      by_cases hst : mas.Status = MydeviceAllocationStateStatusReady
      · simp only [hst, ne_eq, not_true_eq_false, if_false] at h ⊢
        cases hal : alreadyAllocated mas claim.UID with
        | true => simp [hal] at h
        | false =>
          simp only [hal, Bool.false_eq_true, if_false] at h ⊢
          by_cases hex : claim.AllocationMode ≠ AllocationMode.Immediate
              ∧ pending.Exists claim.UID nodename = false
          · simp [hex] at h
          · simp only [hex, if_false] at h ⊢
            cases hen : enoughResourcesForPendingClaim pending mas claim.UID nodename with
            | false => simp [hen] at h
            | true =>
              simp only [hen, if_true] at h ⊢
              cases hu : cs.Update (MakeResourceClaimAllocation
                  (mas.setRequest claim.UID (pending.Get claim.UID nodename)) claim.UID) with
              | false => simp [hu] at h
              | true =>
                simp only [hu, if_true, Option.some.injEq] at h ⊢
                exact ⟨mas, rfl, hst, hal, hen, h.symm, trivial, trivial⟩
      · simp [hst] at h

/-- A requested device whose UID is a key of the allocatable map is copied with
its own UID when every allocatable key is the UID of its device. -/
theorem allocatedOf_uid_of_key (mas : MydeviceAllocationState) (hk : KeysAreUIDs mas)
    (d : RequestedMydevice) (h : mhas mas.Spec.AllocatableMydevices d.UID = true) :
    (allocatedOf mas d).UID = d.UID := by
  obtain ⟨v, hv⟩ := (mhas_iff_lookup _ _).mp h
  have hv2 := hk _ (mlookup_mem _ _ _ hv)
  simp only at hv2
  simp [allocatedOf, hv, ← hv2]

/-- A requested device that is in the available set is copied with its own UID
when every allocatable key is the UID of its device. -/
theorem allocatedOf_uid (mas : MydeviceAllocationState) (hk : KeysAreUIDs mas)
    (d : RequestedMydevice) (h : mhas (Available mas) d.UID = true) :
    (allocatedOf mas d).UID = d.UID :=
  allocatedOf_uid_of_key mas hk d (mhas_allocatable_of_available mas hk d.UID h)

/-- Committing a selection of available devices keeps the allocations free of
double-booking. -/
theorem commit_noDoubleBooking (mas : MydeviceAllocationState) (claimUID : String)
    (sel : RequestedMydevices) (hinv : NoDoubleBooking mas) (hk : KeysAreUIDs mas)
    (hsel : ∀ d ∈ sel.Mydevices, mhas (Available mas) d.UID = true) :
    NoDoubleBooking (MakeResourceClaimAllocation (mas.setRequest claimUID sel) claimUID) := by
  rw [commit_spec]
  unfold NoDoubleBooking at hinv ⊢
  simp only
  have hfree : ∀ x ∈ sel.Mydevices.map (allocatedOf mas),
      ∀ e ∈ mas.Spec.ResourceClaimAllocations, ∀ y ∈ e.2, y.UID ≠ x.UID := by
    intro x hx e he y hy
    obtain ⟨d, hd, hxd⟩ := List.mem_map.mp hx
    have h1 := (mhas_available mas d.UID (hsel d hd)).1
    rw [← hxd, allocatedOf_uid mas hk d (hsel d hd)]
    exact (deviceIsAllocated_false mas d.UID).mp h1 e he y hy
  apply pairwise_minsert _ _ _ _ hinv
  intro e he
  constructor
  · intro d1 hd1 d2 hd2
    exact fun heq => hfree d1 hd1 e he d2 hd2 heq.symm
  · intro d1 hd1 d2 hd2
    exact hfree d2 hd2 e he d1 hd1

theorem enoughResources_mem (pending : PerNodeClaimRequests) (mas : MydeviceAllocationState)
    (claimUID nodename : String)
    (h : enoughResourcesForPendingClaim pending mas claimUID nodename = true) :
    ∀ d ∈ (pending.Get claimUID nodename).Mydevices, mhas (Available mas) d.UID = true := by
  unfold enoughResourcesForPendingClaim at h
  exact List.all_eq_true.mp h

theorem singleNode_get (mas : MydeviceAllocationState) :
    masGet (singleNode mas) mas.Name = some mas := by
  simp [masGet, singleNode]

/-- One turn of the loop of `allocateImmediateClaim` on a node whose selection has
the requested length and whose update is accepted. -/
theorem allocateImmediateLoop_fit (cs : Clientset) (pending : PerNodeClaimRequests)
    (claim : ResourceClaim) (spec : MydeviceClaimParametersSpec) (nodename : String)
    (rest : List String) (mas : MydeviceAllocationState)
    (allocated : GoMap RequestedMydevices)
    (hget : masGet cs nodename = some mas)
    (hsel : selectPotentialDevices mas
      [{ Claim := claim, ClaimParameters := .mydevice spec, UnsuitableNodes := [] }]
        = some allocated)
    (hc : spec.Count = ((selectionOf allocated claim.UID).Mydevices.length : Int))
    (hu : cs.Update (MakeResourceClaimAllocation
      (mas.setRequest claim.UID (selectionOf allocated claim.UID)) claim.UID) = true) :
    (allocateImmediateLoop cs pending claim (.mydevice spec) (nodename :: rest)).result
        = .ok (buildAllocationResult nodename true) ∧
    (allocateImmediateLoop cs pending claim (.mydevice spec) (nodename :: rest)).persisted
        = some (MakeResourceClaimAllocation
            (mas.setRequest claim.UID (selectionOf allocated claim.UID)) claim.UID) ∧
    (allocateImmediateLoop cs pending claim (.mydevice spec) (nodename :: rest)).pending
        = pending := by
  unfold allocateImmediateLoop
  simp only [hget, hsel]
  rw [if_neg (not_not.mpr hc), if_pos hu]
  exact ⟨rfl, rfl, rfl⟩

/-- One turn of the loop of `allocateImmediateClaim` on a node that cannot be
loaded or whose selection has not the requested length: the node is skipped. -/
theorem allocateImmediateLoop_skip (cs : Clientset) (pending : PerNodeClaimRequests)
    (claim : ResourceClaim) (spec : MydeviceClaimParametersSpec) (nodename : String)
    (rest : List String)
    (h : masGet cs nodename = none ∨
      ∃ mas allocated, masGet cs nodename = some mas ∧
        selectPotentialDevices mas
          [{ Claim := claim, ClaimParameters := .mydevice spec, UnsuitableNodes := [] }]
            = some allocated ∧
        spec.Count ≠ ((selectionOf allocated claim.UID).Mydevices.length : Int)) :
    allocateImmediateLoop cs pending claim (.mydevice spec) (nodename :: rest)
      = allocateImmediateLoop cs pending claim (.mydevice spec) rest := by
  rcases h with h | ⟨mas, allocated, hget, hsel, hc⟩
  · rw [allocateImmediateLoop]
    simp only [h]
  · rw [allocateImmediateLoop]
    simp only [hget, hsel]
    rw [if_pos hc]

theorem deviceIsAllocated_append (g : MydeviceAllocationState) (claimUID : String)
    (committed : List AllocatedMydevice) (u : String)
    (g2 : MydeviceAllocationState)
    (h : g2.Spec.ResourceClaimAllocations
      = g.Spec.ResourceClaimAllocations ++ [(claimUID, committed)]) :
    DeviceIsAllocated g2 u = (DeviceIsAllocated g u || committed.any (fun d => d.UID = u)) := by
  simp [DeviceIsAllocated, h]

/-! ## What the selection returns when no selection is stored -/

/-- Selection for a single claim without a stored selection, when the device
visited last by `Available` is of the supported type and the available set has a
key other than its UID: the UID of that device, as many times as the claim
requests devices. -/
theorem select_single_shared (mas : MydeviceAllocationState) (claim : ResourceClaim)
    (spec : MydeviceClaimParametersSpec) (nodes : List String)
    (hno : mlookup mas.Spec.requests claim.UID = none)
    (hv : (lastVisited mas).Type_ = MydeviceType0)
    (hother : ∃ u, mhas (Available mas) u = true ∧ u ≠ (lastVisited mas).UID) :
    selectPotentialDevices mas
        [{ Claim := claim, ClaimParameters := .mydevice spec, UnsuitableNodes := nodes }]
      = some [(claim.UID,
          { Spec := spec,
            Mydevices := List.replicate spec.Count.toNat
              ({ UID := (lastVisited mas).UID } : RequestedMydevice) })] := by
  obtain ⟨h1, h2, _⟩ := repeats_available mas hother
  simp only [selectPotentialDevices, selectLoop,
    selectOne_shared mas (lastVisited mas) hv claim.UID spec (Available mas, []) hno h1 h2,
    minsert, Option.map_some']

/-- The selections of a batch of supported claims none of which has a stored
selection, when the device visited last by `Available` is of the supported type
and the available set has a key other than its UID: every claim of the batch has
an entry, and every entry lists the UID of that device as many times as the
claim requests devices. -/
theorem select_batch_shared (mas : MydeviceAllocationState) (mcas : List ClaimAllocation)
    (hsup : Supported mcas)
    (hno : ∀ ca ∈ mcas, mlookup mas.Spec.requests ca.Claim.UID = none)
    (hv : (lastVisited mas).Type_ = MydeviceType0)
    (hother : ∃ u, mhas (Available mas) u = true ∧ u ≠ (lastVisited mas).UID) :
    ∃ allocated, selectPotentialDevices mas mcas = some allocated ∧
      ∀ e ∈ allocated, e.2.Mydevices
        = List.replicate e.2.Spec.Count.toNat
            ({ UID := (lastVisited mas).UID } : RequestedMydevice) := by
  obtain ⟨out, hout⟩ := selectLoop_supported mas mcas (Available mas, []) hsup
  refine ⟨out.2, by simp [selectPotentialDevices, hout], ?_⟩
  exact (selectLoop_repeats mas (lastVisited mas) hv mcas _ out hno
    (repeats_available mas hother) hout).2.2

/-! ## C1: no double-booking and Allocate -/

theorem noDoubleBooking_congr (g1 g2 : MydeviceAllocationState) (h : g1.Spec = g2.Spec) :
    NoDoubleBooking g1 ↔ NoDoubleBooking g2 := by
  unfold NoDoubleBooking
  rw [h]

theorem keysAreUIDs_congr (g1 g2 : MydeviceAllocationState) (h : g1.Spec = g2.Spec) :
    KeysAreUIDs g1 ↔ KeysAreUIDs g2 := by
  unfold KeysAreUIDs
  rw [h]

theorem deviceIsAllocated_true (g : MydeviceAllocationState) (u : String) :
    DeviceIsAllocated g u = true ↔
      ∃ e ∈ g.Spec.ResourceClaimAllocations, ∃ x ∈ e.2, x.UID = u := by
  simp [DeviceIsAllocated]

/-- Pending mode keeps the allocations free of double-booking: it commits only
the PendingRequest selection, which it has re-validated against the keys of the
available set, and the descriptors it copies are read by key. -/
theorem allocatePendingClaim_noDoubleBooking (cs : Clientset)
    (pending : PerNodeClaimRequests) (claim : ResourceClaim)
    (claimParameters : ClaimParameters) (nodename : String)
    (loaded out : MydeviceAllocationState)
    (hget : cs.Get out.Name = some loaded)
    (hinv : NoDoubleBooking loaded) (hkeys : KeysAreUIDs loaded)
    (hper : (allocatePendingClaim cs pending claim claimParameters nodename).persisted
      = some out) :
    NoDoubleBooking out := by
  obtain ⟨mas, hmas, _, _, hen, hout, _, _⟩ :=
    allocatePendingClaim_persisted cs pending claim claimParameters nodename out hper
  have hname : out.Name = nodename := by
    rw [hout, commit_spec]
    exact masGet_name cs nodename mas hmas
  rw [← hname] at hmas
  obtain ⟨m, hm, hspec, _⟩ := masGet_spec cs out.Name mas hmas
  rw [hget, Option.some.injEq] at hm
  subst hm
  rw [hout]
  exact commit_noDoubleBooking mas claim.UID _ ((noDoubleBooking_congr _ _ hspec).mpr hinv)
    ((keysAreUIDs_congr _ _ hspec).mpr hkeys)
    (enoughResources_mem pending mas claim.UID nodename hen)

/-- C1 fails on the code in immediate mode.  Let the record have each device UID
in at most one `ResourceClaimAllocations` entry and every `AllocatableMydevices`
key equal to the UID of its device, let it hold nothing for the claim, and let
some device be available.  If the device that the loop of `Available` visits last
is of the supported type and committed to a claim, then immediate-mode Allocate
of any positive count over the store holding this record succeeds and persists a
record in which every device committed to the claim carries the UID of that
device: the UID is in two `ResourceClaimAllocations` entries.  (The values of
the map `Available` returns all point to the range variable, so the greedy loop
of `selectPotentialDevices` reads the device visited last, available or not.) -/
theorem immediate_allocate_double_books (mas : MydeviceAllocationState)
    (pending : PerNodeClaimRequests) (claim : ResourceClaim)
    (spec : MydeviceClaimParametersSpec)
    (hinv : NoDoubleBooking mas) (hkeys : KeysAreUIDs mas)
    (hnoreq : mlookup mas.Spec.requests claim.UID = none)
    (hnoalloc : mlookup mas.Spec.ResourceClaimAllocations claim.UID = none)
    (hfree : Available mas ≠ [])
    (hv : (lastVisited mas).Type_ = MydeviceType0)
    (hbusy : DeviceIsAllocated mas (lastVisited mas).UID = true)
    (hpos : 0 < spec.Count) :
    NoDoubleBooking mas ∧
    (allocateImmediateClaim (singleNode mas) pending claim (.mydevice spec)).result
      = .ok (buildAllocationResult mas.Name true) ∧
    ∃ out committed,
      (allocateImmediateClaim (singleNode mas) pending claim (.mydevice spec)).persisted
        = some out ∧
      mlookup out.Spec.ResourceClaimAllocations claim.UID = some committed ∧
      (committed.length : Int) = spec.Count ∧
      (∀ x ∈ committed, x.UID = (lastVisited mas).UID) ∧
      ¬ NoDoubleBooking out := by
  have hne : mas.Spec.AllocatableMydevices ≠ [] := by
    intro h
    exact hfree (available_nil_of_allocatable_nil mas h)
  have hother : ∃ u, mhas (Available mas) u = true ∧ u ≠ (lastVisited mas).UID := by
    obtain ⟨e, hmem⟩ := List.exists_mem_of_ne_nil _ hfree
    have hk := mhas_of_mem _ e.1 e.2 hmem
    refine ⟨e.1, hk, ?_⟩
    intro heq
    have := (mhas_available mas e.1 hk).1
    rw [heq, hbusy] at this
    cases this
  have hsel := select_single_shared mas claim spec [] hnoreq hv hother
  have hselOf : selectionOf [(claim.UID,
      ({ Spec := spec,
         Mydevices := List.replicate spec.Count.toNat
           ({ UID := (lastVisited mas).UID } : RequestedMydevice) } : RequestedMydevices))]
      claim.UID
      = { Spec := spec,
          Mydevices := List.replicate spec.Count.toNat
            ({ UID := (lastVisited mas).UID } : RequestedMydevice) } := by
    simp [selectionOf, mlookup]
  have hfit := allocateImmediateLoop_fit (singleNode mas) pending claim spec mas.Name []
    mas _ (singleNode_get mas) hsel
    (by rw [hselOf]; simp only [List.length_replicate]; omega) rfl
  rw [hselOf] at hfit
  have hrun : allocateImmediateClaim (singleNode mas) pending claim (.mydevice spec)
      = allocateImmediateLoop (singleNode mas) pending claim (.mydevice spec) [mas.Name] := rfl
  have huid : (allocatedOf mas { UID := (lastVisited mas).UID }).UID = (lastVisited mas).UID :=
    allocatedOf_uid_of_key mas hkeys _ (mhas_allocatable_lastVisited mas hkeys hne)
  rw [hrun]
  refine ⟨hinv, hfit.1, _, (List.replicate spec.Count.toNat
      ({ UID := (lastVisited mas).UID } : RequestedMydevice)).map (allocatedOf mas),
    hfit.2.1, ?_, ?_, ?_, ?_⟩
  · rw [commit_spec]
    exact mlookup_minsert_same _ _ _
  · simp only [List.length_map, List.length_replicate]
    omega
  · intro x hx
    obtain ⟨d, hd, hxd⟩ := List.mem_map.mp hx
    rw [List.eq_of_mem_replicate hd] at hxd
    rw [← hxd]
    exact huid
  · rw [commit_spec]
    unfold NoDoubleBooking
    simp only
    rw [minsert_absent _ _ _ (not_mem_mkeys_of_lookup_none _ _ hnoalloc)]
    intro hp
    rw [List.pairwise_append] at hp
    obtain ⟨e0, he0, x, hx, hxu⟩ := (deviceIsAllocated_true mas _).mp hbusy
    have hin : allocatedOf mas { UID := (lastVisited mas).UID } ∈
        (List.replicate spec.Count.toNat
          ({ UID := (lastVisited mas).UID } : RequestedMydevice)).map (allocatedOf mas) := by
      apply List.mem_map.mpr
      refine ⟨_, ?_, rfl⟩
      rw [List.mem_replicate]
      exact ⟨by omega, rfl⟩
    exact hp.2.2 e0 he0 _ (List.mem_singleton_self _) x hx _ hin (hxu.trans huid.symm)

/-- Witness for C1: `committedLastRecord` lists `d1`, `d2` and `d0`, visited in
this order, and `d0` is committed to `c0`.  Immediate-mode Allocate of one device
to `c1` commits `d0` to `c1` as well. -/
theorem immediate_allocate_double_books_witness :
    lastVisited committedLastRecord = sampleDevice "d0" ∧
    KeysAreUIDs committedLastRecord ∧
    (allocateImmediateClaim (singleNode committedLastRecord) NewPerNodeClaimRequests
      (sampleClaim "c1" .Immediate)
      (.mydevice { Count := 1, Type_ := MydeviceType0 })).persisted.map
        (fun out => out.Spec.ResourceClaimAllocations)
      = some [("c0", [{ CDIDevice := "d0", Type_ := MydeviceType0, UID := "d0" }]),
              ("c1", [{ CDIDevice := "d0", Type_ := MydeviceType0, UID := "d0" }])] ∧
    (NoDoubleBooking committedLastRecord ∧
    (allocateImmediateClaim (singleNode committedLastRecord) NewPerNodeClaimRequests
      (sampleClaim "c1" .Immediate)
      (.mydevice { Count := 1, Type_ := MydeviceType0 })).result
      = .ok (buildAllocationResult committedLastRecord.Name true) ∧
    ∃ out committed,
      (allocateImmediateClaim (singleNode committedLastRecord) NewPerNodeClaimRequests
        (sampleClaim "c1" .Immediate)
        (.mydevice { Count := 1, Type_ := MydeviceType0 })).persisted = some out ∧
      mlookup out.Spec.ResourceClaimAllocations (sampleClaim "c1" .Immediate).UID
        = some committed ∧
      (committed.length : Int)
        = ({ Count := 1, Type_ := MydeviceType0 } : MydeviceClaimParametersSpec).Count ∧
      (∀ x ∈ committed, x.UID = (lastVisited committedLastRecord).UID) ∧
      ¬ NoDoubleBooking out) :=
  ⟨by decide, by decide, by decide,
    immediate_allocate_double_books committedLastRecord NewPerNodeClaimRequests
      (sampleClaim "c1" .Immediate) { Count := 1, Type_ := MydeviceType0 }
      (by decide) (by decide) (by decide) (by decide) (by decide) (by decide) (by decide)
      (by decide)⟩

/-! ## C2: subset invariant, controller side -/

theorem subsetInvariant_congr (g1 g2 : MydeviceAllocationState) (h : g1.Spec = g2.Spec) :
    SubsetInvariant g1 ↔ SubsetInvariant g2 := by
  unfold SubsetInvariant
  rw [h]

/-- Committing a selection of allocatable devices keeps the subset invariant. -/
theorem commit_subsetInvariant (mas : MydeviceAllocationState) (claimUID : String)
    (sel : RequestedMydevices) (hinv : SubsetInvariant mas) (hk : KeysAreUIDs mas)
    (hsel : ∀ d ∈ sel.Mydevices, mhas mas.Spec.AllocatableMydevices d.UID = true) :
    SubsetInvariant (MakeResourceClaimAllocation (mas.setRequest claimUID sel) claimUID) := by
  rw [commit_spec]
  unfold SubsetInvariant at hinv ⊢
  simp only [MydeviceAllocationStateSpec.requests, Option.getD_some]
  constructor
  · intro e he d hd
    rcases mem_minsert _ _ _ _ he with h1 | h1
    · rw [h1] at hd
      exact hsel d hd
    · exact hinv.1 e h1 d hd
  · intro e he x hx
    rcases mem_minsert _ _ _ _ he with h1 | h1
    · rw [h1] at hx
      obtain ⟨d, hd, hxd⟩ := List.mem_map.mp hx
      rw [← hxd, allocatedOf_uid_of_key mas hk d (hsel d hd)]
      exact hsel d hd
    · exact hinv.2 e h1 x hx

/-- Deallocate: a persisted record is the loaded record of the bound node with
the claim deleted from requests and allocations; the claim had a request of the
supported type, the call succeeds and the claim is removed from the table. -/
theorem Deallocate_persisted (cs : Clientset) (pending : PerNodeClaimRequests)
    (claim : ResourceClaim) (out : MydeviceAllocationState)
    (h : (Deallocate cs pending claim).persisted = some out) :
    ∃ selectedNode mas devices,
      getSelectedNode claim = some selectedNode ∧ selectedNode ≠ "" ∧
      masGet cs selectedNode = some mas ∧
      mlookup mas.Spec.requests claim.UID = some devices ∧
      devices.Spec.Type_ = MydeviceType0 ∧
      out = deallocated mas claim.UID ∧
      (Deallocate cs pending claim).result = .ok () ∧
      (Deallocate cs pending claim).pending = pending.Remove claim.UID := by
  unfold Deallocate at h ⊢
  cases hn : getSelectedNode claim with
  | none => simp [hn] at h
  | some selectedNode =>
    simp only [hn] at h ⊢
    by_cases he : selectedNode = ""
    · simp [he] at h
    · simp only [he, if_false] at h ⊢
      cases hg : masGet cs selectedNode with
      | none => simp [hg] at h
      | some mas =>
        simp only [hg] at h ⊢
        cases hr : mlookup mas.Spec.requests claim.UID with
        | none => simp [hr] at h
        | some devices =>
          simp only [hr] at h ⊢
          by_cases ht : devices.Spec.Type_ = MydeviceType0
          · simp only [ht, if_true] at h ⊢
            cases hu : cs.Update (deallocated mas claim.UID) with
            | false => simp [hu] at h
            | true =>
              simp only [hu, if_true, Option.some.injEq] at h ⊢
              exact ⟨selectedNode, mas, devices, rfl, he, hg, hr, ht, h.symm, trivial, trivial⟩
          · simp [ht] at h

theorem mem_requests_deallocated (mas : MydeviceAllocationState) (claimUID : String)
    (e : String × RequestedMydevices) (h : e ∈ (deallocated mas claimUID).Spec.requests) :
    e ∈ mas.Spec.requests ∧ e.1 ≠ claimUID := by
  unfold deallocated MydeviceAllocationStateSpec.requests at *
  cases hr : mas.Spec.ResourceClaimRequests with
  | none => simp [hr] at h
  | some m =>
    simp only [hr, Option.map_some', Option.getD_some] at h ⊢
    exact (mem_mdelete _ _ _).mp h

theorem deallocated_subsetInvariant (mas : MydeviceAllocationState) (claimUID : String)
    (hinv : SubsetInvariant mas) : SubsetInvariant (deallocated mas claimUID) := by
  unfold SubsetInvariant at hinv ⊢
  constructor
  · intro e he d hd
    exact hinv.1 e (mem_requests_deallocated mas claimUID e he).1 d hd
  · intro e he d hd
    exact hinv.2 e ((mem_mdelete _ _ _).mp he).1 d hd

/-- C2 (as amended). Subset invariant, controller side: when the record stored for
the node has every UID of its requests and allocations among the keys of
`AllocatableMydevices` and every such key is the UID of its device, the record
persisted by immediate Allocate, by pending Allocate and by Deallocate has the
subset property again. -/
theorem controller_preserves_subsetInvariant (cs : Clientset)
    (pending : PerNodeClaimRequests) (claim : ResourceClaim)
    (claimParameters : ClaimParameters) (loaded out : MydeviceAllocationState)
    (hget : cs.Get out.Name = some loaded)
    (hinv : SubsetInvariant loaded) (hkeys : KeysAreUIDs loaded) :
    ((allocateImmediateClaim cs pending claim claimParameters).persisted = some out →
      SubsetInvariant out) ∧
    (∀ nodename,
      (allocatePendingClaim cs pending claim claimParameters nodename).persisted = some out →
      SubsetInvariant out) ∧
    ((Deallocate cs pending claim).persisted = some out → SubsetInvariant out) := by
  have hloaded : ∀ mas, masGet cs out.Name = some mas →
      SubsetInvariant mas ∧ KeysAreUIDs mas := by
    intro mas hmas
    obtain ⟨m, hm, hspec, _⟩ := masGet_spec cs out.Name mas hmas
    rw [hget, Option.some.injEq] at hm
    subst hm
    exact ⟨(subsetInvariant_congr _ _ hspec).mpr hinv, (keysAreUIDs_congr _ _ hspec).mpr hkeys⟩
  refine ⟨?_, ?_, ?_⟩
  · intro hper
    unfold allocateImmediateClaim at hper
    cases hl : cs.ListNames with
    | none => simp [hl] at hper
    | some masnames =>
      simp only [hl] at hper
      obtain ⟨mas, spec, allocated, _, hmas, _, hsel, _, hout, _⟩ :=
        allocateImmediateLoop_persisted cs pending claim claimParameters masnames out hper
      obtain ⟨h1, h2⟩ := hloaded mas hmas
      rw [hout]
      exact commit_subsetInvariant mas claim.UID _ h1 h2
        (select_sub_allocatable mas h2 _ allocated hsel claim.UID)
  · intro nodename hper
    obtain ⟨mas, hmas, _, _, hen, hout, _, _⟩ :=
      allocatePendingClaim_persisted cs pending claim claimParameters nodename out hper
    have hname : out.Name = nodename := by
      rw [hout, commit_spec]
      exact masGet_name cs nodename mas hmas
    rw [← hname] at hmas
    obtain ⟨h1, h2⟩ := hloaded mas hmas
    rw [hout]
    exact commit_subsetInvariant mas claim.UID _ h1 h2
      (fun d hd => mhas_allocatable_of_available mas h2 d.UID
        (enoughResources_mem pending mas claim.UID nodename hen d hd))
  · intro hper
    obtain ⟨node, mas, devices, _, _, hmas, _, _, hout, _, _⟩ :=
      Deallocate_persisted cs pending claim out hper
    have hname : out.Name = node := by
      rw [hout]
      exact masGet_name cs node mas hmas
    rw [← hname] at hmas
    rw [hout]
    exact deallocated_subsetInvariant mas claim.UID (hloaded mas hmas).1

/-- Witness for C2 (as amended): on `sampleRecord`, immediate allocation of one
device to `c1`, pending-mode allocation of the PendingRequest selection `[d2]` to
`c1`, and Deallocate of `c0`. -/
theorem controller_preserves_subsetInvariant_witness :
    SubsetInvariant sampleRecord ∧ KeysAreUIDs sampleRecord ∧
    (∃ out, (allocateImmediateClaim (singleNode sampleRecord) NewPerNodeClaimRequests
        (sampleClaim "c1" .WaitForFirstConsumer) (sampleParams 1)).persisted = some out ∧
      SubsetInvariant out) ∧
    (∃ out, (allocatePendingClaim (singleNode sampleRecord) (samplePending "c1" "n1" ["d2"])
        (sampleClaim "c1" .WaitForFirstConsumer) (sampleParams 1) "n1").persisted = some out ∧
      SubsetInvariant out) ∧
    (∃ out, (Deallocate (singleNode sampleRecord) NewPerNodeClaimRequests
        (boundClaim "c0" "n1")).persisted = some out ∧
      SubsetInvariant out) :=
  ⟨by decide, by decide,
    ⟨_, rfl,
      (controller_preserves_subsetInvariant (singleNode sampleRecord) NewPerNodeClaimRequests
        (sampleClaim "c1" .WaitForFirstConsumer) (sampleParams 1) sampleRecord _
        (by rfl) (by decide) (by decide)).1 rfl⟩,
    ⟨_, rfl,
      (controller_preserves_subsetInvariant (singleNode sampleRecord)
        (samplePending "c1" "n1" ["d2"])
        (sampleClaim "c1" .WaitForFirstConsumer) (sampleParams 1) sampleRecord _
        (by rfl) (by decide) (by decide)).2.1 "n1" rfl⟩,
    ⟨_, rfl,
      (controller_preserves_subsetInvariant (singleNode sampleRecord) NewPerNodeClaimRequests
        (boundClaim "c0" "n1") (sampleParams 1) sampleRecord _
        (by rfl) (by decide) (by decide)).2.2 rfl⟩⟩

/-- Counterexample to C2 as stated: `misKeyedRecord` has the subset property (it
requests and commits nothing), yet immediate allocation of one device to `c1`
persists a record whose request for `c1` lists `d0`, which is not a key of
`AllocatableMydevices`. -/
theorem subsetInvariant_broken_by_misKeyedRecord :
    SubsetInvariant misKeyedRecord ∧
    ∃ out, (allocateImmediateClaim (singleNode misKeyedRecord) NewPerNodeClaimRequests
        (sampleClaim "c1" .WaitForFirstConsumer) (sampleParams 1)).persisted = some out ∧
      (out.Spec.requestOf "c1").Mydevices = [{ UID := "d0" }] ∧
      mhas out.Spec.AllocatableMydevices "d0" = false ∧
      ¬ SubsetInvariant out :=
  ⟨by decide, _, rfl, by decide, by decide, by decide⟩

/-! ## C3: a stale selection is never committed -/

/-- A non-empty PendingRequest selection exists in the table. -/
theorem pending_exists_of_get (pending : PerNodeClaimRequests) (claimUID node : String)
    (d : RequestedMydevice) (h : d ∈ (pending.Get claimUID node).Mydevices) :
    pending.Exists claimUID node = true := by
  unfold PerNodeClaimRequests.Get at h
  cases he : pending.Exists claimUID node with
  | true => rfl
  | false => simp [he, RequestedMydevices.zero] at h

/-- C3 (as amended). A stale selection is never committed.  For a Ready record
loaded for the node and a pending-mode Allocate that gets past the
already-committed early return: if some device of the PendingRequest selection for
(claim, node) is not in the available set of the record, the call fails with the
insufficient-resources error, persists nothing and leaves the PendingRequest table
unchanged; and if the call succeeds, it persisted the record with exactly the
PendingRequest selection written for the claim, every device of that selection is
in the available set of the loaded record, and, when every allocatable key is the
UID of its device, so is every device of the allocation committed for the claim. -/
theorem stale_selection_never_committed (cs : Clientset) (pending : PerNodeClaimRequests)
    (claim : ResourceClaim) (spec : MydeviceClaimParametersSpec) (nodename : String)
    (mas : MydeviceAllocationState)
    (hget : masGet cs nodename = some mas)
    (hready : mas.Status = MydeviceAllocationStateStatusReady)
    (hpast : alreadyAllocated mas claim.UID = false) :
    ((∃ d ∈ (pending.Get claim.UID nodename).Mydevices, mhas (Available mas) d.UID = false) →
      (allocatePendingClaim cs pending claim (.mydevice spec) nodename).result
          = .error (.insufficientResources nodename) ∧
      (allocatePendingClaim cs pending claim (.mydevice spec) nodename).persisted = none ∧
      (allocatePendingClaim cs pending claim (.mydevice spec) nodename).pending = pending) ∧
    (∀ r, (allocatePendingClaim cs pending claim (.mydevice spec) nodename).result = .ok r →
      ∃ out committed,
        (allocatePendingClaim cs pending claim (.mydevice spec) nodename).persisted = some out ∧
        out.Spec.requestOf claim.UID = pending.Get claim.UID nodename ∧
        (∀ d ∈ (out.Spec.requestOf claim.UID).Mydevices, mhas (Available mas) d.UID = true) ∧
        mlookup out.Spec.ResourceClaimAllocations claim.UID = some committed ∧
        (KeysAreUIDs mas → ∀ x ∈ committed, mhas (Available mas) x.UID = true)) := by
  constructor
  · rintro ⟨d, hd, hna⟩
    have hex := pending_exists_of_get pending claim.UID nodename d hd
    have hen : enoughResourcesForPendingClaim pending mas claim.UID nodename = false := by
      cases h : enoughResourcesForPendingClaim pending mas claim.UID nodename with
      | false => rfl
      | true =>
        have := enoughResources_mem pending mas claim.UID nodename h d hd
        rw [hna] at this
        exact absurd this (by simp)
    simp [allocatePendingClaim, hget, hready, hpast, hex, hen]
  · intro r hr
    cases hen : enoughResourcesForPendingClaim pending mas claim.UID nodename with
    | false =>
      by_cases hex : claim.AllocationMode ≠ AllocationMode.Immediate
          ∧ pending.Exists claim.UID nodename = false
      · simp [allocatePendingClaim, hget, hready, hpast, hex] at hr
      · simp only [allocatePendingClaim, hget, hready, hpast, hen, hex] at hr
        simp at hr
    | true =>
      have hmem := enoughResources_mem pending mas claim.UID nodename hen
      by_cases hex : claim.AllocationMode ≠ AllocationMode.Immediate
          ∧ pending.Exists claim.UID nodename = false
      · simp [allocatePendingClaim, hget, hready, hpast, hex] at hr
      · cases hu : cs.Update (MakeResourceClaimAllocation
            (mas.setRequest claim.UID (pending.Get claim.UID nodename)) claim.UID) with
        | false =>
          simp only [allocatePendingClaim, hget, hready, hpast, hen, hex, hu] at hr
          simp at hr
        | true =>
          have hreq : (MakeResourceClaimAllocation
              (mas.setRequest claim.UID (pending.Get claim.UID nodename)) claim.UID).Spec.requestOf
                claim.UID = pending.Get claim.UID nodename := by
            rw [commit_spec]
            simp [MydeviceAllocationStateSpec.requestOf, MydeviceAllocationStateSpec.requests,
              mlookup_minsert_same]
          refine ⟨MakeResourceClaimAllocation
            (mas.setRequest claim.UID (pending.Get claim.UID nodename)) claim.UID,
            (pending.Get claim.UID nodename).Mydevices.map (allocatedOf mas), ?_, hreq, ?_, ?_, ?_⟩
          · simp only [allocatePendingClaim, hget, hready, hpast, hen, hex, hu]
            simp
          · rw [hreq]
            exact hmem
          · rw [commit_spec]
            simp [mlookup_minsert_same]
          · intro hk x hx
            obtain ⟨d, hd, hxd⟩ := List.mem_map.mp hx
            rw [← hxd, allocatedOf_uid mas hk d (hmem d hd)]
            exact hmem d hd

/-- Witness for C3 (as amended): on `sampleRecord` the device `d0` is committed to
`c0`.  A PendingRequest of `c1` selecting `d0` is refused and nothing changes; a
PendingRequest of `c1` selecting `d1` is committed, and `d1` was available. -/
theorem stale_selection_never_committed_witness :
    ((allocatePendingClaim (singleNode sampleRecord) (samplePending "c1" "n1" ["d0"])
        (sampleClaim "c1" .WaitForFirstConsumer) (sampleParams 1) "n1").result
        = .error (.insufficientResources "n1") ∧
     (allocatePendingClaim (singleNode sampleRecord) (samplePending "c1" "n1" ["d0"])
        (sampleClaim "c1" .WaitForFirstConsumer) (sampleParams 1) "n1").persisted = none ∧
     (allocatePendingClaim (singleNode sampleRecord) (samplePending "c1" "n1" ["d0"])
        (sampleClaim "c1" .WaitForFirstConsumer) (sampleParams 1) "n1").pending
        = samplePending "c1" "n1" ["d0"]) ∧
    ∃ out committed,
      (allocatePendingClaim (singleNode sampleRecord) (samplePending "c1" "n1" ["d1"])
        (sampleClaim "c1" .WaitForFirstConsumer) (sampleParams 1) "n1").persisted = some out ∧
      out.Spec.requestOf "c1" = (samplePending "c1" "n1" ["d1"]).Get "c1" "n1" ∧
      (∀ d ∈ (out.Spec.requestOf "c1").Mydevices, mhas (Available sampleRecord) d.UID = true) ∧
      mlookup out.Spec.ResourceClaimAllocations "c1" = some committed ∧
      (KeysAreUIDs sampleRecord → ∀ x ∈ committed, mhas (Available sampleRecord) x.UID = true) :=
  ⟨(stale_selection_never_committed (singleNode sampleRecord)
      (samplePending "c1" "n1" ["d0"]) (sampleClaim "c1" .WaitForFirstConsumer)
      { Count := 1, Type_ := MydeviceType0 } "n1" sampleRecord rfl rfl rfl).1
        ⟨{ UID := "d0" }, by decide, by decide⟩,
   (stale_selection_never_committed (singleNode sampleRecord)
      (samplePending "c1" "n1" ["d1"]) (sampleClaim "c1" .WaitForFirstConsumer)
      { Count := 1, Type_ := MydeviceType0 } "n1" sampleRecord rfl rfl rfl).2
        (buildAllocationResult "n1" true) rfl⟩

/-- Counterexample to C3 as stated: `misKeyedRecord` is Ready and has no allocation
for `c1`; its available set is the single UID `d0`.  Pending-mode Allocate of `c1`
with the PendingRequest selection `[d0]` succeeds, and the allocation it commits
for `c1` is one descriptor with the empty UID, which is not in the available set. -/
theorem committed_device_not_available :
    misKeyedRecord.Status = MydeviceAllocationStateStatusReady ∧
    alreadyAllocated misKeyedRecord "c1" = false ∧
    mkeys (Available misKeyedRecord) = ["d0"] ∧
    (allocatePendingClaim (singleNode misKeyedRecord) (samplePending "c1" "n1" ["d0"])
        (sampleClaim "c1" .WaitForFirstConsumer) (sampleParams 1) "n1").result
      = .ok (buildAllocationResult "n1" true) ∧
    (allocatePendingClaim (singleNode misKeyedRecord) (samplePending "c1" "n1" ["d0"])
        (sampleClaim "c1" .WaitForFirstConsumer) (sampleParams 1) "n1").persisted.map
        (fun out => mlookup out.Spec.ResourceClaimAllocations "c1")
      = some (some [{ CDIDevice := "", Type_ := "", UID := "" }]) ∧
    mhas (Available misKeyedRecord) "" = false :=
  ⟨rfl, rfl, by decide, rfl, by decide, by decide⟩

/-! ## C4: selection reuse -/

/-- The pool after deleting the devices `l`, in order. -/
theorem reuseLoop_nodup :
    ∀ (l : List RequestedMydevice) (pool : GoMap AllocatableMydevice),
      (l.map (fun d => d.UID)).Nodup → (∀ d ∈ l, mhas pool d.UID = true) →
      reuseLoop pool l = (l.foldl (fun p d => mdelete p d.UID) pool, true) := by
  intro l
  induction l with
  | nil => intro pool _ _; rfl
  | cons d rest ih =>
    intro pool hnd hall
    rw [List.map_cons, List.nodup_cons] at hnd
    have hd := hall d (List.mem_cons_self _ _)
    unfold reuseLoop
    simp only [hd, if_true, List.foldl_cons]
    apply ih _ hnd.2
    intro x hx
    have hne : d.UID ≠ x.UID := by
      intro heq
      exact hnd.1 (List.mem_map.mpr ⟨x, hx, heq.symm⟩)
    have hx2 := hall x (List.mem_cons_of_mem _ hx)
    unfold mhas at hx2 ⊢
    rw [mlookup_mdelete_ne _ _ _ hne]
    exact hx2

theorem mem_foldl_mdelete {α : Type} (l : List RequestedMydevice) :
    ∀ (pool : GoMap α) (e : String × α),
      e ∈ l.foldl (fun p d => mdelete p d.UID) pool ↔ e ∈ pool ∧ ∀ d ∈ l, e.1 ≠ d.UID := by
  induction l with
  | nil => intro pool e; simp
  | cons d rest ih =>
    intro pool e
    rw [List.foldl_cons, ih, mem_mdelete]
    simp only [List.mem_cons, forall_eq_or_imp]
    tauto

/-- C4 (as amended). Selection reuse: for a batch `pre ++ ca :: suf` of supported
claims in which `suf` does not name the claim of `ca` again, if the record stores
a selection for that claim, the selection lists no device twice, and each of its
devices is in the working pool left by `pre` (the pool when the claim is
processed), then `selectPotentialDevices` returns for the claim exactly the stored
device list and the claim's turn removes from the pool exactly the stored devices. -/
theorem selection_reuse (mas : MydeviceAllocationState) (pre suf : List ClaimAllocation)
    (ca : ClaimAllocation) (spec : MydeviceClaimParametersSpec)
    (stored : RequestedMydevices) (pool : GoMap AllocatableMydevice)
    (hparams : ca.ClaimParameters = .mydevice spec) (hsuf : Supported suf)
    (hlast : ∀ c ∈ suf, c.Claim.UID ≠ ca.Claim.UID)
    (hstored : mlookup mas.Spec.requests ca.Claim.UID = some stored)
    (hnodup : (stored.Mydevices.map (fun d => d.UID)).Nodup)
    (hpool : poolAfter mas pre = some pool)
    (havail : ∀ d ∈ stored.Mydevices, mhas pool d.UID = true) :
    ∃ allocated poolNext,
      selectPotentialDevices mas (pre ++ ca :: suf) = some allocated ∧
      (selectionOf allocated ca.Claim.UID).Mydevices = stored.Mydevices ∧
      poolAfter mas (pre ++ [ca]) = some poolNext ∧
      ∀ e, e ∈ poolNext ↔ e ∈ pool ∧ ∀ d ∈ stored.Mydevices, e.1 ≠ d.UID := by
  unfold poolAfter at hpool
  cases hpre : selectLoop mas pre (Available mas, []) with
  | none => simp [hpre] at hpool
  | some st =>
    simp only [hpre, Option.map_some', Option.some.injEq] at hpool
    have hone : selectOne mas ca.Claim.UID spec st =
        (stored.Mydevices.foldl (fun p d => mdelete p d.UID) pool,
          minsert st.2 ca.Claim.UID { Spec := spec, Mydevices := stored.Mydevices }) := by
      unfold selectOne
      simp only [hstored, hpool, reuseLoop_nodup stored.Mydevices pool hnodup havail, if_true]
    obtain ⟨out, hout⟩ := selectLoop_supported mas suf (selectOne mas ca.Claim.UID spec st) hsuf
    refine ⟨out.2, stored.Mydevices.foldl (fun p d => mdelete p d.UID) pool, ?_, ?_, ?_, ?_⟩
    · unfold selectPotentialDevices
      rw [selectLoop_append, hpre]
      simp [selectLoop, hparams, hout]
    · unfold selectionOf
      rw [selectLoop_lookup_ne mas ca.Claim.UID suf _ out hlast hout, hone]
      simp [mlookup_minsert_same]
    · unfold poolAfter
      rw [selectLoop_append, hpre]
      simp [selectLoop, hparams, hone]
    · intro e
      exact mem_foldl_mdelete stored.Mydevices pool e

/-- Witness for C4 (as amended): the record with the single free device `e0` and
a stored selection `[e0]` for `c1`; selecting for the batch `[c1]` returns `[e0]`
and leaves the pool without `e0`. -/
theorem selection_reuse_witness :
    ∃ allocated poolNext,
      selectPotentialDevices (oneDeviceRecord.setRequest "c1"
          { Spec := { Count := 1, Type_ := MydeviceType0 }, Mydevices := [{ UID := "e0" }] })
        ([] ++ sampleCA "c1" 1 :: []) = some allocated ∧
      (selectionOf allocated "c1").Mydevices = [{ UID := "e0" }] ∧
      poolAfter (oneDeviceRecord.setRequest "c1"
          { Spec := { Count := 1, Type_ := MydeviceType0 }, Mydevices := [{ UID := "e0" }] })
        ([] ++ [sampleCA "c1" 1]) = some poolNext ∧
      ∀ e, e ∈ poolNext ↔
        e ∈ sampleDevices ["e0"] ∧ ∀ d ∈ [({ UID := "e0" } : RequestedMydevice)], e.1 ≠ d.UID :=
  selection_reuse (oneDeviceRecord.setRequest "c1"
      { Spec := { Count := 1, Type_ := MydeviceType0 }, Mydevices := [{ UID := "e0" }] })
    [] [] (sampleCA "c1" 1) { Count := 1, Type_ := MydeviceType0 }
    { Spec := { Count := 1, Type_ := MydeviceType0 }, Mydevices := [{ UID := "e0" }] }
    (sampleDevices ["e0"]) rfl (by intro c hc; simp at hc) (by intro c hc; simp at hc)
    (by decide) (by decide) (by decide) (by decide)

/-- Counterexample to C4 as stated: `duplicateSelectionRecord` has the single free
device `d0` and stores the selection `[d0, d0]` for `c1`; `d0` is in the working
pool when `c1` is processed, yet the selection returned for `c1` is not the stored
one: the validation deletes `d0` from the pool when it meets it the first time
and misses it the second time, and the greedy loop finds the pool empty. -/
theorem selection_reuse_fails_on_duplicate :
    mlookup duplicateSelectionRecord.Spec.requests "c1"
      = some { Spec := { Count := 2, Type_ := MydeviceType0 },
               Mydevices := [{ UID := "d0" }, { UID := "d0" }] } ∧
    poolAfter duplicateSelectionRecord [] = some (sampleDevices ["d0"]) ∧
    (∀ d ∈ [({ UID := "d0" } : RequestedMydevice), { UID := "d0" }],
      mhas (sampleDevices ["d0"]) d.UID = true) ∧
    (selectPotentialDevices duplicateSelectionRecord [sampleCA "c1" 2]).map
        (fun allocated => (selectionOf allocated "c1").Mydevices)
      = some [] :=
  ⟨by decide, by decide, by decide, by decide⟩

/-! ## C5: greedy selection -/

/-- C5 fails on the code.  Take a record in which the device that the loop of
`Available` visits last is of the supported type and the available set has a key
other than its UID, and a batch `pre ++ [ca]` of supported claims none of which
has a stored selection.  Then the selection returned for the claim of `ca` lists
the UID of that one device `Count` times, whatever the size of the working pool
at the start of the claim's turn; when the pool holds fewer than `Count` devices
the length is not the minimum of `Count` and the pool size.  (Every value of the
pool is the pointer to the range variable of `Available`: each turn of the greedy
loop reads the device visited last and deletes the key of its UID, so the loop
never runs out of pool entries.) -/
theorem greedy_ignores_pool_size (mas : MydeviceAllocationState)
    (pre : List ClaimAllocation) (ca : ClaimAllocation) (spec : MydeviceClaimParametersSpec)
    (hpre : Supported pre) (hparams : ca.ClaimParameters = .mydevice spec)
    (hno : ∀ c ∈ pre ++ [ca], mlookup mas.Spec.requests c.Claim.UID = none)
    (hv : (lastVisited mas).Type_ = MydeviceType0)
    (hother : ∃ u, mhas (Available mas) u = true ∧ u ≠ (lastVisited mas).UID) :
    ∃ allocated pool,
      selectPotentialDevices mas (pre ++ [ca]) = some allocated ∧
      poolAfter mas pre = some pool ∧
      (selectionOf allocated ca.Claim.UID).Mydevices
        = List.replicate spec.Count.toNat
            ({ UID := (lastVisited mas).UID } : RequestedMydevice) ∧
      (pool.length < spec.Count.toNat →
        (selectionOf allocated ca.Claim.UID).Mydevices.length
          ≠ min spec.Count.toNat pool.length) := by
  obtain ⟨st, hst⟩ := selectLoop_supported mas pre (Available mas, []) hpre
  obtain ⟨h1, h2, _⟩ := selectLoop_repeats mas (lastVisited mas) hv pre _ st
    (fun c hc => hno c (List.mem_append_left _ hc)) (repeats_available mas hother) hst
  have hone := selectOne_shared mas (lastVisited mas) hv ca.Claim.UID spec st
    (hno ca (by simp)) h1 h2
  have hsel : (selectionOf (selectOne mas ca.Claim.UID spec st).2 ca.Claim.UID).Mydevices
      = List.replicate spec.Count.toNat
          ({ UID := (lastVisited mas).UID } : RequestedMydevice) := by
    rw [hone]
    simp [selectionOf, mlookup_minsert_same]
  refine ⟨(selectOne mas ca.Claim.UID spec st).2, st.1, ?_, ?_, hsel, ?_⟩
  · unfold selectPotentialDevices
    rw [selectLoop_append, hst]
    simp [selectLoop, hparams]
  · simp [poolAfter, hst]
  · intro hlt
    rw [hsel, List.length_replicate]
    omega

/-- Witness for C5: `twoDevicesRecord` has the two free devices `d0` and `d1`, so
the working pool holds two devices when the turn of `c1` (count 3) starts; the
selection returned for `c1` has three entries, the UID of the device visited last
three times. -/
theorem greedy_ignores_pool_size_witness :
    (poolAfter twoDevicesRecord []).map List.length = some 2 ∧
    ∃ allocated pool,
      selectPotentialDevices twoDevicesRecord ([] ++ [sampleCA "c1" 3]) = some allocated ∧
      poolAfter twoDevicesRecord [] = some pool ∧
      (selectionOf allocated (sampleCA "c1" 3).Claim.UID).Mydevices
        = List.replicate ({ Count := 3, Type_ := MydeviceType0 } :
            MydeviceClaimParametersSpec).Count.toNat
            ({ UID := (lastVisited twoDevicesRecord).UID } : RequestedMydevice) ∧
      (pool.length < ({ Count := 3, Type_ := MydeviceType0 } :
          MydeviceClaimParametersSpec).Count.toNat →
        (selectionOf allocated (sampleCA "c1" 3).Claim.UID).Mydevices.length
          ≠ min ({ Count := 3, Type_ := MydeviceType0 } :
            MydeviceClaimParametersSpec).Count.toNat pool.length) :=
  ⟨by decide,
    greedy_ignores_pool_size twoDevicesRecord [] (sampleCA "c1" 3)
      { Count := 3, Type_ := MydeviceType0 } (by intro c hc; simp at hc) rfl
      (by decide) (by decide) ⟨"d0", by decide, by decide⟩⟩

/-! ## C6: all-or-nothing filtering -/

theorem cleanupStep_name (st : PerNodeClaimRequests × MydeviceAllocationState)
    (claimUID : String) : (cleanupStep st claimUID).2.Name = st.2.Name := by
  unfold cleanupStep
  split
  · split <;> rfl
  · rfl

theorem cleanupNode_name (p : PerNodeClaimRequests) (mas : MydeviceAllocationState) :
    (p.CleanupNode mas).2.Name = mas.Name := by
  unfold PerNodeClaimRequests.CleanupNode
  have : ∀ (l : List String) (st : PerNodeClaimRequests × MydeviceAllocationState),
      (l.foldl cleanupStep st).2.Name = st.2.Name := by
    intro l
    induction l with
    | nil => intro st; rfl
    | cons k rest ih =>
      intro st
      rw [List.foldl_cons, ih, cleanupStep_name]
  exact this _ _

theorem filteredCAs_supported (allcas : List ClaimAllocation) (h : Supported allcas) :
    filteredCAs allcas = allcas := by
  unfold filteredCAs
  rw [List.filter_eq_self]
  intro ca hca
  obtain ⟨spec, hs⟩ := h ca hca
  simp [hs]

/-- The loop of `unsuitableMydeviceNode` on supported claims: a claim whose
selection length differs from its count makes the whole batch unsuitable. -/
theorem unsuitableLoop_mismatch (allocated : GoMap RequestedMydevices)
    (allcas : List ClaimAllocation) :
    ∀ (mcas : List ClaimAllocation) (pending : PerNodeClaimRequests)
      (mas : MydeviceAllocationState),
      Supported mcas →
      (∃ ca ∈ mcas, ∃ spec, ca.ClaimParameters = .mydevice spec ∧
        spec.Count ≠ ((selectionOf allocated ca.Claim.UID).Mydevices.length : Int)) →
      (unsuitableLoop allocated allcas mcas pending mas).err = none ∧
      (unsuitableLoop allocated allcas mcas pending mas).cas = markUnsuitable allcas mas.Name := by
  intro mcas
  induction mcas with
  | nil => intro pending mas _ h; simp at h
  | cons ca rest ih =>
    intro pending mas hsup hex
    obtain ⟨spec, hs⟩ := hsup ca (List.mem_cons_self _ _)
    unfold unsuitableLoop
    simp only [hs]
    by_cases hc : spec.Count = ((selectionOf allocated ca.Claim.UID).Mydevices.length : Int)
    · simp only [hc, ne_eq, not_true_eq_false, if_false]
      have hrest : ∃ c ∈ rest, ∃ sp, c.ClaimParameters = .mydevice sp ∧
          sp.Count ≠ ((selectionOf allocated c.Claim.UID).Mydevices.length : Int) := by
        obtain ⟨c, hcm, sp, hsp, hne⟩ := hex
        rcases List.mem_cons.mp hcm with h1 | h1
        · subst h1
          rw [hs] at hsp
          cases hsp
          exact absurd hc hne
        · exact ⟨c, h1, sp, hsp, hne⟩
      have := ih (pending.Set ca.Claim.UID mas.Name (selectionOf allocated ca.Claim.UID))
        (mas.setRequest ca.Claim.UID (selectionOf allocated ca.Claim.UID))
        (fun c hcm => hsup c (List.mem_cons_of_mem _ hcm)) hrest
      exact this
    · simp [hc]

/-- The loop of `unsuitableMydeviceNode` on supported claims whose selections all
have the requested length: no claim allocation is touched. -/
theorem unsuitableLoop_complete (allocated : GoMap RequestedMydevices)
    (allcas : List ClaimAllocation) :
    ∀ (mcas : List ClaimAllocation) (pending : PerNodeClaimRequests)
      (mas : MydeviceAllocationState),
      (∀ ca ∈ mcas, ∃ spec, ca.ClaimParameters = .mydevice spec ∧
        spec.Count = ((selectionOf allocated ca.Claim.UID).Mydevices.length : Int)) →
      (unsuitableLoop allocated allcas mcas pending mas).err = none ∧
      (unsuitableLoop allocated allcas mcas pending mas).cas = allcas := by
  intro mcas
  induction mcas with
  | nil => intro pending mas _; simp [unsuitableLoop]
  | cons ca rest ih =>
    intro pending mas hall
    obtain ⟨spec, hs, hc⟩ := hall ca (List.mem_cons_self _ _)
    unfold unsuitableLoop
    simp only [hs, hc, ne_eq, not_true_eq_false, if_false]
    exact ih _ _ (fun c hcm => hall c (List.mem_cons_of_mem _ hcm))

theorem mem_markUnsuitable (allcas : List ClaimAllocation) (node : String) :
    ∀ ca ∈ markUnsuitable allcas node, node ∈ ca.UnsuitableNodes := by
  intro ca hca
  unfold markUnsuitable at hca
  obtain ⟨c, _, hc⟩ := List.mem_map.mp hca
  rw [← hc]
  simp

/-- C6. All-or-nothing filtering.  For a Ready record loaded for the node and a
batch of supported claims, `unsuitableNode` returns no error and the selection it
computes (by `selectPotentialDevices` on the record left by `CleanupNode`) exists;
if the selection of at least one claim of the batch is shorter than that claim's
count, every claim of the batch gets the node appended to its `UnsuitableNodes`
(so the node is in every list); if every claim's selection is complete, that is
has exactly its count of devices, no claim allocation of the batch is changed.
The last conjunct records that the code tests `Count != len`: any claim whose
selection length differs from its count makes the whole batch unsuitable. -/
theorem all_or_nothing_filtering (cs : Clientset) (pending : PerNodeClaimRequests)
    (allcas : List ClaimAllocation) (node : String) (mas : MydeviceAllocationState)
    (hget : masGet cs node = some mas)
    (hready : mas.Status = MydeviceAllocationStateStatusReady)
    (hsup : Supported allcas) :
    (unsuitableNode cs pending allcas node).err = none ∧
    ∃ allocated,
      selectPotentialDevices (pending.CleanupNode (withRequestsMap mas)).2 allcas
        = some allocated ∧
      ((∃ ca ∈ allcas, ∃ spec, ca.ClaimParameters = .mydevice spec ∧
          ((selectionOf allocated ca.Claim.UID).Mydevices.length : Int) < spec.Count) →
        (unsuitableNode cs pending allcas node).cas = markUnsuitable allcas node ∧
        ∀ ca ∈ (unsuitableNode cs pending allcas node).cas, node ∈ ca.UnsuitableNodes) ∧
      ((∀ ca ∈ allcas, ∀ spec, ca.ClaimParameters = .mydevice spec →
          spec.Count = ((selectionOf allocated ca.Claim.UID).Mydevices.length : Int)) →
        (unsuitableNode cs pending allcas node).cas = allcas) ∧
      ((∃ ca ∈ allcas, ∃ spec, ca.ClaimParameters = .mydevice spec ∧
          spec.Count ≠ ((selectionOf allocated ca.Claim.UID).Mydevices.length : Int)) →
        (unsuitableNode cs pending allcas node).cas = markUnsuitable allcas node) := by
  obtain ⟨allocated, hsel⟩ :=
    select_supported (pending.CleanupNode (withRequestsMap mas)).2 allcas hsup
  have hname : (pending.CleanupNode (withRequestsMap mas)).2.Name = node := by
    rw [cleanupNode_name]
    exact masGet_name cs node mas hget
  have hrun : unsuitableNode cs pending allcas node =
      unsuitableLoop allocated allcas allcas (pending.CleanupNode (withRequestsMap mas)).1
        (pending.CleanupNode (withRequestsMap mas)).2 := by
    unfold unsuitableNode
    simp only [hget, hready, ne_eq, not_true_eq_false, if_false, unsuitableMydeviceNode,
      filteredCAs_supported allcas hsup, hsel]
  have herr : (unsuitableNode cs pending allcas node).err = none := by
    rw [hrun]
    by_cases hall : ∀ ca ∈ allcas, ∃ spec, ca.ClaimParameters = .mydevice spec ∧
        spec.Count = ((selectionOf allocated ca.Claim.UID).Mydevices.length : Int)
    · exact (unsuitableLoop_complete allocated allcas allcas _ _ hall).1
    · have hex : ∃ ca ∈ allcas, ∃ spec, ca.ClaimParameters = .mydevice spec ∧
          spec.Count ≠ ((selectionOf allocated ca.Claim.UID).Mydevices.length : Int) := by
        by_contra hno
        apply hall
        intro ca hca
        obtain ⟨spec, hs⟩ := hsup ca hca
        refine ⟨spec, hs, ?_⟩
        by_contra hne
        exact hno ⟨ca, hca, spec, hs, hne⟩
      exact (unsuitableLoop_mismatch allocated allcas allcas _ _ hsup hex).1
  have hmark : (∃ ca ∈ allcas, ∃ spec, ca.ClaimParameters = .mydevice spec ∧
      spec.Count ≠ ((selectionOf allocated ca.Claim.UID).Mydevices.length : Int)) →
      (unsuitableNode cs pending allcas node).cas = markUnsuitable allcas node := by
    intro hex
    have h := (unsuitableLoop_mismatch allocated allcas allcas
      (pending.CleanupNode (withRequestsMap mas)).1
      (pending.CleanupNode (withRequestsMap mas)).2 hsup hex).2
    rw [hname] at h
    rw [hrun, h]
  refine ⟨herr, allocated, hsel, ?_, ?_, hmark⟩
  · rintro ⟨ca, hca, spec, hs, hlt⟩
    have h := hmark ⟨ca, hca, spec, hs, by omega⟩
    rw [h]
    exact ⟨rfl, mem_markUnsuitable allcas node⟩
  · intro hall
    rw [hrun]
    apply (unsuitableLoop_complete allocated allcas allcas _ _ _).2
    intro ca hca
    obtain ⟨spec, hs⟩ := hsup ca hca
    exact ⟨spec, hs, hall ca hca spec hs⟩

theorem supported_samples : Supported [sampleCA "c1" 1, sampleCA "c2" 2] := by
  intro ca hca
  simp only [List.mem_cons, List.mem_singleton, List.not_mem_nil, or_false] at hca
  rcases hca with h | h <;> exact ⟨_, by rw [h]; rfl⟩

/-- Witness for C6: `oneDeviceRecord` has the single free device `e0`; for the
batch of `c1` (count 1) and `c2` (count 2) the selection of `c1` is `[e0]`, the
selection of `c2` is empty, hence short, and both claims get `n0` as unsuitable
node. -/
theorem all_or_nothing_filtering_witness :
    (unsuitableNode (singleNode oneDeviceRecord) NewPerNodeClaimRequests
        [sampleCA "c1" 1, sampleCA "c2" 2] "n0").cas
      = [{ sampleCA "c1" 1 with UnsuitableNodes := ["n0"] },
         { sampleCA "c2" 2 with UnsuitableNodes := ["n0"] }] := by
  obtain ⟨_, allocated, hsel, hshort, _, _⟩ :=
    all_or_nothing_filtering (singleNode oneDeviceRecord) NewPerNodeClaimRequests
      [sampleCA "c1" 1, sampleCA "c2" 2] "n0" oneDeviceRecord rfl rfl supported_samples
  have hval : selectPotentialDevices
      (NewPerNodeClaimRequests.CleanupNode (withRequestsMap oneDeviceRecord)).2
      [sampleCA "c1" 1, sampleCA "c2" 2]
      = some [("c1", { Spec := { Count := 1, Type_ := MydeviceType0 },
                       Mydevices := [{ UID := "e0" }] }),
              ("c2", { Spec := { Count := 2, Type_ := MydeviceType0 },
                       Mydevices := [] })] := by decide
  rw [hval, Option.some.injEq] at hsel
  subst hsel
  exact (hshort ⟨sampleCA "c2" 2, by simp, { Count := 2, Type_ := MydeviceType0 }, rfl,
    by decide⟩).1

/-! ## C7: allocation against a record that is not Ready -/

/-- Pending mode refuses a record that is not Ready: it returns the status error,
persists nothing and leaves the table unchanged. -/
theorem allocatePendingClaim_notReady (cs : Clientset) (pending : PerNodeClaimRequests)
    (claim : ResourceClaim) (spec : MydeviceClaimParametersSpec) (nodename : String)
    (mas : MydeviceAllocationState) (hget : masGet cs nodename = some mas)
    (hstatus : mas.Status ≠ MydeviceAllocationStateStatusReady) :
    (allocatePendingClaim cs pending claim (.mydevice spec) nodename).result
        = .error (.notReady mas.Status) ∧
    (allocatePendingClaim cs pending claim (.mydevice spec) nodename).persisted = none ∧
    (allocatePendingClaim cs pending claim (.mydevice spec) nodename).pending = pending := by
  simp [allocatePendingClaim, hget, hstatus]

/-- C7 fails on the code in immediate mode.  `notReadyRecord` has status NotReady;
`allocateImmediateClaim` over its node nevertheless returns a binding to `n1` and
persists the record with a request and an allocation of `d0` for `c1`. -/
theorem immediate_allocates_on_notReady :
    notReadyRecord.Status ≠ MydeviceAllocationStateStatusReady ∧
    (allocateImmediateClaim (singleNode notReadyRecord) NewPerNodeClaimRequests
        (sampleClaim "c1" .Immediate) (sampleParams 1)).result
      = .ok (buildAllocationResult "n1" true) ∧
    (allocateImmediateClaim (singleNode notReadyRecord) NewPerNodeClaimRequests
        (sampleClaim "c1" .Immediate) (sampleParams 1)).persisted
      = some
          { Name := "n1",
            Spec :=
              { AllocatableMydevices := sampleDevices ["d0"],
                ResourceClaimAllocations :=
                  [("c1", [{ CDIDevice := "d0", Type_ := MydeviceType0, UID := "d0" }])],
                ResourceClaimRequests :=
                  some [("c1", { Spec := { Count := 1, Type_ := MydeviceType0 },
                                 Mydevices := [{ UID := "d0" }] })] },
            Status := MydeviceAllocationStateStatusNotReady } :=
  ⟨by decide, rfl, by decide⟩

/-! ## C8: re-invocation of pending-mode Allocate -/

/-- With a requests map that is not nil and an allocation for the claim, pending
mode on a Ready record returns success bound to the node, persists nothing and
leaves the table unchanged. -/
theorem allocatePendingClaim_alreadyAllocated (cs : Clientset)
    (pending : PerNodeClaimRequests) (claim : ResourceClaim)
    (spec : MydeviceClaimParametersSpec) (nodename : String)
    (mas : MydeviceAllocationState) (hget : masGet cs nodename = some mas)
    (hready : mas.Status = MydeviceAllocationStateStatusReady)
    (halready : alreadyAllocated mas claim.UID = true) :
    (allocatePendingClaim cs pending claim (.mydevice spec) nodename).result
        = .ok (buildAllocationResult nodename true) ∧
    (allocatePendingClaim cs pending claim (.mydevice spec) nodename).persisted = none ∧
    (allocatePendingClaim cs pending claim (.mydevice spec) nodename).pending = pending := by
  simp [allocatePendingClaim, hget, hready, halready]

/-- C8 fails on the code when the requests map is nil.  In
`committedWithoutRequests` the claim `c1` has the committed device `d0`.  Without
a PendingRequest the call returns the error of a missing allocation request
instead of success; with a PendingRequest selecting `d1` it persists a record
whose allocation for `c1` is `d1` instead of `d0` and removes the PendingRequest. -/
theorem pending_reinvocation_with_nil_requests :
    mhas committedWithoutRequests.Spec.ResourceClaimAllocations "c1" = true ∧
    committedWithoutRequests.Spec.ResourceClaimRequests = none ∧
    (allocatePendingClaim (singleNode committedWithoutRequests) NewPerNodeClaimRequests
        (sampleClaim "c1" .WaitForFirstConsumer) (sampleParams 1) "n1").result
      = .error (.noAllocationRequests "c1" "n1") ∧
    (allocatePendingClaim (singleNode committedWithoutRequests)
        (samplePending "c1" "n1" ["d1"])
        (sampleClaim "c1" .WaitForFirstConsumer) (sampleParams 1) "n1").persisted.map
        (fun out => mlookup out.Spec.ResourceClaimAllocations "c1")
      = some (some [{ CDIDevice := "d1", Type_ := MydeviceType0, UID := "d1" }]) ∧
    (allocatePendingClaim (singleNode committedWithoutRequests)
        (samplePending "c1" "n1" ["d1"])
        (sampleClaim "c1" .WaitForFirstConsumer) (sampleParams 1) "n1").pending
      = NewPerNodeClaimRequests :=
  ⟨by decide, rfl, rfl, by decide, by decide⟩

/-! ## C9: Allocate twice -/

/-- Pending mode is idempotent: the record persisted by a pending-mode Allocate
makes a second pending-mode Allocate of the claim return success at once,
persisting nothing. -/
theorem allocatePendingClaim_twice (cs cs2 : Clientset) (pending pending2 : PerNodeClaimRequests)
    (claim : ResourceClaim) (spec : MydeviceClaimParametersSpec) (nodename : String)
    (out : MydeviceAllocationState)
    (hfirst : (allocatePendingClaim cs pending claim (.mydevice spec) nodename).persisted
      = some out)
    (hstore : cs2.Get nodename = some out) :
    (allocatePendingClaim cs2 pending2 claim (.mydevice spec) nodename).result
        = .ok (buildAllocationResult nodename true) ∧
    (allocatePendingClaim cs2 pending2 claim (.mydevice spec) nodename).persisted = none := by
  obtain ⟨mas, _, hready, _, _, hout, _, _⟩ :=
    allocatePendingClaim_persisted cs pending claim (.mydevice spec) nodename out hfirst
  have hget2 : masGet cs2 nodename = some { out with Name := nodename } := by
    simp [masGet, hstore]
  have hal : alreadyAllocated { out with Name := nodename } claim.UID = true := by
    rw [hout, commit_spec]
    simp [alreadyAllocated, mhas, mlookup_minsert_same]
  have hst : ({ out with Name := nodename } : MydeviceAllocationState).Status
      = MydeviceAllocationStateStatusReady := by
    rw [hout, commit_spec]
    exact hready
  exact ⟨(allocatePendingClaim_alreadyAllocated cs2 pending2 claim spec nodename _
      hget2 hst hal).1,
    (allocatePendingClaim_alreadyAllocated cs2 pending2 claim spec nodename _
      hget2 hst hal).2.1⟩

/-- C9 fails on the code in immediate mode.  On `fourDevicesRecord`, its devices
visited in the order `d0` to `d3`, the first immediate Allocate of `c1` (count 2)
persists `fourDevicesFirst`, committing `d3` twice.  Go fixes no iteration order
for a map, so a later `range` over the allocatable map of the persisted record may
visit `d1` last: `fourDevicesFirstReordered` is that record, the same bindings in
another order.  The second call, on the node holding it, does not find the claim
committed (immediate mode has no such test), succeeds again and persists a record
committing `d1` twice to `c1`: the committed device list differs from the one
after the first call. -/
theorem immediate_allocate_twice_differs :
    (allocateImmediateClaim (singleNode fourDevicesRecord) NewPerNodeClaimRequests
        (sampleClaim "c1" .Immediate) (sampleParams 2)).persisted = some fourDevicesFirst ∧
    mlookup fourDevicesFirst.Spec.ResourceClaimAllocations "c1"
      = some [{ CDIDevice := "d3", Type_ := MydeviceType0, UID := "d3" },
              { CDIDevice := "d3", Type_ := MydeviceType0, UID := "d3" }] ∧
    fourDevicesFirstReordered.Spec.AllocatableMydevices.Perm
      fourDevicesFirst.Spec.AllocatableMydevices ∧
    fourDevicesFirstReordered.Spec.ResourceClaimAllocations
      = fourDevicesFirst.Spec.ResourceClaimAllocations ∧
    fourDevicesFirstReordered.Spec.ResourceClaimRequests
      = fourDevicesFirst.Spec.ResourceClaimRequests ∧
    lastVisited fourDevicesFirstReordered = sampleDevice "d1" ∧
    (allocateImmediateClaim (singleNode fourDevicesFirstReordered) NewPerNodeClaimRequests
        (sampleClaim "c1" .Immediate) (sampleParams 2)).result
      = .ok (buildAllocationResult "n1" true) ∧
    (allocateImmediateClaim (singleNode fourDevicesFirstReordered) NewPerNodeClaimRequests
        (sampleClaim "c1" .Immediate) (sampleParams 2)).persisted.map
        (fun out => mlookup out.Spec.ResourceClaimAllocations "c1")
      = some (some [{ CDIDevice := "d1", Type_ := MydeviceType0, UID := "d1" },
                    { CDIDevice := "d1", Type_ := MydeviceType0, UID := "d1" }]) :=
  ⟨by decide, by decide, by decide, rfl, rfl, by decide, rfl, by decide⟩

/-! ## C10: Deallocate postcondition -/

theorem mlookup_requests_deallocated (mas : MydeviceAllocationState) (claimUID k : String) :
    mlookup (deallocated mas claimUID).Spec.requests k
      = if claimUID = k then none else mlookup mas.Spec.requests k := by
  unfold deallocated MydeviceAllocationStateSpec.requests
  cases hr : mas.Spec.ResourceClaimRequests with
  | none => simp [mlookup]
  | some m =>
    simp only [Option.map_some', Option.getD_some]
    by_cases hk : claimUID = k
    · subst hk
      simp [mlookup_mdelete_same]
    · simp [hk, mlookup_mdelete_ne _ _ _ hk]

/-- Deallocate of a claim without a request in the record of its node: success,
nothing persisted, the table unchanged. -/
theorem Deallocate_without_request (cs : Clientset) (pending : PerNodeClaimRequests)
    (claim : ResourceClaim) (node : String) (mas : MydeviceAllocationState)
    (hnode : getSelectedNode claim = some node) (hne : node ≠ "")
    (hget : masGet cs node = some mas)
    (hreq : mlookup mas.Spec.requests claim.UID = none) :
    (Deallocate cs pending claim).result = .ok () ∧
    (Deallocate cs pending claim).persisted = none ∧
    (Deallocate cs pending claim).pending = pending := by
  simp [Deallocate, hnode, hne, hget, hreq]

/-- C10 (as amended). Deallocate postcondition: for a claim bound to a node whose
loaded record has a request entry for the claim, whenever Deallocate returns
success it has persisted a record of that node with no entry for the claim in the
requests and none in the allocations, the PendingRequest table has no entry for the
claim, and the request, allocation and PendingRequest entries of every other claim
are as before. -/
theorem deallocate_postcondition (cs : Clientset) (pending : PerNodeClaimRequests)
    (claim : ResourceClaim) (node : String) (mas : MydeviceAllocationState)
    (devices : RequestedMydevices)
    (hnode : getSelectedNode claim = some node) (hne : node ≠ "")
    (hget : masGet cs node = some mas)
    (hreq : mlookup mas.Spec.requests claim.UID = some devices)
    (hok : (Deallocate cs pending claim).result = .ok ()) :
    ∃ out,
      (Deallocate cs pending claim).persisted = some out ∧ out.Name = node ∧
      mlookup out.Spec.requests claim.UID = none ∧
      mlookup out.Spec.ResourceClaimAllocations claim.UID = none ∧
      mlookup (Deallocate cs pending claim).pending.requests claim.UID = none ∧
      out.Spec.AllocatableMydevices = mas.Spec.AllocatableMydevices ∧
      ∀ other, other ≠ claim.UID →
        mlookup out.Spec.requests other = mlookup mas.Spec.requests other ∧
        mlookup out.Spec.ResourceClaimAllocations other
          = mlookup mas.Spec.ResourceClaimAllocations other ∧
        mlookup (Deallocate cs pending claim).pending.requests other
          = mlookup pending.requests other := by
  by_cases ht : devices.Spec.Type_ = MydeviceType0
  · cases hu : cs.Update (deallocated mas claim.UID) with
    | false => simp [Deallocate, hnode, hne, hget, hreq, ht, hu] at hok
    | true =>
      refine ⟨deallocated mas claim.UID, ?_, ?_, ?_, ?_, ?_, ?_, ?_⟩
      · simp [Deallocate, hnode, hne, hget, hreq, ht, hu]
      · exact masGet_name cs node mas hget
      · rw [mlookup_requests_deallocated]
        simp
      · exact mlookup_mdelete_same _ _
      · simp [Deallocate, hnode, hne, hget, hreq, ht, hu, PerNodeClaimRequests.Remove,
          mlookup_mdelete_same]
      · rfl
      · intro other hother
        have hother2 : claim.UID ≠ other := fun h => hother h.symm
        refine ⟨?_, ?_, ?_⟩
        · rw [mlookup_requests_deallocated]
          simp [hother2]
        · exact mlookup_mdelete_ne _ _ _ hother2
        · simp [Deallocate, hnode, hne, hget, hreq, ht, hu, PerNodeClaimRequests.Remove,
            mlookup_mdelete_ne _ _ _ hother2]
  · simp [Deallocate, hnode, hne, hget, hreq, ht] at hok

/-- Witness for C10 (as amended): Deallocate of `c0`, bound to `n1`, on
`sampleRecord`. -/
theorem deallocate_postcondition_witness :
    ∃ out,
      (Deallocate (singleNode sampleRecord) (samplePending "c0" "n1" ["d0"])
        (boundClaim "c0" "n1")).persisted = some out ∧ out.Name = "n1" ∧
      mlookup out.Spec.requests "c0" = none ∧
      mlookup out.Spec.ResourceClaimAllocations "c0" = none ∧
      mlookup (Deallocate (singleNode sampleRecord) (samplePending "c0" "n1" ["d0"])
        (boundClaim "c0" "n1")).pending.requests "c0" = none ∧
      out.Spec.AllocatableMydevices = sampleRecord.Spec.AllocatableMydevices ∧
      ∀ other, other ≠ "c0" →
        mlookup out.Spec.requests other = mlookup sampleRecord.Spec.requests other ∧
        mlookup out.Spec.ResourceClaimAllocations other
          = mlookup sampleRecord.Spec.ResourceClaimAllocations other ∧
        mlookup (Deallocate (singleNode sampleRecord) (samplePending "c0" "n1" ["d0"])
          (boundClaim "c0" "n1")).pending.requests other
          = mlookup (samplePending "c0" "n1" ["d0"]).requests other :=
  deallocate_postcondition (singleNode sampleRecord) (samplePending "c0" "n1" ["d0"])
    (boundClaim "c0" "n1") "n1" sampleRecord
    { Spec := { Count := 1, Type_ := MydeviceType0 }, Mydevices := [{ UID := "d0" }] }
    rfl (by decide) rfl (by decide) rfl

/-- Counterexample to C10 as stated: in `committedWithoutRequests` the claim `c1`
is committed but has no request entry.  Deallocate of `c1`, bound to `n1`, returns
success without persisting anything, so the record of `n1` still has the
allocation of `c1`, and the PendingRequest of `c1` is still in the table. -/
theorem deallocate_success_leaves_allocation :
    getSelectedNode (boundClaim "c1" "n1") = some "n1" ∧
    (Deallocate (singleNode committedWithoutRequests) (samplePending "c1" "n1" ["d1"])
        (boundClaim "c1" "n1")).result = .ok () ∧
    (Deallocate (singleNode committedWithoutRequests) (samplePending "c1" "n1" ["d1"])
        (boundClaim "c1" "n1")).persisted = none ∧
    mhas committedWithoutRequests.Spec.ResourceClaimAllocations "c1" = true ∧
    (Deallocate (singleNode committedWithoutRequests) (samplePending "c1" "n1" ["d1"])
        (boundClaim "c1" "n1")).pending.Exists "c1" "n1" = true :=
  ⟨rfl, rfl, rfl, by decide, by decide⟩

/-! ## C11: Deallocate is idempotent -/

/-- Deallocate of a claim with a request in the record of its node: when it
returns success it has persisted the record with the claim deleted. -/
theorem Deallocate_with_request (cs : Clientset) (pending : PerNodeClaimRequests)
    (claim : ResourceClaim) (node : String) (mas : MydeviceAllocationState)
    (devices : RequestedMydevices)
    (hnode : getSelectedNode claim = some node) (hne : node ≠ "")
    (hget : masGet cs node = some mas)
    (hreq : mlookup mas.Spec.requests claim.UID = some devices)
    (hok : (Deallocate cs pending claim).result = .ok ()) :
    (Deallocate cs pending claim).persisted = some (deallocated mas claim.UID) ∧
    (Deallocate cs pending claim).pending = pending.Remove claim.UID := by
  by_cases ht : devices.Spec.Type_ = MydeviceType0
  · cases hu : cs.Update (deallocated mas claim.UID) with
    | false => simp [Deallocate, hnode, hne, hget, hreq, ht, hu] at hok
    | true => simp [Deallocate, hnode, hne, hget, hreq, ht, hu]
  · simp [Deallocate, hnode, hne, hget, hreq, ht] at hok

/-- C11. Deallocate is idempotent.  After a successful Deallocate of a claim, a
second Deallocate of the same claim, run on a store that holds for the bound node
the record left by the first call (the record it persisted, or the loaded record
when it persisted nothing) and on the PendingRequest table left by the first call,
returns success, issues no update and leaves the table unchanged. -/
theorem deallocate_idempotent (cs cs2 : Clientset) (pending : PerNodeClaimRequests)
    (claim : ResourceClaim)
    (hok : (Deallocate cs pending claim).result = .ok ())
    (hstore : ∀ node mas, getSelectedNode claim = some node → masGet cs node = some mas →
      masGet cs2 node = some ((Deallocate cs pending claim).persisted.getD mas)) :
    (Deallocate cs2 (Deallocate cs pending claim).pending claim).result = .ok () ∧
    (Deallocate cs2 (Deallocate cs pending claim).pending claim).persisted = none ∧
    (Deallocate cs2 (Deallocate cs pending claim).pending claim).pending
      = (Deallocate cs pending claim).pending := by
  cases hn : getSelectedNode claim with
  | none => simp [Deallocate, hn] at hok
  | some node =>
    by_cases hne : node = ""
    · simp [Deallocate, hn, hne]
    · cases hg : masGet cs node with
      | none => simp [Deallocate, hn, hne, hg] at hok
      | some mas =>
        have hs := hstore node mas hn hg
        cases hr : mlookup mas.Spec.requests claim.UID with
        | none =>
          have h1 := Deallocate_without_request cs pending claim node mas hn hne hg hr
          rw [h1.2.1, Option.getD_none] at hs
          exact Deallocate_without_request cs2 _ claim node mas hn hne hs hr
        | some devices =>
          have hper := (Deallocate_with_request cs pending claim node mas devices
            hn hne hg hr hok).1
          rw [hper, Option.getD_some] at hs
          have hreq : mlookup (deallocated mas claim.UID).Spec.requests claim.UID = none := by
            rw [mlookup_requests_deallocated]
            simp
          exact Deallocate_without_request cs2 _ claim node _ hn hne hs hreq

/-- Witness for C11: Deallocate of `c0`, bound to `n1`, on `sampleRecord`, then
again on the record the first call persisted. -/
theorem deallocate_idempotent_witness :
    (Deallocate (singleNode sampleRecord) (samplePending "c0" "n1" ["d0"])
        (boundClaim "c0" "n1")).result = .ok () ∧
    (Deallocate (singleNode (deallocated sampleRecord "c0")) NewPerNodeClaimRequests
        (boundClaim "c0" "n1")).result = .ok () ∧
    (Deallocate (singleNode (deallocated sampleRecord "c0")) NewPerNodeClaimRequests
        (boundClaim "c0" "n1")).persisted = none ∧
    (Deallocate (singleNode (deallocated sampleRecord "c0")) NewPerNodeClaimRequests
        (boundClaim "c0" "n1")).pending = NewPerNodeClaimRequests :=
  ⟨rfl,
   deallocate_idempotent (singleNode sampleRecord) (singleNode (deallocated sampleRecord "c0"))
    (samplePending "c0" "n1" ["d0"]) (boundClaim "c0" "n1") rfl
    (by
      intro node mas hnode hget
      have hn : node = "n1" := by
        have : getSelectedNode (boundClaim "c0" "n1") = some "n1" := rfl
        rw [this] at hnode
        exact (Option.some.inj hnode).symm
      subst hn
      rfl)⟩

/-! ## C12: what immediate allocation commits -/

/-- In a map of two or more devices, each stored under its UID, some device has
not the UID of the device visited last. -/
theorem exists_uid_ne_last (l : GoMap AllocatableMydevice)
    (hk : ∀ e ∈ l, e.1 = e.2.UID) (hnd : (mkeys l).Nodup) (htwo : 2 ≤ l.length) :
    ∃ e ∈ l, ∀ x, l.getLast? = some x → e.2.UID ≠ x.2.UID := by
  match l, hk, hnd, htwo with
  | [], _, _, h => simp at h
  | [_], _, _, h => simp at h
  | a :: b :: r, hk, hnd, _ =>
    refine ⟨a, List.mem_cons_self _ _, ?_⟩
    intro x hx heq
    rw [List.getLast?_cons_cons] at hx
    have hmem : x ∈ b :: r := List.mem_of_mem_getLast? hx
    simp only [mkeys, List.map_cons, List.nodup_cons] at hnd
    apply hnd.1
    have h1 := hk a (List.mem_cons_self _ _)
    have h2 := hk x (List.mem_cons_of_mem _ hmem)
    rw [h1, heq, ← h2]
    exact List.mem_map.mpr ⟨x, hmem, rfl⟩

/-- A record of two or more free devices of the supported type, each stored under
its UID: the device visited last is of the supported type, the available set has
a key other than its UID, and the descriptor stored under its UID is its own. -/
theorem lastVisited_of_free_devices (mas : MydeviceAllocationState)
    (hkeys : KeysAreUIDs mas) (hmap : (mkeys mas.Spec.AllocatableMydevices).Nodup)
    (hfree : ∀ e ∈ mas.Spec.AllocatableMydevices,
      e.2.Type_ = MydeviceType0 ∧ DeviceIsAllocated mas e.2.UID = false)
    (htwo : 2 ≤ mas.Spec.AllocatableMydevices.length) :
    (lastVisited mas).Type_ = MydeviceType0 ∧
    (∃ u, mhas (Available mas) u = true ∧ u ≠ (lastVisited mas).UID) ∧
    mhas (Available mas) (lastVisited mas).UID = true ∧
    mlookup mas.Spec.AllocatableMydevices (lastVisited mas).UID = some (lastVisited mas) := by
  have hne : mas.Spec.AllocatableMydevices ≠ [] := by
    intro h
    rw [h] at htwo
    simp at htwo
  obtain ⟨k, hmem⟩ := lastVisited_mem mas hne
  have hk := hkeys _ hmem
  simp only at hk
  obtain ⟨e, he, hlast⟩ := exists_uid_ne_last _ hkeys hmap htwo
  have hx : ∃ x, mas.Spec.AllocatableMydevices.getLast? = some x ∧ x.2 = lastVisited mas := by
    unfold lastVisited
    cases hl : mas.Spec.AllocatableMydevices.getLast? with
    | none =>
      rw [List.getLast?_eq_none_iff] at hl
      exact absurd hl hne
    | some x => exact ⟨x, rfl, rfl⟩
  obtain ⟨x, hx1, hx2⟩ := hx
  refine ⟨(hfree _ hmem).1, ⟨e.2.UID, ?_, ?_⟩, ?_, ?_⟩
  · exact (mhas_available_iff mas _).mpr ⟨(hfree e he).2, e, he, rfl, (hfree e he).1⟩
  · rw [← hx2]
    exact hlast x hx1
  · exact (mhas_available_iff mas _).mpr
      ⟨(hfree _ hmem).2, (k, lastVisited mas), hmem, rfl, (hfree _ hmem).1⟩
  · rw [hk] at hmem
    exact mlookup_of_mem_nodup _ _ _ hmap hmem

/-- C12 fails on the code.  Let the record have no request and no allocation for
the claim, every allocatable key equal to the UID of its device (and no key
twice, as in a map), `n ≥ 2` allocatable devices, all of the supported type and
none allocated, and `0 < Count ≤ n`.  Then immediate-mode Allocate over the store
holding this single record returns a binding to its node, and the allocation it
commits for the claim is the descriptor of one device, the device visited last
by the loop of `Available`, `Count` times: for `Count ≥ 2` the committed UIDs are
not pairwise distinct, and the available set of the persisted record is the
previous one minus that single device, not minus `Count` devices. -/
theorem immediate_commits_one_device (mas : MydeviceAllocationState)
    (pending : PerNodeClaimRequests) (claim : ResourceClaim)
    (spec : MydeviceClaimParametersSpec)
    (hkeys : KeysAreUIDs mas) (hmap : (mkeys mas.Spec.AllocatableMydevices).Nodup)
    (hnoreq : mlookup mas.Spec.requests claim.UID = none)
    (hnoalloc : mlookup mas.Spec.ResourceClaimAllocations claim.UID = none)
    (hfree : ∀ e ∈ mas.Spec.AllocatableMydevices,
      e.2.Type_ = MydeviceType0 ∧ DeviceIsAllocated mas e.2.UID = false)
    (htwo : 2 ≤ mas.Spec.AllocatableMydevices.length)
    (hpos : 0 < spec.Count)
    (hle : spec.Count ≤ (mas.Spec.AllocatableMydevices.length : Int)) :
    spec.Count ≤ (mas.Spec.AllocatableMydevices.length : Int) ∧
    (allocateImmediateClaim (singleNode mas) pending claim (.mydevice spec)).result
      = .ok (buildAllocationResult mas.Name true) ∧
    ∃ out,
      (allocateImmediateClaim (singleNode mas) pending claim (.mydevice spec)).persisted
        = some out ∧
      mlookup out.Spec.ResourceClaimAllocations claim.UID
        = some (List.replicate spec.Count.toNat
            { CDIDevice := (lastVisited mas).CDIDevice, Type_ := (lastVisited mas).Type_,
              UID := (lastVisited mas).UID }) ∧
      (2 ≤ spec.Count → ∀ committed,
        mlookup out.Spec.ResourceClaimAllocations claim.UID = some committed →
        ¬ (committed.map (fun d => d.UID)).Nodup) ∧
      (∀ u, mhas (Available out) u = true ↔
        (mhas (Available mas) u = true ∧ u ≠ (lastVisited mas).UID)) := by
  obtain ⟨hv, hother, _, hlook⟩ := lastVisited_of_free_devices mas hkeys hmap hfree htwo
  have hsel := select_single_shared mas claim spec [] hnoreq hv hother
  have hselOf : selectionOf [(claim.UID,
      ({ Spec := spec,
         Mydevices := List.replicate spec.Count.toNat
           ({ UID := (lastVisited mas).UID } : RequestedMydevice) } : RequestedMydevices))]
      claim.UID
      = { Spec := spec,
          Mydevices := List.replicate spec.Count.toNat
            ({ UID := (lastVisited mas).UID } : RequestedMydevice) } := by
    simp [selectionOf, mlookup]
  have hfit := allocateImmediateLoop_fit (singleNode mas) pending claim spec mas.Name []
    mas _ (singleNode_get mas) hsel
    (by rw [hselOf]; simp only [List.length_replicate]; omega) rfl
  rw [hselOf] at hfit
  have hrun : allocateImmediateClaim (singleNode mas) pending claim (.mydevice spec)
      = allocateImmediateLoop (singleNode mas) pending claim (.mydevice spec) [mas.Name] := rfl
  have hdesc : allocatedOf mas { UID := (lastVisited mas).UID }
      = { CDIDevice := (lastVisited mas).CDIDevice, Type_ := (lastVisited mas).Type_,
          UID := (lastVisited mas).UID } := by
    simp [allocatedOf, hlook]
  have hcommitted : (List.replicate spec.Count.toNat
      ({ UID := (lastVisited mas).UID } : RequestedMydevice)).map (allocatedOf mas)
      = List.replicate spec.Count.toNat
          { CDIDevice := (lastVisited mas).CDIDevice, Type_ := (lastVisited mas).Type_,
            UID := (lastVisited mas).UID } := by
    rw [List.map_replicate, hdesc]
  have hout := commit_spec mas claim.UID
    { Spec := spec,
      Mydevices := List.replicate spec.Count.toNat
        ({ UID := (lastVisited mas).UID } : RequestedMydevice) }
  rw [hcommitted] at hout
  have hlookOut : mlookup (MakeResourceClaimAllocation (mas.setRequest claim.UID
      { Spec := spec,
        Mydevices := List.replicate spec.Count.toNat
          ({ UID := (lastVisited mas).UID } : RequestedMydevice) })
      claim.UID).Spec.ResourceClaimAllocations claim.UID
      = some (List.replicate spec.Count.toNat
          { CDIDevice := (lastVisited mas).CDIDevice, Type_ := (lastVisited mas).Type_,
            UID := (lastVisited mas).UID }) := by
    rw [hout]
    exact mlookup_minsert_same _ _ _
  rw [hrun]
  refine ⟨hle, hfit.1, _, hfit.2.1, hlookOut, ?_, ?_⟩
  · intro h2 committed hc
    rw [hlookOut, Option.some.injEq] at hc
    rw [← hc, List.map_replicate]
    obtain ⟨m, hm⟩ : ∃ m, spec.Count.toNat = m + 2 := ⟨spec.Count.toNat - 2, by omega⟩
    rw [hm]
    simp [List.replicate_succ]
  · intro u
    have hallocs := minsert_absent mas.Spec.ResourceClaimAllocations claim.UID
      (List.replicate spec.Count.toNat
        ({ CDIDevice := (lastVisited mas).CDIDevice, Type_ := (lastVisited mas).Type_,
           UID := (lastVisited mas).UID } : AllocatedMydevice))
      (not_mem_mkeys_of_lookup_none _ _ hnoalloc)
    have hdia := deviceIsAllocated_append mas claim.UID
      (List.replicate spec.Count.toNat
        ({ CDIDevice := (lastVisited mas).CDIDevice, Type_ := (lastVisited mas).Type_,
           UID := (lastVisited mas).UID } : AllocatedMydevice)) u
      (MakeResourceClaimAllocation (mas.setRequest claim.UID
        { Spec := spec,
          Mydevices := List.replicate spec.Count.toNat
            ({ UID := (lastVisited mas).UID } : RequestedMydevice) }) claim.UID)
      (by rw [hout]; exact hallocs)
    have hsame : (MakeResourceClaimAllocation (mas.setRequest claim.UID
        { Spec := spec,
          Mydevices := List.replicate spec.Count.toNat
            ({ UID := (lastVisited mas).UID } : RequestedMydevice) })
        claim.UID).Spec.AllocatableMydevices
        = mas.Spec.AllocatableMydevices := by
      rw [hout]
    have hany : (List.replicate spec.Count.toNat
        ({ CDIDevice := (lastVisited mas).CDIDevice, Type_ := (lastVisited mas).Type_,
           UID := (lastVisited mas).UID } : AllocatedMydevice)).any (fun d => d.UID = u) = false
        ↔ u ≠ (lastVisited mas).UID := by
      obtain ⟨m, hm⟩ : ∃ m, spec.Count.toNat = m + 1 := ⟨spec.Count.toNat - 1, by omega⟩
      rw [hm]
      simp only [List.any_eq_false, List.mem_replicate, decide_eq_true_eq]
      constructor
      · intro h heq
        exact h _ ⟨by omega, rfl⟩ heq.symm
      · rintro h x ⟨_, rfl⟩ heq
        exact h heq.symm
    rw [mhas_available_iff, mhas_available_iff, hdia, hsame, Bool.or_eq_false_iff, hany]
    tauto

/-- Witness for C12: five free devices, visited in the order `d0` to `d4`, and a
claim for three of them.  The allocation committed is `d4` three times, and the
available set afterwards still holds `d0` to `d3`. -/
theorem immediate_commits_one_device_witness :
    (allocateImmediateClaim (singleNode fiveDevicesRecord) NewPerNodeClaimRequests
      (sampleClaim "c1" .Immediate)
      (.mydevice { Count := 3, Type_ := MydeviceType0 })).persisted.map
        (fun out => (mlookup out.Spec.ResourceClaimAllocations "c1", mkeys (Available out)))
      = some (some [{ CDIDevice := "d4", Type_ := MydeviceType0, UID := "d4" },
                    { CDIDevice := "d4", Type_ := MydeviceType0, UID := "d4" },
                    { CDIDevice := "d4", Type_ := MydeviceType0, UID := "d4" }],
              ["d0", "d1", "d2", "d3"]) ∧
    (({ Count := 3, Type_ := MydeviceType0 } : MydeviceClaimParametersSpec).Count
      ≤ (fiveDevicesRecord.Spec.AllocatableMydevices.length : Int) ∧
    (allocateImmediateClaim (singleNode fiveDevicesRecord) NewPerNodeClaimRequests
      (sampleClaim "c1" .Immediate) (.mydevice { Count := 3, Type_ := MydeviceType0 })).result
      = .ok (buildAllocationResult fiveDevicesRecord.Name true) ∧
    ∃ out,
      (allocateImmediateClaim (singleNode fiveDevicesRecord) NewPerNodeClaimRequests
        (sampleClaim "c1" .Immediate)
        (.mydevice { Count := 3, Type_ := MydeviceType0 })).persisted = some out ∧
      mlookup out.Spec.ResourceClaimAllocations (sampleClaim "c1" .Immediate).UID
        = some (List.replicate
            ({ Count := 3, Type_ := MydeviceType0 } : MydeviceClaimParametersSpec).Count.toNat
            { CDIDevice := (lastVisited fiveDevicesRecord).CDIDevice,
              Type_ := (lastVisited fiveDevicesRecord).Type_,
              UID := (lastVisited fiveDevicesRecord).UID }) ∧
      (2 ≤ ({ Count := 3, Type_ := MydeviceType0 } : MydeviceClaimParametersSpec).Count →
        ∀ committed,
        mlookup out.Spec.ResourceClaimAllocations (sampleClaim "c1" .Immediate).UID
          = some committed →
        ¬ (committed.map (fun d => d.UID)).Nodup) ∧
      (∀ u, mhas (Available out) u = true ↔
        (mhas (Available fiveDevicesRecord) u = true ∧
          u ≠ (lastVisited fiveDevicesRecord).UID))) :=
  ⟨by decide,
    immediate_commits_one_device fiveDevicesRecord NewPerNodeClaimRequests
      (sampleClaim "c1" .Immediate) { Count := 3, Type_ := MydeviceType0 }
      (by decide) (by decide) (by decide) (by decide) (by decide) (by decide) (by decide)
      (by decide)⟩

/-! ## C13: immediate-mode node choice -/

theorem nodeFits_false (cs : Clientset) (claim : ResourceClaim)
    (spec : MydeviceClaimParametersSpec) (nodename : String)
    (h : nodeFits cs claim spec nodename = false) :
    masGet cs nodename = none ∨
      ∃ mas allocated, masGet cs nodename = some mas ∧
        selectPotentialDevices mas
          [{ Claim := claim, ClaimParameters := .mydevice spec, UnsuitableNodes := [] }]
            = some allocated ∧
        spec.Count ≠ ((selectionOf allocated claim.UID).Mydevices.length : Int) := by
  unfold nodeFits at h
  cases hg : masGet cs nodename with
  | none => exact Or.inl rfl
  | some mas =>
    right
    obtain ⟨allocated, hsel⟩ := select_supported mas
      [{ Claim := claim, ClaimParameters := .mydevice spec, UnsuitableNodes := [] }]
      (by intro ca hca; simp only [List.mem_singleton] at hca; exact ⟨spec, by rw [hca]⟩)
    simp only [hg, hsel, decide_eq_false_iff_not] at h
    exact ⟨mas, allocated, rfl, hsel, h⟩

theorem nodeFits_true (cs : Clientset) (claim : ResourceClaim)
    (spec : MydeviceClaimParametersSpec) (nodename : String)
    (h : nodeFits cs claim spec nodename = true) :
    ∃ mas allocated, masGet cs nodename = some mas ∧
      selectPotentialDevices mas
        [{ Claim := claim, ClaimParameters := .mydevice spec, UnsuitableNodes := [] }]
          = some allocated ∧
      spec.Count = ((selectionOf allocated claim.UID).Mydevices.length : Int) := by
  unfold nodeFits at h
  cases hg : masGet cs nodename with
  | none => simp [hg] at h
  | some mas =>
    cases hsel : selectPotentialDevices mas
      [{ Claim := claim, ClaimParameters := .mydevice spec, UnsuitableNodes := [] }] with
    | none => simp [hg, hsel] at h
    | some allocated =>
      simp only [hg, hsel, decide_eq_true_eq] at h
      exact ⟨mas, allocated, rfl, hsel, h⟩

/-- The loop of `allocateImmediateClaim` with every update accepted: it binds the
claim to the first listed node that fits and persists the record of that node, or
fails with the no-suitable-node error when no listed node fits. -/
theorem allocateImmediateLoop_choice (cs : Clientset) (pending : PerNodeClaimRequests)
    (claim : ResourceClaim) (spec : MydeviceClaimParametersSpec)
    (hupd : ∀ r, cs.Update r = true) :
    ∀ masnames : List String,
      (∀ n, masnames.find? (nodeFits cs claim spec) = some n →
        (allocateImmediateLoop cs pending claim (.mydevice spec) masnames).result
          = .ok (buildAllocationResult n true) ∧
        ∃ out, (allocateImmediateLoop cs pending claim (.mydevice spec) masnames).persisted
          = some out ∧ out.Name = n) ∧
      (masnames.find? (nodeFits cs claim spec) = none →
        (allocateImmediateLoop cs pending claim (.mydevice spec) masnames).result
          = .error .noSuitableNode ∧
        (allocateImmediateLoop cs pending claim (.mydevice spec) masnames).persisted = none) := by
  intro masnames
  induction masnames with
  | nil =>
    constructor
    · intro n h
      simp at h
    · intro _
      exact ⟨rfl, rfl⟩
  | cons nodename rest ih =>
    cases hf : nodeFits cs claim spec nodename with
    | true =>
      obtain ⟨mas, allocated, hget, hsel, hc⟩ := nodeFits_true cs claim spec nodename hf
      have hfit := allocateImmediateLoop_fit cs pending claim spec nodename rest mas allocated
        hget hsel hc (hupd _)
      constructor
      · intro n h
        simp only [List.find?_cons, hf, Option.some.injEq] at h
        subst h
        refine ⟨hfit.1, _, hfit.2.1, ?_⟩
        rw [commit_spec]
        exact masGet_name cs nodename mas hget
      · intro h
        simp [List.find?_cons, hf] at h
    | false =>
      rw [allocateImmediateLoop_skip cs pending claim spec nodename rest
        (nodeFits_false cs claim spec nodename hf)]
      simp only [List.find?_cons, hf]
      exact ih

/-- C13. Immediate-mode node choice.  For a store that lists the nodes `masnames`
and accepts every update, and a claim with Mydevice parameters:
`allocateImmediateClaim` returns a binding to the first listed node whose
selection for the claim has length `Count`, the only record it persists is the
record of that node, and it returns the no-suitable-node error exactly when no
listed node yields a selection of length `Count`. -/
theorem immediate_node_choice (cs : Clientset) (pending : PerNodeClaimRequests)
    (claim : ResourceClaim) (spec : MydeviceClaimParametersSpec) (masnames : List String)
    (hlist : cs.ListNames = some masnames) (hupd : ∀ r, cs.Update r = true) :
    (∀ n, masnames.find? (nodeFits cs claim spec) = some n →
      (allocateImmediateClaim cs pending claim (.mydevice spec)).result
        = .ok (buildAllocationResult n true)) ∧
    (∀ out, (allocateImmediateClaim cs pending claim (.mydevice spec)).persisted = some out →
      masnames.find? (nodeFits cs claim spec) = some out.Name) ∧
    ((allocateImmediateClaim cs pending claim (.mydevice spec)).result = .error .noSuitableNode ↔
      ∀ n ∈ masnames, nodeFits cs claim spec n = false) := by
  have hrun : allocateImmediateClaim cs pending claim (.mydevice spec)
      = allocateImmediateLoop cs pending claim (.mydevice spec) masnames := by
    simp [allocateImmediateClaim, hlist]
  have hloop := allocateImmediateLoop_choice cs pending claim spec hupd masnames
  rw [hrun]
  refine ⟨fun n h => (hloop.1 n h).1, ?_, ?_⟩
  · intro out hout
    cases hf : masnames.find? (nodeFits cs claim spec) with
    | none =>
      rw [(hloop.2 hf).2] at hout
      simp at hout
    | some n =>
      obtain ⟨_, out2, hper, hname⟩ := hloop.1 n hf
      rw [hper, Option.some.injEq] at hout
      rw [← hout, hname]
  · constructor
    · intro herr n hn
      cases hf : masnames.find? (nodeFits cs claim spec) with
      | none => exact List.find?_eq_none.mp hf n hn |> fun h => by simpa using h
      | some m =>
        rw [(hloop.1 m hf).1] at herr
        simp at herr
    · intro hall
      have hf : masnames.find? (nodeFits cs claim spec) = none := by
        rw [List.find?_eq_none]
        intro n hn
        simp [hall n hn]
      exact (hloop.2 hf).1

/-- Witness for C13: the store lists `n1`, whose single device is committed,
before `n0`, whose single device is free; a claim for one device is bound to `n0`,
a claim for two devices to no node. -/
theorem immediate_node_choice_witness :
    (allocateImmediateClaim (nodeList [busyDeviceRecord, oneDeviceRecord])
        NewPerNodeClaimRequests
        (sampleClaim "c1" .Immediate) (.mydevice { Count := 1, Type_ := MydeviceType0 })).result
      = .ok (buildAllocationResult "n0" true) ∧
    ((allocateImmediateClaim (nodeList [busyDeviceRecord, oneDeviceRecord])
        NewPerNodeClaimRequests
        (sampleClaim "c1" .Immediate) (.mydevice { Count := 2, Type_ := MydeviceType0 })).result
      = .error .noSuitableNode) :=
  ⟨(immediate_node_choice (nodeList [busyDeviceRecord, oneDeviceRecord])
      NewPerNodeClaimRequests
      (sampleClaim "c1" .Immediate) { Count := 1, Type_ := MydeviceType0 } ["n1", "n0"]
      rfl (fun _ => rfl)).1 "n0" (by decide),
   (immediate_node_choice (nodeList [busyDeviceRecord, oneDeviceRecord])
      NewPerNodeClaimRequests
      (sampleClaim "c1" .Immediate) { Count := 2, Type_ := MydeviceType0 } ["n1", "n0"]
      rfl (fun _ => rfl)).2.2.mpr (by decide)⟩

/-! ## C15: absent or NotReady nodes are unsuitable for the whole batch -/

/-- C15. Absent or NotReady nodes are unsuitable for the whole batch.  When the
record of the candidate node cannot be loaded, or is loaded with a status other
than Ready, `unsuitableNode` returns no error, appends the node to the
`UnsuitableNodes` list of every claim allocation of the batch (so the node is in
every list) and leaves the PendingRequest table as it was. -/
theorem unsuitableNode_absent_or_notReady (cs : Clientset) (pending : PerNodeClaimRequests)
    (allcas : List ClaimAllocation) (potentialNode : String)
    (h : masGet cs potentialNode = none ∨
      ∃ mas, masGet cs potentialNode = some mas ∧
        mas.Status ≠ MydeviceAllocationStateStatusReady) :
    (unsuitableNode cs pending allcas potentialNode).err = none ∧
    (unsuitableNode cs pending allcas potentialNode).cas
      = markUnsuitable allcas potentialNode ∧
    (∀ ca ∈ (unsuitableNode cs pending allcas potentialNode).cas,
      potentialNode ∈ ca.UnsuitableNodes) ∧
    (unsuitableNode cs pending allcas potentialNode).pending = pending := by
  have hcas : (unsuitableNode cs pending allcas potentialNode).err = none ∧
      (unsuitableNode cs pending allcas potentialNode).cas
        = markUnsuitable allcas potentialNode ∧
      (unsuitableNode cs pending allcas potentialNode).pending = pending := by
    rcases h with h | ⟨mas, hget, hst⟩
    · simp [unsuitableNode, h]
    · simp [unsuitableNode, hget, hst]
  refine ⟨hcas.1, hcas.2.1, ?_, hcas.2.2⟩
  rw [hcas.2.1]
  exact mem_markUnsuitable allcas potentialNode

/-- Witness for C15: the batch of `c1` and `c2` on a store without records, and on
the store holding `notReadyRecord`. -/
theorem unsuitableNode_absent_or_notReady_witness :
    (unsuitableNode emptyStore (samplePending "c1" "n1" ["d0"])
        [sampleCA "c1" 1, sampleCA "c2" 2] "n1").cas
      = [{ sampleCA "c1" 1 with UnsuitableNodes := ["n1"] },
         { sampleCA "c2" 2 with UnsuitableNodes := ["n1"] }] ∧
    (unsuitableNode (singleNode notReadyRecord) (samplePending "c1" "n1" ["d0"])
        [sampleCA "c1" 1, sampleCA "c2" 2] "n1").pending = samplePending "c1" "n1" ["d0"] :=
  ⟨(unsuitableNode_absent_or_notReady emptyStore (samplePending "c1" "n1" ["d0"])
      [sampleCA "c1" 1, sampleCA "c2" 2] "n1" (Or.inl rfl)).2.1,
   (unsuitableNode_absent_or_notReady (singleNode notReadyRecord)
      (samplePending "c1" "n1" ["d0"]) [sampleCA "c1" 1, sampleCA "c2" 2] "n1"
      (Or.inr ⟨notReadyRecord, rfl, by decide⟩)).2.2.2⟩

/-! ## C16: deduplication of the unsuitable-node list -/

theorem uniqueLoop_eq (s : List String) :
    ∀ (set filtered : List String),
      uniqueLoop s set filtered
        = filtered ++ (firstOccurrences s).filter (fun y => y ∉ set) := by
  induction s with
  | nil => intro set filtered; simp [uniqueLoop, firstOccurrences]
  | cons x rest ih =>
    intro set filtered
    unfold uniqueLoop
    by_cases hx : x ∈ set
    · simp only [hx, if_true, ih, firstOccurrences, List.filter_cons, not_true_eq_false,
        decide_False, Bool.false_eq_true, if_false, List.filter_filter]
      congr 1
      apply List.filter_congr
      intro y _
      by_cases hy : y ∈ set
      · simp [hy]
      · have : y ≠ x := fun h => hy (h ▸ hx)
        simp [hy, this]
    · simp only [hx, if_false, ih, firstOccurrences, List.filter_cons, not_false_eq_true,
        decide_True, if_true, List.filter_filter, List.append_assoc, List.singleton_append]
      congr 2
      apply List.filter_congr
      intro y _
      by_cases hy : y = x
      · simp [hy]
      · simp [hy]

/-- The loop of `unique` computes the first occurrences. -/
theorem unique_eq_firstOccurrences (s : List String) : unique s = firstOccurrences s := by
  unfold unique
  rw [uniqueLoop_eq]
  simp

theorem mem_firstOccurrences (s : List String) (x : String) :
    x ∈ firstOccurrences s ↔ x ∈ s := by
  induction s with
  | nil => simp [firstOccurrences]
  | cons a rest ih =>
    simp only [firstOccurrences, List.mem_cons, List.mem_filter, ih, decide_eq_true_eq]
    by_cases h : x = a
    · simp [h]
    · simp [h]

theorem mem_unique (s : List String) (x : String) : x ∈ unique s ↔ x ∈ s := by
  rw [unique_eq_firstOccurrences]
  exact mem_firstOccurrences s x

theorem nodup_firstOccurrences (s : List String) : (firstOccurrences s).Nodup := by
  induction s with
  | nil => simp [firstOccurrences]
  | cons a rest ih =>
    simp only [firstOccurrences, List.nodup_cons, List.mem_filter, decide_eq_true_eq,
      ne_eq, not_true_eq_false, and_false, not_false_eq_true, true_and]
    exact ih.filter _

theorem nodup_unique (s : List String) : (unique s).Nodup := by
  rw [unique_eq_firstOccurrences]
  exact nodup_firstOccurrences s

theorem firstOccurrences_of_nodup (s : List String) (h : s.Nodup) :
    firstOccurrences s = s := by
  induction s with
  | nil => rfl
  | cons a rest ih =>
    rw [List.nodup_cons] at h
    simp only [firstOccurrences, ih h.2]
    congr 1
    rw [List.filter_eq_self]
    intro y hy
    have : y ≠ a := fun heq => h.1 (heq ▸ hy)
    simp [this]

/-- Filtering keeps the relative order of the elements it keeps. -/
theorem indexOf_filter_lt (p : String → Bool) (l : List String) (x y : String)
    (hx : x ∈ l) (hy : y ∈ l) (hpx : p x = true) (hpy : p y = true) :
    ((l.filter p).indexOf x < (l.filter p).indexOf y ↔ l.indexOf x < l.indexOf y) := by
  induction l with
  | nil => simp at hx
  | cons a rest ih =>
    by_cases hax : a = x
    · subst hax
      by_cases hay : a = y
      · subst hay
        simp
      · simp only [List.filter_cons, hpx, if_true, List.indexOf_cons_self,
          List.indexOf_cons_ne _ hay]
        omega
    · by_cases hay : a = y
      · subst hay
        simp only [List.filter_cons, hpy, if_true, List.indexOf_cons_self]
        omega
      · have hx2 : x ∈ rest := by
          rcases List.mem_cons.mp hx with h | h
          · exact absurd h.symm hax
          · exact h
        have hy2 : y ∈ rest := by
          rcases List.mem_cons.mp hy with h | h
          · exact absurd h.symm hay
          · exact h
        rw [List.indexOf_cons_ne _ hax, List.indexOf_cons_ne _ hay]
        by_cases hpa : p a = true
        · simp only [List.filter_cons, hpa, if_true, List.indexOf_cons_ne _ hax,
            List.indexOf_cons_ne _ hay]
          have := ih hx2 hy2
          omega
        · simp only [List.filter_cons, hpa, Bool.false_eq_true, if_false]
          have := ih hx2 hy2
          omega

/-- The first occurrences keep the order in which the strings first occur. -/
theorem indexOf_firstOccurrences_lt (s : List String) (x y : String)
    (hx : x ∈ s) (hy : y ∈ s) :
    ((firstOccurrences s).indexOf x < (firstOccurrences s).indexOf y ↔
      s.indexOf x < s.indexOf y) := by
  induction s with
  | nil => simp at hx
  | cons a rest ih =>
    by_cases hax : a = x
    · subst hax
      by_cases hay : a = y
      · subst hay
        simp [firstOccurrences]
      · simp only [firstOccurrences, List.indexOf_cons_self, List.indexOf_cons_ne _ hay]
        omega
    · by_cases hay : a = y
      · subst hay
        simp only [firstOccurrences, List.indexOf_cons_self]
        omega
      · have hx2 : x ∈ rest := by
          rcases List.mem_cons.mp hx with h | h
          · exact absurd h.symm hax
          · exact h
        have hy2 : y ∈ rest := by
          rcases List.mem_cons.mp hy with h | h
          · exact absurd h.symm hay
          · exact h
        simp only [firstOccurrences, List.indexOf_cons_ne _ hax, List.indexOf_cons_ne _ hay]
        have h1 := indexOf_filter_lt (fun z => decide (z ≠ a)) (firstOccurrences rest) x y
          ((mem_firstOccurrences rest x).mpr hx2) ((mem_firstOccurrences rest y).mpr hy2)
          (by simpa using fun h => hax h.symm) (by simpa using fun h => hay h.symm)
        have h2 := ih hx2 hy2
        omega

/-- After `UnsuitableNodes` returns without error every list is deduplicated. -/
theorem UnsuitableNodes_cas (cs : Clientset) (pending : PerNodeClaimRequests)
    (cas : List ClaimAllocation) (potentialNodes : List String)
    (h : (UnsuitableNodes cs pending cas potentialNodes).err = none) :
    (UnsuitableNodes cs pending cas potentialNodes).cas
      = (unsuitableNodesLoop cs potentialNodes pending cas).cas.map
          (fun ca => { ca with UnsuitableNodes := unique ca.UnsuitableNodes }) ∧
    (UnsuitableNodes cs pending cas potentialNodes).pending
      = (unsuitableNodesLoop cs potentialNodes pending cas).pending := by
  unfold UnsuitableNodes at h ⊢
  cases he : (unsuitableNodesLoop cs potentialNodes pending cas).err with
  | none => simp [he]
  | some e => simp [he] at h

/-- C16. Deduplication of the unsuitable-node list.  For every list of strings
`s`, `unique s` contains no string twice, contains exactly the strings of `s`,
keeps them in the order of their first occurrence in `s` (it is the list
`firstOccurrences s`, and one string precedes another in `unique s` exactly when
its first occurrence in `s` precedes that of the other), and
`unique (unique s) = unique s`; and after `UnsuitableNodes` returns without error
the `UnsuitableNodes` list of every claim allocation is free of duplicates. -/
theorem unique_deduplicates :
    (∀ s : List String,
      (unique s).Nodup ∧ (∀ x, x ∈ unique s ↔ x ∈ s) ∧
      unique s = firstOccurrences s ∧
      (∀ x y, x ∈ s → y ∈ s →
        ((unique s).indexOf x < (unique s).indexOf y ↔ s.indexOf x < s.indexOf y)) ∧
      unique (unique s) = unique s) ∧
    (∀ (cs : Clientset) (pending : PerNodeClaimRequests) (cas : List ClaimAllocation)
      (potentialNodes : List String),
      (UnsuitableNodes cs pending cas potentialNodes).err = none →
      ∀ ca ∈ (UnsuitableNodes cs pending cas potentialNodes).cas, ca.UnsuitableNodes.Nodup) := by
  constructor
  · intro s
    refine ⟨nodup_unique s, mem_unique s, unique_eq_firstOccurrences s, ?_, ?_⟩
    · intro x y hx hy
      rw [unique_eq_firstOccurrences]
      exact indexOf_firstOccurrences_lt s x y hx hy
    · rw [unique_eq_firstOccurrences (unique s), unique_eq_firstOccurrences s]
      exact firstOccurrences_of_nodup _ (nodup_firstOccurrences s)
  · intro cs pending cas potentialNodes herr ca hca
    rw [(UnsuitableNodes_cas cs pending cas potentialNodes herr).1] at hca
    obtain ⟨c, _, hc⟩ := List.mem_map.mp hca
    rw [← hc]
    exact nodup_unique _

/-- Witness for C16: a list naming `n1` and `n2` twice. -/
theorem unique_deduplicates_witness :
    (unique ["n1", "n2", "n1", "n3", "n2"]).Nodup ∧
    unique ["n1", "n2", "n1", "n3", "n2"] = ["n1", "n2", "n3"] ∧
    unique (unique ["n1", "n2", "n1", "n3", "n2"]) = unique ["n1", "n2", "n1", "n3", "n2"] :=
  ⟨(unique_deduplicates.1 ["n1", "n2", "n1", "n3", "n2"]).1, by decide,
   (unique_deduplicates.1 ["n1", "n2", "n1", "n3", "n2"]).2.2.2.2⟩

/-! ## C14: over-sized request -/

theorem alreadyAllocated_false (mas : MydeviceAllocationState) (claimUID : String)
    (h : mlookup mas.Spec.ResourceClaimAllocations claimUID = none) :
    alreadyAllocated mas claimUID = false := by
  unfold alreadyAllocated
  cases mas.Spec.ResourceClaimRequests with
  | none => rfl
  | some m => simp [mhas, h]

/-- Filtering the node of a Ready record of two or more free devices of the
supported type for one claim without a stored selection: the selection is the
UID of the device visited last, `Count` times, so it has the requested length
whatever the number of devices; the node is not marked and the selection is
stored as PendingRequest. -/
theorem unsuitableNode_repeated (mas : MydeviceAllocationState) (claim : ResourceClaim)
    (spec : MydeviceClaimParametersSpec)
    (hready : mas.Status = MydeviceAllocationStateStatusReady)
    (hnoreq : mlookup mas.Spec.requests claim.UID = none)
    (hv : (lastVisited mas).Type_ = MydeviceType0)
    (hother : ∃ u, mhas (Available mas) u = true ∧ u ≠ (lastVisited mas).UID)
    (hpos : 0 ≤ spec.Count) :
    unsuitableNode (singleNode mas) NewPerNodeClaimRequests
        [{ Claim := claim, ClaimParameters := .mydevice spec, UnsuitableNodes := [] }] mas.Name
      = { err := none,
          cas := [{ Claim := claim, ClaimParameters := .mydevice spec, UnsuitableNodes := [] }],
          pending := NewPerNodeClaimRequests.Set claim.UID mas.Name
            { Spec := spec,
              Mydevices := List.replicate spec.Count.toNat
                ({ UID := (lastVisited mas).UID } : RequestedMydevice) },
          mas := some ((withRequestsMap mas).setRequest claim.UID
            { Spec := spec,
              Mydevices := List.replicate spec.Count.toNat
                ({ UID := (lastVisited mas).UID } : RequestedMydevice) }) } := by
  have hfil : filteredCAs
      [({ Claim := claim, ClaimParameters := .mydevice spec, UnsuitableNodes := [] } :
        ClaimAllocation)]
      = [{ Claim := claim, ClaimParameters := .mydevice spec, UnsuitableNodes := [] }] := rfl
  have hclean : NewPerNodeClaimRequests.CleanupNode (withRequestsMap mas)
      = (NewPerNodeClaimRequests, withRequestsMap mas) := rfl
  have hsel : selectPotentialDevices (withRequestsMap mas)
      [{ Claim := claim, ClaimParameters := .mydevice spec, UnsuitableNodes := [] }]
      = some [(claim.UID,
          { Spec := spec,
            Mydevices := List.replicate spec.Count.toNat
              ({ UID := (lastVisited mas).UID } : RequestedMydevice) })] :=
    select_single_shared (withRequestsMap mas) claim spec [] hnoreq hv hother
  have hselOf : selectionOf [(claim.UID,
      ({ Spec := spec,
         Mydevices := List.replicate spec.Count.toNat
           ({ UID := (lastVisited mas).UID } : RequestedMydevice) } : RequestedMydevices))]
      claim.UID
      = { Spec := spec,
          Mydevices := List.replicate spec.Count.toNat
            ({ UID := (lastVisited mas).UID } : RequestedMydevice) } := by
    simp [selectionOf, mlookup]
  have hlen : spec.Count = ((List.replicate spec.Count.toNat
      ({ UID := (lastVisited mas).UID } : RequestedMydevice)).length : Int) := by
    rw [List.length_replicate]
    omega
  unfold unsuitableNode
  simp only [singleNode_get, hready, ne_eq, not_true_eq_false, if_false,
    unsuitableMydeviceNode, hfil, hclean, hsel]
  rw [unsuitableLoop]
  simp only [hselOf]
  rw [if_neg (not_not.mpr hlen), unsuitableLoop]
  rfl

/-- C14 fails on the code.  Let the record be Ready and hold nothing for the
claim, with every allocatable key equal to the UID of its device (and no key
twice), `n ≥ 2` allocatable devices, all of the supported type and none
allocated, and let the claim request `Count > n` devices.  Then `UnsuitableNodes`,
run for the claim over this node with an empty PendingRequest table, does not put
the node in the claim's `UnsuitableNodes` list: it stores as PendingRequest a
selection of `Count` entries, the UID of the device visited last by `Available`
repeated.  The subsequent pending-mode Allocate on the node finds every entry of
that selection among the keys of the available set, succeeds and commits the
descriptor of that one device `Count` times. -/
theorem oversized_request_is_granted (mas : MydeviceAllocationState)
    (claim : ResourceClaim) (spec : MydeviceClaimParametersSpec)
    (hready : mas.Status = MydeviceAllocationStateStatusReady)
    (hkeys : KeysAreUIDs mas) (hmap : (mkeys mas.Spec.AllocatableMydevices).Nodup)
    (hnoreq : mlookup mas.Spec.requests claim.UID = none)
    (hnoalloc : mlookup mas.Spec.ResourceClaimAllocations claim.UID = none)
    (hfree : ∀ e ∈ mas.Spec.AllocatableMydevices,
      e.2.Type_ = MydeviceType0 ∧ DeviceIsAllocated mas e.2.UID = false)
    (htwo : 2 ≤ mas.Spec.AllocatableMydevices.length)
    (hcount : (mas.Spec.AllocatableMydevices.length : Int) < spec.Count) :
    (UnsuitableNodes (singleNode mas) NewPerNodeClaimRequests
      [{ Claim := claim, ClaimParameters := .mydevice spec, UnsuitableNodes := [] }]
      [mas.Name]).err = none ∧
    (UnsuitableNodes (singleNode mas) NewPerNodeClaimRequests
      [{ Claim := claim, ClaimParameters := .mydevice spec, UnsuitableNodes := [] }]
      [mas.Name]).cas
      = [{ Claim := claim, ClaimParameters := .mydevice spec, UnsuitableNodes := [] }] ∧
    (UnsuitableNodes (singleNode mas) NewPerNodeClaimRequests
      [{ Claim := claim, ClaimParameters := .mydevice spec, UnsuitableNodes := [] }]
      [mas.Name]).pending
      = NewPerNodeClaimRequests.Set claim.UID mas.Name
          { Spec := spec,
            Mydevices := List.replicate spec.Count.toNat
              ({ UID := (lastVisited mas).UID } : RequestedMydevice) } ∧
    (allocatePendingClaim (singleNode mas)
      (UnsuitableNodes (singleNode mas) NewPerNodeClaimRequests
        [{ Claim := claim, ClaimParameters := .mydevice spec, UnsuitableNodes := [] }]
        [mas.Name]).pending
      claim (.mydevice spec) mas.Name).result = .ok (buildAllocationResult mas.Name true) ∧
    ∃ out,
      (allocatePendingClaim (singleNode mas)
        (UnsuitableNodes (singleNode mas) NewPerNodeClaimRequests
          [{ Claim := claim, ClaimParameters := .mydevice spec, UnsuitableNodes := [] }]
          [mas.Name]).pending
        claim (.mydevice spec) mas.Name).persisted = some out ∧
      mlookup out.Spec.ResourceClaimAllocations claim.UID
        = some (List.replicate spec.Count.toNat
            { CDIDevice := (lastVisited mas).CDIDevice, Type_ := (lastVisited mas).Type_,
              UID := (lastVisited mas).UID }) := by
  obtain ⟨hv, hother, hlast, hlook⟩ := lastVisited_of_free_devices mas hkeys hmap hfree htwo
  have hnode := unsuitableNode_repeated mas claim spec hready hnoreq hv hother (by omega)
  have hU : UnsuitableNodes (singleNode mas) NewPerNodeClaimRequests
      [{ Claim := claim, ClaimParameters := .mydevice spec, UnsuitableNodes := [] }]
      [mas.Name]
      = { err := none,
          cas := [{ Claim := claim, ClaimParameters := .mydevice spec, UnsuitableNodes := [] }],
          pending := NewPerNodeClaimRequests.Set claim.UID mas.Name
            { Spec := spec,
              Mydevices := List.replicate spec.Count.toNat
                ({ UID := (lastVisited mas).UID } : RequestedMydevice) },
          mas := none } := by
    unfold UnsuitableNodes
    rw [unsuitableNodesLoop]
    simp only [hnode]
    rw [unsuitableNodesLoop]
    rfl
  rw [hU]
  have hal := alreadyAllocated_false mas claim.UID hnoalloc
  have hex : (NewPerNodeClaimRequests.Set claim.UID mas.Name
      { Spec := spec,
        Mydevices := List.replicate spec.Count.toNat
          ({ UID := (lastVisited mas).UID } : RequestedMydevice) }).Exists claim.UID mas.Name
      = true := by
    simp [PerNodeClaimRequests.Exists, PerNodeClaimRequests.Set, NewPerNodeClaimRequests,
      mlookup, minsert, mhas]
  have hgetp : (NewPerNodeClaimRequests.Set claim.UID mas.Name
      { Spec := spec,
        Mydevices := List.replicate spec.Count.toNat
          ({ UID := (lastVisited mas).UID } : RequestedMydevice) }).Get claim.UID mas.Name
      = { Spec := spec,
          Mydevices := List.replicate spec.Count.toNat
            ({ UID := (lastVisited mas).UID } : RequestedMydevice) } := by
    unfold PerNodeClaimRequests.Get
    rw [hex]
    simp [PerNodeClaimRequests.Set, NewPerNodeClaimRequests, mlookup, minsert]
  have hen : enoughResourcesForPendingClaim
      (NewPerNodeClaimRequests.Set claim.UID mas.Name
        { Spec := spec,
          Mydevices := List.replicate spec.Count.toNat
            ({ UID := (lastVisited mas).UID } : RequestedMydevice) })
      mas claim.UID mas.Name = true := by
    unfold enoughResourcesForPendingClaim
    rw [hgetp, List.all_eq_true]
    intro d hd
    rw [List.eq_of_mem_replicate hd]
    simpa using hlast
  have hdesc : allocatedOf mas { UID := (lastVisited mas).UID }
      = { CDIDevice := (lastVisited mas).CDIDevice, Type_ := (lastVisited mas).Type_,
          UID := (lastVisited mas).UID } := by
    simp [allocatedOf, hlook]
  have hrun : allocatePendingClaim (singleNode mas)
      (NewPerNodeClaimRequests.Set claim.UID mas.Name
        { Spec := spec,
          Mydevices := List.replicate spec.Count.toNat
            ({ UID := (lastVisited mas).UID } : RequestedMydevice) })
      claim (.mydevice spec) mas.Name
      = { result := .ok (buildAllocationResult mas.Name true),
          persisted := some (MakeResourceClaimAllocation (mas.setRequest claim.UID
            { Spec := spec,
              Mydevices := List.replicate spec.Count.toNat
                ({ UID := (lastVisited mas).UID } : RequestedMydevice) }) claim.UID),
          pending := (NewPerNodeClaimRequests.Set claim.UID mas.Name
            { Spec := spec,
              Mydevices := List.replicate spec.Count.toNat
                ({ UID := (lastVisited mas).UID } : RequestedMydevice) }).Remove claim.UID } := by
    unfold allocatePendingClaim
    simp only [singleNode_get, hready, ne_eq, not_true_eq_false, if_false, hal,
      Bool.false_eq_true, hex, and_false, hen, if_true, hgetp]
    rw [if_neg (by simp)]
    simp [singleNode]
  rw [hrun]
  refine ⟨rfl, rfl, rfl, rfl, _, rfl, ?_⟩
  rw [commit_spec]
  simp only
  rw [mlookup_minsert_same, List.map_replicate, hdesc]

/-- Witness for C14: five free devices on `n1`, visited in the order `d0` to `d4`,
and a claim for six.  The node is not marked unsuitable, and the pending-mode
Allocate commits `d4` six times. -/
theorem oversized_request_is_granted_witness :
    (UnsuitableNodes (singleNode fiveDevicesRecord) NewPerNodeClaimRequests
        [sampleCA "c1" 6] ["n1"]).cas = [sampleCA "c1" 6] ∧
    (allocatePendingClaim (singleNode fiveDevicesRecord)
      (UnsuitableNodes (singleNode fiveDevicesRecord) NewPerNodeClaimRequests
        [sampleCA "c1" 6] ["n1"]).pending
      (sampleClaim "c1" .WaitForFirstConsumer) (sampleParams 6) "n1").persisted.map
        (fun out => (mlookup out.Spec.ResourceClaimAllocations "c1").map
          (List.map (fun d => d.UID)))
      = some (some ["d4", "d4", "d4", "d4", "d4", "d4"]) ∧
    (allocatePendingClaim (singleNode fiveDevicesRecord)
      (UnsuitableNodes (singleNode fiveDevicesRecord) NewPerNodeClaimRequests
        [{ Claim := sampleClaim "c1" .WaitForFirstConsumer,
           ClaimParameters := .mydevice { Count := 6, Type_ := MydeviceType0 },
           UnsuitableNodes := [] }]
        [fiveDevicesRecord.Name]).pending
      (sampleClaim "c1" .WaitForFirstConsumer)
      (.mydevice { Count := 6, Type_ := MydeviceType0 }) fiveDevicesRecord.Name).result
      = .ok (buildAllocationResult fiveDevicesRecord.Name true) :=
  ⟨by decide, by decide,
    (oversized_request_is_granted fiveDevicesRecord (sampleClaim "c1" .WaitForFirstConsumer)
      { Count := 6, Type_ := MydeviceType0 } rfl (by decide) (by decide) (by decide)
      (by decide) (by decide) (by decide) (by decide)).2.2.2.1⟩

/-! ## Lemmas on the sync from the record -/

theorem syncClaimLoop_fields (claimUid : String) :
    ∀ (ds : List AllocatedMydevice) (s : nodeState),
      (syncClaimLoop claimUid ds s).1.allocatable = s.allocatable ∧
      (syncClaimLoop claimUid ds s).1.cdi = s.cdi := by
  intro ds
  induction ds with
  | nil => intro s; simp [syncClaimLoop]
  | cons d rest ih =>
    intro s
    by_cases ht : d.Type_ = MydeviceType0
    · cases hl : mlookup s.allocatable d.UID with
      | none => simp [syncClaimLoop, ht, hl]
      | some newdevice =>
        simp only [syncClaimLoop, ht, if_true, hl]
        exact ih _
    · simp only [syncClaimLoop, ht, if_false]
      exact ih s

theorem syncClaimLoop_error_iff (claimUid : String) :
    ∀ (ds : List AllocatedMydevice) (s : nodeState),
      (syncClaimLoop claimUid ds s).2.isSome = true ↔
        ∃ d ∈ ds, d.Type_ = MydeviceType0 ∧ d.UID ∉ mkeys s.allocatable := by
  intro ds
  induction ds with
  | nil => intro s; simp [syncClaimLoop]
  | cons d rest ih =>
    intro s
    by_cases ht : d.Type_ = MydeviceType0
    · cases hl : mlookup s.allocatable d.UID with
      | none =>
        have hk := not_mem_mkeys_of_lookup_none _ _ hl
        simp only [syncClaimLoop, ht, if_true, hl, Option.isSome_some, true_iff]
        exact ⟨d, List.mem_cons_self _ _, ht, hk⟩
      | some newdevice =>
        have hk : d.UID ∈ mkeys s.allocatable :=
          (mhas_iff_mem_keys _ _).mp (by simp [mhas, hl])
        simp only [syncClaimLoop, ht, if_true, hl]
        rw [ih]
        constructor
        · rintro ⟨d2, hd2, h2⟩
          exact ⟨d2, List.mem_cons_of_mem _ hd2, h2⟩
        · rintro ⟨d2, hd2, ht2, hk2⟩
          rcases List.mem_cons.mp hd2 with h | h
          · subst h
            exact absurd hk hk2
          · exact ⟨d2, h, ht2, hk2⟩
    · simp only [syncClaimLoop, ht, if_false]
      rw [ih]
      constructor
      · rintro ⟨d2, hd2, h2⟩
        exact ⟨d2, List.mem_cons_of_mem _ hd2, h2⟩
      · rintro ⟨d2, hd2, ht2, hk2⟩
        rcases List.mem_cons.mp hd2 with h | h
        · subst h
          exact absurd ht2 ht
        · exact ⟨d2, h, ht2, hk2⟩

theorem syncLoop_fields :
    ∀ (l : GoMap (List AllocatedMydevice)) (s : nodeState),
      (syncLoop l s).1.allocatable = s.allocatable ∧ (syncLoop l s).1.cdi = s.cdi := by
  intro l
  induction l with
  | nil => intro s; simp [syncLoop]
  | cons e rest ih =>
    intro s
    obtain ⟨claimUid, devices⟩ := e
    have hf := syncClaimLoop_fields claimUid devices
      { s with allocations := minsert s.allocations claimUid [] }
    cases hr : syncClaimLoop claimUid devices
        { s with allocations := minsert s.allocations claimUid [] } with
    | mk s1 err =>
      rw [hr] at hf
      cases err with
      | some e => simpa [syncLoop, hr] using hf
      | none =>
        simp only [syncLoop, hr]
        have := ih s1
        exact ⟨this.1.trans hf.1, this.2.trans hf.2⟩

theorem syncLoop_error_iff :
    ∀ (l : GoMap (List AllocatedMydevice)) (s : nodeState),
      (syncLoop l s).2.isSome = true ↔
        ∃ e ∈ l, ∃ d ∈ e.2, d.Type_ = MydeviceType0 ∧ d.UID ∉ mkeys s.allocatable := by
  intro l
  induction l with
  | nil => intro s; simp [syncLoop]
  | cons e rest ih =>
    intro s
    obtain ⟨claimUid, devices⟩ := e
    have hf := syncClaimLoop_fields claimUid devices
      { s with allocations := minsert s.allocations claimUid [] }
    have he := syncClaimLoop_error_iff claimUid devices
      { s with allocations := minsert s.allocations claimUid [] }
    cases hr : syncClaimLoop claimUid devices
        { s with allocations := minsert s.allocations claimUid [] } with
    | mk s1 err =>
      rw [hr] at hf he
      cases err with
      | some e1 =>
        simp only [syncLoop, hr, Option.isSome_some, true_iff]
        obtain ⟨d, hd, h⟩ := he.mp rfl
        exact ⟨(claimUid, devices), List.mem_cons_self _ _, d, hd, h⟩
      | none =>
        simp only [syncLoop, hr]
        rw [ih s1, hf.1]
        constructor
        · rintro ⟨e2, he2, h2⟩
          exact ⟨e2, List.mem_cons_of_mem _ he2, h2⟩
        · rintro ⟨e2, he2, d, hd, h2⟩
          rcases List.mem_cons.mp he2 with h | h
          · subst h
            have := he.mpr ⟨d, hd, h2⟩
            simp at this
          · exact ⟨e2, h, d, hd, h2⟩

/-! ## Lemmas on the calls of the agent -/

theorem syncClaimLoop_lookup_ne (claimUid k : String) (h : claimUid ≠ k) :
    ∀ (ds : List AllocatedMydevice) (s : nodeState),
      mlookup (syncClaimLoop claimUid ds s).1.allocations k = mlookup s.allocations k := by
  intro ds
  induction ds with
  | nil => intro s; simp [syncClaimLoop]
  | cons d rest ih =>
    intro s
    by_cases ht : d.Type_ = MydeviceType0
    · cases hl : mlookup s.allocatable d.UID with
      | none => simp [syncClaimLoop, ht, hl]
      | some newdevice =>
        simp only [syncClaimLoop, ht, if_true, hl]
        rw [ih]
        exact mlookup_minsert_ne _ _ _ _ h
    · simp only [syncClaimLoop, ht, if_false]
      exact ih s

theorem syncLoop_lookup_absent (k : String) :
    ∀ (l : GoMap (List AllocatedMydevice)) (s : nodeState), k ∉ mkeys l →
      mlookup (syncLoop l s).1.allocations k = mlookup s.allocations k := by
  intro l
  induction l with
  | nil => intro s _; simp [syncLoop]
  | cons e rest ih =>
    intro s hk
    obtain ⟨claimUid, devices⟩ := e
    simp only [mkeys, List.map_cons, List.mem_cons, not_or] at hk
    have hne : claimUid ≠ k := fun h => hk.1 h.symm
    have hl := syncClaimLoop_lookup_ne claimUid k hne devices
      { s with allocations := minsert s.allocations claimUid [] }
    cases hr : syncClaimLoop claimUid devices
        { s with allocations := minsert s.allocations claimUid [] } with
    | mk s1 err =>
      rw [hr] at hl
      simp only at hl
      rw [mlookup_minsert_ne _ _ _ _ hne] at hl
      cases err with
      | some e1 => simpa [syncLoop, hr] using hl
      | none =>
        simp only [syncLoop, hr]
        rw [ih s1 hk.2]
        exact hl

theorem retryOnConflict_ok {σ α : Type} (fn : Nat → σ → σ × Except AgentError α)
    (steps : Nat) (hsteps : 0 < steps) (s s1 : σ) (a : α) (h : fn 0 s = (s1, .ok a)) :
    retryOnConflict fn steps 0 s = (s1, .ok a) := by
  cases steps with
  | zero => exact absurd hsteps (by decide)
  | succ n => simp [retryOnConflict, h]

theorem cdiNamesLoop_fail (cfg : AgentConfig) (cdi : CdiRegistry) :
    ∀ (devices : List DeviceInfo) (devs : List String),
      (∃ device ∈ devices, mlookup cdi.devices (device.CDIDevice cfg) = none) →
      cdiNamesLoop cfg cdi devices devs = [] := by
  intro devices
  induction devices with
  | nil => intro devs h; simp at h
  | cons device rest ih =>
    intro devs h
    cases hl : mlookup cdi.devices (device.CDIDevice cfg) with
    | none => simp [cdiNamesLoop, hl]
    | some qualifiedName =>
      simp only [cdiNamesLoop, hl]
      apply ih
      obtain ⟨d2, hd2, h2⟩ := h
      rcases List.mem_cons.mp hd2 with h3 | h3
      · subst h3
        rw [hl] at h2
        cases h2
      · exact ⟨d2, h3, h2⟩

theorem cdiNamesLoop_found (cfg : AgentConfig) (cdi : CdiRegistry) :
    ∀ (devices : List DeviceInfo) (devs : List String),
      (∀ device ∈ devices, mhas cdi.devices (device.CDIDevice cfg) = true) →
      cdiNamesLoop cfg cdi devices devs =
        devs ++ devices.filterMap (fun device => mlookup cdi.devices (device.CDIDevice cfg)) ∧
      (devices.filterMap
        (fun device => mlookup cdi.devices (device.CDIDevice cfg))).length = devices.length := by
  intro devices
  induction devices with
  | nil => intro devs _; simp [cdiNamesLoop]
  | cons device rest ih =>
    intro devs h
    have h1 := h device (List.mem_cons_self _ _)
    obtain ⟨qualifiedName, hq⟩ := (mhas_iff_lookup _ _).mp h1
    have ih2 := ih (devs ++ [qualifiedName]) (fun d hd => h d (List.mem_cons_of_mem _ hd))
    simp only [cdiNamesLoop, hq]
    rw [ih2.1]
    simp [List.filterMap_cons, hq, ih2.2]

theorem prepare_of_sync_ok (cfg : AgentConfig) (store : NodeStore) (s : nodeState)
    (claimUid : String) (mas : MydeviceAllocationState)
    (hsteps : 0 < cfg.retrySteps) (hget : store.Get 0 = .ok mas)
    (hsync : (s.syncAllocatedDevicesFromMASSpec mas.Spec).2 = none) :
    (NodePrepareResource cfg store s claimUid).result =
      .ok ((s.syncAllocatedDevicesFromMASSpec mas.Spec).1.getAllocatedAsCDIDevices cfg
        claimUid) ∧
    (NodePrepareResource cfg store s claimUid).state =
      (s.syncAllocatedDevicesFromMASSpec mas.Spec).1 := by
  have hattempt : prepareAttempt cfg store claimUid 0 s =
      ((s.syncAllocatedDevicesFromMASSpec mas.Spec).1,
        .ok ((s.syncAllocatedDevicesFromMASSpec mas.Spec).1.getAllocatedAsCDIDevices cfg
          claimUid)) := by
    cases hr : s.syncAllocatedDevicesFromMASSpec mas.Spec with
    | mk s1 err =>
      rw [hr] at hsync
      simp only at hsync
      subst hsync
      simp [prepareAttempt, hget, hr]
  have := retryOnConflict_ok (prepareAttempt cfg store claimUid) cfg.retrySteps hsteps s _ _
    hattempt
  simp [NodePrepareResource, this]

/-! ## C17: prepare for a claim without a committed allocation -/

/-- C17 (amended): for every record and local node state, and every claim UID that
has no entry in the committed allocations of the reloaded record, if the record
is reloaded and the sync of its committed allocations succeeds, then
`NodePrepareResource` returns a successful response: it lists the names of the
claim's active allocation as Local Node State had it before the call, and it is
the empty list when Local Node State had no active allocation for the claim. -/
theorem prepare_without_committed_allocation (cfg : AgentConfig) (store : NodeStore)
    (s : nodeState) (claimUid : String) (mas : MydeviceAllocationState)
    (hsteps : 0 < cfg.retrySteps) (hget : store.Get 0 = .ok mas)
    (hnone : claimUid ∉ mkeys mas.Spec.ResourceClaimAllocations)
    (hsync : (s.syncAllocatedDevicesFromMASSpec mas.Spec).2 = none) :
    (NodePrepareResource cfg store s claimUid).result =
      .ok (s.getAllocatedAsCDIDevices cfg claimUid) ∧
    (claimUid ∉ mkeys s.allocations →
      (NodePrepareResource cfg store s claimUid).result = .ok []) := by
  have h := (prepare_of_sync_ok cfg store s claimUid mas hsteps hget hsync).1
  have hl := syncLoop_lookup_absent claimUid mas.Spec.ResourceClaimAllocations s hnone
  have hc := (syncLoop_fields mas.Spec.ResourceClaimAllocations s).2
  have heq : (s.syncAllocatedDevicesFromMASSpec mas.Spec).1.getAllocatedAsCDIDevices cfg
      claimUid = s.getAllocatedAsCDIDevices cfg claimUid := by
    simp only [nodeState.getAllocatedAsCDIDevices, nodeState.syncAllocatedDevicesFromMASSpec,
      hl, hc]
  rw [heq] at h
  refine ⟨h, ?_⟩
  intro habs
  have hnl : mlookup s.allocations claimUid = none := by
    cases hx : mlookup s.allocations claimUid with
    | none => rfl
    | some v =>
      exact absurd ((mhas_iff_mem_keys _ _).mp (by simp [mhas, hx])) habs
  rw [h]
  simp [nodeState.getAllocatedAsCDIDevices, hnl, cdiNamesLoop]

/-- Witness of C17: the sample record commits nothing to claim `c1`, and the
prepare call for `c1` on the sample node state returns the empty list. -/
theorem prepare_without_committed_allocation_witness :
    (NodePrepareResource sampleAgentConfig (constStore sampleRecord) sampleNodeState
      "c1").result = .ok [] :=
  (prepare_without_committed_allocation sampleAgentConfig (constStore sampleRecord)
    sampleNodeState "c1" sampleRecord (by decide) rfl (by decide) rfl).2 (by decide)

/-- C17 (counterexample): claim `c1` has no entry in the committed allocations of
the reloaded record, and `NodePrepareResource` returns a successful response
with an empty device list, not an error. -/
theorem prepare_succeeds_without_committed_allocation :
    "c1" ∉ mkeys sampleRecord.Spec.ResourceClaimAllocations ∧
    (constStore sampleRecord).Get 0 = .ok sampleRecord ∧
    (NodePrepareResource sampleAgentConfig (constStore sampleRecord) sampleNodeState
      "c1").result = .ok [] :=
  ⟨by decide, rfl, rfl⟩

/-! ## C18: a failed lookup in the CDI registry -/

/-- C18 (what the code does): when the record is reloaded and synced and the
claim has an active allocation after the sync, a failed lookup in the CDI
registry for at least one of the claim's devices makes `NodePrepareResource`
return a successful response with an empty device list, not an error; when
every lookup succeeds the response has one name per device of the active
allocation, in order. -/
theorem prepare_swallows_lookup_failure (cfg : AgentConfig) (store : NodeStore)
    (s : nodeState) (claimUid : String) (mas : MydeviceAllocationState)
    (devices : List DeviceInfo)
    (hsteps : 0 < cfg.retrySteps) (hget : store.Get 0 = .ok mas)
    (hsync : (s.syncAllocatedDevicesFromMASSpec mas.Spec).2 = none)
    (hdev : mlookup (s.syncAllocatedDevicesFromMASSpec mas.Spec).1.allocations claimUid
      = some devices) :
    ((∃ device ∈ devices, mlookup s.cdi.devices (device.CDIDevice cfg) = none) →
      (NodePrepareResource cfg store s claimUid).result = .ok []) ∧
    ((∀ device ∈ devices, mhas s.cdi.devices (device.CDIDevice cfg) = true) →
      ∃ names, (NodePrepareResource cfg store s claimUid).result = .ok names ∧
        names = devices.filterMap
          (fun device => mlookup s.cdi.devices (device.CDIDevice cfg)) ∧
        names.length = devices.length) := by
  have h := (prepare_of_sync_ok cfg store s claimUid mas hsteps hget hsync).1
  have hc : (s.syncAllocatedDevicesFromMASSpec mas.Spec).1.cdi = s.cdi :=
    (syncLoop_fields mas.Spec.ResourceClaimAllocations s).2
  have hnames : (s.syncAllocatedDevicesFromMASSpec mas.Spec).1.getAllocatedAsCDIDevices cfg
      claimUid = cdiNamesLoop cfg s.cdi devices [] := by
    simp only [nodeState.getAllocatedAsCDIDevices, hdev, hc, Option.getD_some]
  rw [hnames] at h
  constructor
  · intro hfail
    rw [h, cdiNamesLoop_fail cfg s.cdi devices [] hfail]
  · intro hall
    have hf := cdiNamesLoop_found cfg s.cdi devices [] hall
    refine ⟨_, h, ?_, ?_⟩
    · rw [hf.1]
      simp
    · rw [hf.1]
      simpa using hf.2

/-- Witness of C18: the record commits `d0` and `d1` to claim `c1`, the registry
knows only `d0`, and the prepare call returns success with an empty list. -/
theorem prepare_swallows_lookup_failure_witness :
    (NodePrepareResource sampleAgentConfig (constStore twoCommittedRecord)
      partialRegistryState "c1").result = .ok [] :=
  (prepare_swallows_lookup_failure sampleAgentConfig (constStore twoCommittedRecord)
    partialRegistryState "c1" twoCommittedRecord
    [sampleDeviceInfo "d0" MydeviceType0, sampleDeviceInfo "d1" MydeviceType0]
    (by decide) rfl rfl rfl).1
    ⟨sampleDeviceInfo "d1" MydeviceType0, by decide, rfl⟩

/-! ## Lemmas on unprepare -/

theorem free_absent (s : nodeState) (claimUid : String)
    (h : mlookup s.allocations claimUid = none) : s.free claimUid = (s, none) := by
  simp [nodeState.free, h]

theorem free_supported (s : nodeState) (claimUid : String)
    (h : ∀ devices, mlookup s.allocations claimUid = some devices →
      ∀ device ∈ devices, device.deviceType = MydeviceType0) :
    s.free claimUid = ({ s with allocations := mdelete s.allocations claimUid }, none) := by
  cases hl : mlookup s.allocations claimUid with
  | none =>
    have hk := not_mem_mkeys_of_lookup_none _ _ hl
    rw [free_absent s claimUid hl, mdelete_absent _ _ hk]
  | some devices =>
    have hloop : ∀ l : List DeviceInfo,
        (∀ device ∈ l, device.deviceType = MydeviceType0) → freeLoop l = none := by
      intro l
      induction l with
      | nil => intro _; rfl
      | cons device rest ih =>
        intro hall
        simp only [freeLoop, hall device (List.mem_cons_self _ _), if_true]
        exact ih (fun d hd => hall d (List.mem_cons_of_mem _ hd))
    simp [nodeState.free, hl, hloop devices (h devices hl)]

theorem mlookup_foldl_minsert_absent {α β : Type} (f : String × β → α) (k : String) :
    ∀ (l : GoMap β) (init : GoMap α), k ∉ mkeys l → mlookup init k = none →
      mlookup (l.foldl (fun m e => minsert m e.1 (f e)) init) k = none := by
  intro l
  induction l with
  | nil => intro init _ h; simpa using h
  | cons e rest ih =>
    intro init hk hinit
    simp only [mkeys, List.map_cons, List.mem_cons, not_or] at hk
    simp only [List.foldl_cons]
    apply ih _ hk.2
    rw [mlookup_minsert_ne _ _ _ _ (fun h => hk.1 h.symm)]
    exact hinit

theorem getUpdatedSpec_allocation_absent (cfg : AgentConfig) (s : nodeState)
    (inspec : MydeviceAllocationStateSpec) (claimUid : String)
    (h : mlookup s.allocations claimUid = none) :
    mlookup (s.getUpdatedSpec cfg inspec).ResourceClaimAllocations claimUid = none := by
  simp only [nodeState.getUpdatedSpec, nodeState.syncAllocatedDevicesToMASSpec]
  exact mlookup_foldl_minsert_absent (fun e => allocatedDevicesOf cfg e.2) claimUid
    s.allocations [] (not_mem_mkeys_of_lookup_none _ _ h) rfl

theorem getUpdatedSpec_idem (cfg : AgentConfig) (s : nodeState)
    (inspec : MydeviceAllocationStateSpec) :
    s.getUpdatedSpec cfg (s.getUpdatedSpec cfg inspec) = s.getUpdatedSpec cfg inspec := by
  cases inspec
  rfl

theorem unprepare_of_free_ok (cfg : AgentConfig) (store : NodeStore) (s s1 : nodeState)
    (claimUid : String) (mas : MydeviceAllocationState)
    (hsteps : 0 < cfg.retrySteps) (hget : store.Get 0 = .ok mas)
    (hfree : s.free claimUid = (s1, none))
    (hupd : store.Update 0 { mas with Spec := s1.getUpdatedSpec cfg mas.Spec } = none) :
    (NodeUnprepareResource cfg store s claimUid).result = .ok () ∧
    (NodeUnprepareResource cfg store s claimUid).state = s1 ∧
    (NodeUnprepareResource cfg store s claimUid).persisted =
      some { mas with Spec := s1.getUpdatedSpec cfg mas.Spec } := by
  have hattempt : unprepareAttempt cfg store claimUid 0 (s, none) =
      ((s1, some { mas with Spec := s1.getUpdatedSpec cfg mas.Spec }), .ok ()) := by
    simp [unprepareAttempt, hget, hfree, hupd]
  have := retryOnConflict_ok (unprepareAttempt cfg store claimUid) cfg.retrySteps hsteps
    (s, none) _ _ hattempt
  simp [NodeUnprepareResource, this]

/-! ## C19: unprepare twice -/

/-- C19: for every record and local node state and every claim whose devices in
the active allocation are all of the supported type, if the store returns the
record and accepts the update, the first `NodeUnprepareResource` succeeds and
the record it persists has no committed allocation for the claim; a second
`NodeUnprepareResource` for the same claim, run on the state left by the first
against a store holding the record the first persisted, succeeds, leaves Local
Node State unchanged and persists a record equal to the one persisted by the
first call. -/
theorem unprepare_twice (cfg : AgentConfig) (store store2 : NodeStore) (s : nodeState)
    (claimUid : String) (mas : MydeviceAllocationState)
    (hsteps : 0 < cfg.retrySteps)
    (hsupported : ∀ devices, mlookup s.allocations claimUid = some devices →
      ∀ device ∈ devices, device.deviceType = MydeviceType0)
    (hget : store.Get 0 = .ok mas)
    (hupd : ∀ updated, store.Update 0 updated = none)
    (hget2 : ∀ p, (NodeUnprepareResource cfg store s claimUid).persisted = some p →
      store2.Get 0 = .ok p)
    (hupd2 : ∀ updated, store2.Update 0 updated = none) :
    (NodeUnprepareResource cfg store s claimUid).result = .ok () ∧
    (∃ p, (NodeUnprepareResource cfg store s claimUid).persisted = some p ∧
      claimUid ∉ mkeys p.Spec.ResourceClaimAllocations ∧
      (NodeUnprepareResource cfg store2 (NodeUnprepareResource cfg store s claimUid).state
        claimUid).result = .ok () ∧
      (NodeUnprepareResource cfg store2 (NodeUnprepareResource cfg store s claimUid).state
        claimUid).state = (NodeUnprepareResource cfg store s claimUid).state ∧
      (NodeUnprepareResource cfg store2 (NodeUnprepareResource cfg store s claimUid).state
        claimUid).persisted = some p) := by
  have hfree := free_supported s claimUid hsupported
  have h1 := unprepare_of_free_ok cfg store s _ claimUid mas hsteps hget hfree (hupd _)
  have habs : mlookup ({ s with allocations := mdelete s.allocations claimUid } :
      nodeState).allocations claimUid = none := mlookup_mdelete_same _ _
  have hfree2 := free_absent _ claimUid habs
  have hg2 := hget2 _ h1.2.2
  have h2 := unprepare_of_free_ok cfg store2 _ _ claimUid _ hsteps hg2 hfree2 (hupd2 _)
  refine ⟨h1.1, _, h1.2.2, ?_, ?_, ?_, ?_⟩
  · intro hmem
    have hhas := (mhas_iff_mem_keys _ _).mpr hmem
    have hnone := getUpdatedSpec_allocation_absent cfg _ mas.Spec claimUid habs
    simp [mhas, hnone] at hhas
  · rw [h1.2.1]
    exact h2.1
  · rw [h1.2.1]
    exact h2.2.1
  · rw [h1.2.1, h2.2.2]
    simp only [getUpdatedSpec_idem]

/-- Witness of C19: claim `c1` holds `d0` and `d1` in the local node state; the
first unprepare persists a record without `c1`, and the second one persists the
same record and leaves the state as it is. -/
theorem unprepare_twice_witness :
    (NodeUnprepareResource sampleAgentConfig (constStore twoCommittedRecord)
      allocatedNodeState "c1").result = .ok () ∧
    (∃ p, (NodeUnprepareResource sampleAgentConfig (constStore twoCommittedRecord)
        allocatedNodeState "c1").persisted = some p ∧
      "c1" ∉ mkeys p.Spec.ResourceClaimAllocations ∧
      (NodeUnprepareResource sampleAgentConfig
        (constStore { twoCommittedRecord with
          Spec := sampleNodeState.getUpdatedSpec sampleAgentConfig twoCommittedRecord.Spec })
        (NodeUnprepareResource sampleAgentConfig (constStore twoCommittedRecord)
          allocatedNodeState "c1").state "c1").result = .ok () ∧
      (NodeUnprepareResource sampleAgentConfig
        (constStore { twoCommittedRecord with
          Spec := sampleNodeState.getUpdatedSpec sampleAgentConfig twoCommittedRecord.Spec })
        (NodeUnprepareResource sampleAgentConfig (constStore twoCommittedRecord)
          allocatedNodeState "c1").state "c1").state =
        (NodeUnprepareResource sampleAgentConfig (constStore twoCommittedRecord)
          allocatedNodeState "c1").state ∧
      (NodeUnprepareResource sampleAgentConfig
        (constStore { twoCommittedRecord with
          Spec := sampleNodeState.getUpdatedSpec sampleAgentConfig twoCommittedRecord.Spec })
        (NodeUnprepareResource sampleAgentConfig (constStore twoCommittedRecord)
          allocatedNodeState "c1").state "c1").persisted = some p) :=
  unprepare_twice sampleAgentConfig (constStore twoCommittedRecord)
    (constStore { twoCommittedRecord with
      Spec := sampleNodeState.getUpdatedSpec sampleAgentConfig twoCommittedRecord.Spec })
    allocatedNodeState "c1" twoCommittedRecord (by decide) (by decide) rfl (fun _ => rfl)
    (by
      intro p hp
      have h : (NodeUnprepareResource sampleAgentConfig (constStore twoCommittedRecord)
          allocatedNodeState "c1").persisted =
          some { twoCommittedRecord with
            Spec := sampleNodeState.getUpdatedSpec sampleAgentConfig
              twoCommittedRecord.Spec } := rfl
      rw [h] at hp
      cases hp
      rfl)
    (fun _ => rfl)

/-! ## C20: when the sync from the record fails -/

/-- C20 (amended): for every local node state and record spec,
`syncAllocatedDevicesFromMASSpec` returns an error if and only if some device of
the supported type listed in the committed allocations of the record has a UID
that is not a key of the local allocatable set.  Committed devices of another
type are skipped without an error. -/
theorem sync_error_iff_supported_device_missing (s : nodeState)
    (spec : MydeviceAllocationStateSpec) :
    (s.syncAllocatedDevicesFromMASSpec spec).2.isSome = true ↔
      ∃ e ∈ spec.ResourceClaimAllocations, ∃ d ∈ e.2,
        d.Type_ = MydeviceType0 ∧ d.UID ∉ mkeys s.allocatable :=
  syncLoop_error_iff spec.ResourceClaimAllocations s

/-- C20 (counterexample): the record commits device `d7` of type `type1` to claim
`c0` and `d7` is not a key of the local allocatable set, yet the sync returns no
error and the active allocation it stores for `c0` is empty: the device is
omitted from a successful sync. -/
theorem sync_omits_unsupported_device :
    (∃ e ∈ unsupportedCommittedSpec.ResourceClaimAllocations, ∃ d ∈ e.2,
        d.UID ∉ mkeys sampleNodeState.allocatable) ∧
    (sampleNodeState.syncAllocatedDevicesFromMASSpec unsupportedCommittedSpec).2 = none ∧
    mlookup (sampleNodeState.syncAllocatedDevicesFromMASSpec
      unsupportedCommittedSpec).1.allocations "c0" = some [] := by
  refine ⟨⟨("c0", [{ CDIDevice := "d7", Type_ := "type1", UID := "d7" }]), ?_, ?_⟩, rfl, rfl⟩
  · decide
  · exact ⟨{ CDIDevice := "d7", Type_ := "type1", UID := "d7" }, by decide, by decide⟩

/-- Witness of C20: the record commits device `d9` of the supported type, which is
not in the local allocatable set, and the sync returns an error. -/
theorem sync_error_iff_supported_device_missing_witness :
    (sampleNodeState.syncAllocatedDevicesFromMASSpec missingCommittedSpec).2.isSome = true :=
  (sync_error_iff_supported_device_missing sampleNodeState missingCommittedSpec).mpr
    ⟨("c0", [{ CDIDevice := "d9", Type_ := MydeviceType0, UID := "d9" }]), by decide,
      { CDIDevice := "d9", Type_ := MydeviceType0, UID := "d9" }, by decide, rfl, by decide⟩

/-! ## Lemmas on the device inventory of the agent -/

theorem mem_mkeys_minsert {α : Type} (m : GoMap α) (k x : String) (v : α) :
    x ∈ mkeys (minsert m k v) ↔ x ∈ mkeys m ∨ x = k := by
  rw [mkeys_minsert]
  by_cases hk : k ∈ mkeys m
  · simp only [hk, if_true]
    constructor
    · exact Or.inl
    · rintro (h | h)
      · exact h
      · rw [h]
        exact hk
  · simp [hk]

theorem announce_fold_spec (newDevices : GoMap DeviceInfo) :
    ∀ (allocatable : GoMap DeviceInfo),
      (∀ k, k ∈ mkeys (newDevices.foldl
          (fun (allocatable : GoMap DeviceInfo) e => minsert allocatable e.1 e.2) allocatable)
        ↔ k ∈ mkeys allocatable ∨ k ∈ mkeys newDevices) ∧
      (∀ e ∈ newDevices.foldl
          (fun (allocatable : GoMap DeviceInfo) e => minsert allocatable e.1 e.2) allocatable,
        e ∈ allocatable ∨ e ∈ newDevices) := by
  induction newDevices with
  | nil => intro allocatable; simp [mkeys]
  | cons e rest ih =>
    intro allocatable
    obtain ⟨h1, h2⟩ := ih (minsert allocatable e.1 e.2)
    simp only [List.foldl_cons]
    constructor
    · intro k
      rw [h1 k, mem_mkeys_minsert]
      simp only [mkeys, List.map_cons, List.mem_cons]
      tauto
    · intro e2 he2
      rcases h2 e2 he2 with h | h
      · rcases mem_minsert _ _ _ _ h with h3 | h3
        · right
          rw [h3]
          exact List.mem_cons_self _ _
        · exact Or.inl h3
      · exact Or.inr (List.mem_cons_of_mem _ h)

theorem unannounce_fold_spec (deviceUid : String) :
    ∀ (l allocatable : GoMap DeviceInfo),
      l.foldl (fun (allocatable : GoMap DeviceInfo) e =>
          if e.2.uid = deviceUid then mdelete allocatable e.2.uid else allocatable) allocatable
        = allocatable ∨
      l.foldl (fun (allocatable : GoMap DeviceInfo) e =>
          if e.2.uid = deviceUid then mdelete allocatable e.2.uid else allocatable) allocatable
        = mdelete allocatable deviceUid := by
  intro l
  induction l with
  | nil => intro allocatable; exact Or.inl rfl
  | cons e rest ih =>
    intro allocatable
    simp only [List.foldl_cons]
    by_cases he : e.2.uid = deviceUid
    · simp only [he, if_true]
      right
      rcases ih (mdelete allocatable deviceUid) with h | h
      · exact h
      · rw [h]
        apply mdelete_absent
        rw [mkeys_mdelete]
        simp
    · simp only [he, if_false]
      exact ih allocatable

/-! ## C21: subset invariant, agent side -/

theorem sync_stateOK (s : nodeState) (spec : MydeviceAllocationStateSpec) (h : StateOK s) :
    StateOK (s.syncAllocatedDevicesFromMASSpec spec).1 := by
  have claimLoop : ∀ (claimUid : String) (ds : List AllocatedMydevice) (s : nodeState),
      StateOK s → StateOK (syncClaimLoop claimUid ds s).1 := by
    intro claimUid ds
    induction ds with
    | nil => intro s hs; exact hs
    | cons d rest ih =>
      intro s hs
      by_cases ht : d.Type_ = MydeviceType0
      · cases hl : mlookup s.allocatable d.UID with
        | none =>
          simp only [syncClaimLoop, ht, if_true, hl]
          exact hs
        | some newdevice =>
          simp only [syncClaimLoop, ht, if_true, hl]
          apply ih
          refine ⟨hs.1, ?_⟩
          intro e he device hdev
          simp only at he
          rcases mem_minsert _ _ _ _ he with h1 | h1
          · rw [h1] at hdev
            simp only at hdev
            rcases List.mem_append.mp hdev with h2 | h2
            · cases hx : mlookup s.allocations claimUid with
              | none => simp [hx] at h2
              | some old =>
                simp only [hx, Option.getD_some] at h2
                exact hs.2 _ (mlookup_mem _ _ _ hx) device h2
            · rw [List.mem_singleton] at h2
              rw [h2]
              have hmem := mlookup_mem _ _ _ hl
              have hkey := hs.1 _ hmem
              simp only at hkey
              rw [← hkey]
              exact List.mem_map.mpr ⟨_, hmem, rfl⟩
          · exact hs.2 e h1 device hdev
      · simp only [syncClaimLoop, ht, if_false]
        exact ih s hs
  have loop : ∀ (l : GoMap (List AllocatedMydevice)) (s : nodeState),
      StateOK s → StateOK (syncLoop l s).1 := by
    intro l
    induction l with
    | nil => intro s hs; exact hs
    | cons e rest ih =>
      intro s hs
      obtain ⟨claimUid, devices⟩ := e
      have hreset : StateOK { s with allocations := minsert s.allocations claimUid [] } := by
        refine ⟨hs.1, ?_⟩
        intro e he device hdev
        simp only at he
        rcases mem_minsert _ _ _ _ he with h1 | h1
        · rw [h1] at hdev
          simp at hdev
        · exact hs.2 e h1 device hdev
      have hc := claimLoop claimUid devices _ hreset
      cases hr : syncClaimLoop claimUid devices
          { s with allocations := minsert s.allocations claimUid [] } with
      | mk s1 err =>
        rw [hr] at hc
        cases err with
        | some e1 => simpa [syncLoop, hr] using hc
        | none =>
          simp only [syncLoop, hr]
          exact ih s1 hc
  exact loop _ s h

theorem free_stateOK (s : nodeState) (claimUid : String) (h : StateOK s) :
    StateOK (s.free claimUid).1 := by
  unfold nodeState.free
  cases hl : mlookup s.allocations claimUid with
  | none => exact h
  | some devices =>
    cases hf : freeLoop devices with
    | some e =>
      simp only [hf]
      exact h
    | none =>
      simp only [hf]
      refine ⟨h.1, ?_⟩
      intro e he device hdev
      simp only at he
      exact h.2 e ((mem_mdelete _ _ _).mp he).1 device hdev

theorem announce_stateOK (s : nodeState) (calls : RegistryCalls)
    (newDevices : GoMap DeviceInfo) (h : StateOK s)
    (hnew : ∀ e ∈ newDevices, e.1 = e.2.uid) :
    StateOK (s.announceNewDevices calls newDevices).1 := by
  unfold nodeState.announceNewDevices
  by_cases hf : calls.failed = true
  · simp only [hf, if_true]
    exact h
  · simp only [hf, Bool.false_eq_true, if_false]
    obtain ⟨h1, h2⟩ := announce_fold_spec newDevices s.allocatable
    refine ⟨?_, ?_⟩
    · intro e he
      rcases h2 e he with h3 | h3
      · exact h.1 e h3
      · exact hnew e h3
    · intro e he device hdev
      exact (h1 _).mpr (Or.inl (h.2 e he device hdev))

theorem unannounce_stateOK (s : nodeState) (calls : RegistryCalls) (deviceUid : String)
    (h : StateOK s)
    (hfree : ∀ e ∈ s.allocations, ∀ device ∈ e.2, device.uid ≠ deviceUid) :
    StateOK (s.unannounceDevices calls deviceUid).1 := by
  unfold nodeState.unannounceDevices
  rcases unannounce_fold_spec deviceUid s.allocatable s.allocatable with h1 | h1
  · simp only [h1]
    exact h
  · simp only [h1]
    refine ⟨?_, ?_⟩
    · intro e he
      exact h.1 e ((mem_mdelete _ _ _).mp he).1
    · intro e he device hdev
      simp only at he
      rw [mkeys_mdelete]
      simp only [List.mem_filter, ne_eq, decide_not, Bool.not_eq_eq_eq_not, Bool.not_true,
        decide_eq_false_iff_not]
      exact ⟨h.2 e he device hdev, hfree e he device hdev⟩

theorem runCalls_stateOK :
    ∀ (calls : List AgentCall) (s : nodeState),
      StateOK s → CallsKeepAllocated calls s → StateOK (runCalls calls s) := by
  intro calls
  induction calls with
  | nil => intro s hs _; exact hs
  | cons call rest ih =>
    intro s hs hk
    obtain ⟨hk1, hk2⟩ := hk
    apply ih _ _ hk2
    cases call with
    | sync spec => exact sync_stateOK s spec hs
    | free claimUid => exact free_stateOK s claimUid hs
    | announce calls newDevices => exact announce_stateOK s calls newDevices hs hk1
    | unannounce calls deviceUid => exact unannounce_stateOK s calls deviceUid hs hk1

theorem newNodeState_stateOK (detecteddevices : GoMap DeviceInfo) (calls : RegistryCalls)
    (mas : MydeviceAllocationState) (s : nodeState)
    (hkeys : ∀ e ∈ detecteddevices, e.1 = e.2.uid)
    (h : newNodeState detecteddevices calls mas = .ok s) : StateOK s := by
  unfold newNodeState at h
  by_cases hf : calls.failed = true
  · simp [hf] at h
  · simp only [hf, Bool.false_eq_true, if_false] at h
    have h0 : StateOK ⟨calls.registry, detecteddevices, []⟩ := by
      refine ⟨hkeys, ?_⟩
      intro e he
      simp at he
    have h1 := sync_stateOK _ mas.Spec h0
    cases hr : (⟨calls.registry, detecteddevices, []⟩ :
        nodeState).syncAllocatedDevicesFromMASSpec mas.Spec with
    | mk s1 err =>
      rw [hr] at h h1
      cases err with
      | some e => simp at h
      | none =>
        simp only [Except.ok.injEq] at h
        rw [← h]
        exact h1

theorem getUpdatedSpec_subset (cfg : AgentConfig) (s : nodeState)
    (inspec : MydeviceAllocationStateSpec) (h : StateOK s) :
    AllocationsSubset (s.getUpdatedSpec cfg inspec) := by
  have hkeys : ∀ (l : GoMap DeviceInfo) (init : GoMap AllocatableMydevice) (k : String),
      (k ∈ mkeys init ∨ ∃ e ∈ l, e.2.uid = k) →
      k ∈ mkeys (l.foldl (fun (devices : GoMap AllocatableMydevice) e =>
        minsert devices e.2.uid
          { CDIDevice := e.2.cdiname, Type_ := e.2.deviceType, UID := e.2.uid }) init) := by
    intro l
    induction l with
    | nil =>
      intro init k hk
      rcases hk with hk | ⟨e, he, _⟩
      · exact hk
      · simp at he
    | cons e rest ih =>
      intro init k hk
      simp only [List.foldl_cons]
      apply ih
      rcases hk with hk | ⟨e2, he2, hu⟩
      · exact Or.inl ((mem_mkeys_minsert _ _ _ _).mpr (Or.inl hk))
      · rcases List.mem_cons.mp he2 with h1 | h1
        · left
          rw [h1] at hu
          exact (mem_mkeys_minsert _ _ _ _).mpr (Or.inr hu.symm)
        · exact Or.inr ⟨e2, h1, hu⟩
  have hallocs : ∀ (l : GoMap (List DeviceInfo)) (init : GoMap (List AllocatedMydevice)),
      ∀ e ∈ l.foldl (fun (outrcas : GoMap (List AllocatedMydevice)) e =>
          minsert outrcas e.1 (allocatedDevicesOf cfg e.2)) init,
        e ∈ init ∨ ∃ e2 ∈ l, e.2 = allocatedDevicesOf cfg e2.2 := by
    intro l
    induction l with
    | nil => intro init e he; exact Or.inl he
    | cons e1 rest ih =>
      intro init e he
      simp only [List.foldl_cons] at he
      rcases ih _ e he with h1 | ⟨e2, he2, h2⟩
      · rcases mem_minsert _ _ _ _ h1 with h3 | h3
        · right
          exact ⟨e1, List.mem_cons_self _ _, by rw [h3]⟩
        · exact Or.inl h3
      · exact Or.inr ⟨e2, List.mem_cons_of_mem _ he2, h2⟩
  intro e he d hd
  simp only [nodeState.getUpdatedSpec, nodeState.syncAllocatedDevicesToMASSpec,
    nodeState.syncAllocatableDevicesToMASSpec] at he ⊢
  rcases hallocs s.allocations [] e he with h1 | ⟨e2, he2, h2⟩
  · simp at h1
  · rw [h2] at hd
    simp only [allocatedDevicesOf, List.mem_filterMap] at hd
    obtain ⟨device, hdev, hsome⟩ := hd
    by_cases ht : device.deviceType = MydeviceType0
    · simp only [ht, if_true, Option.some.injEq] at hsome
      have huid : d.UID = device.uid := by rw [← hsome]
      have hk := h.2 e2 he2 device hdev
      obtain ⟨e3, he3, hk3⟩ := List.mem_map.mp hk
      apply hkeys
      right
      refine ⟨e3, he3, ?_⟩
      rw [huid, ← hk3]
      exact (h.1 e3 he3).symm
    · simp [ht] at hsome

/-- C21 (as amended). Subset invariant, agent side.  Let the detected devices be
keyed by their UID.  For every Local Node State reached from `newNodeState` by
calls of `syncAllocatedDevicesFromMASSpec`, `free`, `announceNewDevices` with
devices keyed by their UID and `unannounceDevices` of devices that are in no
active allocation, the spec returned by `getUpdatedSpec` has every device UID
of its committed allocations as a key of its allocatable devices. -/
theorem agent_subset_invariant (cfg : AgentConfig) (detecteddevices : GoMap DeviceInfo)
    (registry : RegistryCalls) (mas : MydeviceAllocationState) (s : nodeState)
    (calls : List AgentCall) (inspec : MydeviceAllocationStateSpec)
    (hkeys : ∀ e ∈ detecteddevices, e.1 = e.2.uid)
    (hnew : newNodeState detecteddevices registry mas = .ok s)
    (hcalls : CallsKeepAllocated calls s) :
    AllocationsSubset ((runCalls calls s).getUpdatedSpec cfg inspec) :=
  getUpdatedSpec_subset cfg _ inspec
    (runCalls_stateOK calls s (newNodeState_stateOK detecteddevices registry mas s hkeys hnew)
      hcalls)

/-- Witness of C21: the agent starts with `d0` and `d1` on the sample record
(which commits `d0` to `c0`), device `d2` is announced, `d1` is unannounced and
`c0` is freed; the spec it then publishes satisfies the subset invariant. -/
theorem agent_subset_invariant_witness :
    AllocationsSubset
      ((runCalls
        [.announce sampleCalls [("d2", sampleDeviceInfo "d2" MydeviceType0)],
         .unannounce sampleCalls "d1", .sync sampleRecord.Spec, .free "c0"]
        (sampleNodeState.syncAllocatedDevicesFromMASSpec sampleRecord.Spec).1).getUpdatedSpec
        sampleAgentConfig sampleRecord.Spec) :=
  agent_subset_invariant sampleAgentConfig sampleNodeState.allocatable sampleCalls sampleRecord
    (sampleNodeState.syncAllocatedDevicesFromMASSpec sampleRecord.Spec).1
    [.announce sampleCalls [("d2", sampleDeviceInfo "d2" MydeviceType0)],
     .unannounce sampleCalls "d1", .sync sampleRecord.Spec, .free "c0"]
    sampleRecord.Spec (by decide) rfl
    ⟨by decide, by decide, trivial, trivial, trivial⟩

/-- Counterexample to C21 as stated: the agent starts with `d0` and `d1` on the
sample record, which commits `d0` to `c0`; after `unannounceDevices` of `d0` the
spec returned by `getUpdatedSpec` still commits `d0` to `c0`, and `d0` is no key
of its allocatable devices. -/
theorem unannounce_breaks_subset_invariant :
    newNodeState sampleNodeState.allocatable sampleCalls sampleRecord
      = .ok (sampleNodeState.syncAllocatedDevicesFromMASSpec sampleRecord.Spec).1 ∧
    (mlookup ((runCalls [.unannounce sampleCalls "d0"]
      (sampleNodeState.syncAllocatedDevicesFromMASSpec sampleRecord.Spec).1).getUpdatedSpec
      sampleAgentConfig sampleRecord.Spec).ResourceClaimAllocations "c0").map
        (List.map (fun d => d.UID)) = some ["d0"] ∧
    mkeys ((runCalls [.unannounce sampleCalls "d0"]
      (sampleNodeState.syncAllocatedDevicesFromMASSpec sampleRecord.Spec).1).getUpdatedSpec
      sampleAgentConfig sampleRecord.Spec).AllocatableMydevices = ["d1"] ∧
    ¬ AllocationsSubset ((runCalls [.unannounce sampleCalls "d0"]
      (sampleNodeState.syncAllocatedDevicesFromMASSpec sampleRecord.Spec).1).getUpdatedSpec
      sampleAgentConfig sampleRecord.Spec) :=
  ⟨rfl, by decide, by decide, by decide⟩

/-! ## C22: when announced devices reach the record -/

/-- C22 (what the code does).  After `announceNewDevices` has succeeded the new
devices are in the local allocatable set, but `NodePrepareResource` hands no
record to `Update`, whatever the store and the claim: the allocatable inventory
is not pushed into the persisted record by a prepare call. -/
theorem prepare_publishes_no_inventory (cfg : AgentConfig) (store : NodeStore)
    (s : nodeState) (calls : RegistryCalls) (newDevices : GoMap DeviceInfo)
    (claimUid : String)
    (hann : (s.announceNewDevices calls newDevices).2 = none) :
    (∀ k ∈ mkeys newDevices, k ∈ mkeys (s.announceNewDevices calls newDevices).1.allocatable) ∧
    (NodePrepareResource cfg store (s.announceNewDevices calls newDevices).1
      claimUid).persisted = none := by
  refine ⟨?_, rfl⟩
  intro k hk
  unfold nodeState.announceNewDevices at hann ⊢
  by_cases hf : calls.failed = true
  · simp [hf] at hann
  · simp only [hf, Bool.false_eq_true, if_false]
    exact ((announce_fold_spec newDevices s.allocatable).1 k).mpr (Or.inr hk)

/-- Witness of C22: device `d2` is announced to the sample node state; the next
prepare call, for claim `c0` of the sample record, succeeds and persists
nothing, while an unprepare call on the same state persists a record whose
allocatable devices include `d2`. -/
theorem prepare_publishes_no_inventory_witness :
    (NodePrepareResource sampleAgentConfig (constStore sampleRecord)
      (sampleNodeState.announceNewDevices sampleCalls
        [("d2", sampleDeviceInfo "d2" MydeviceType0)]).1 "c0").persisted = none ∧
    (NodePrepareResource sampleAgentConfig (constStore sampleRecord)
      (sampleNodeState.announceNewDevices sampleCalls
        [("d2", sampleDeviceInfo "d2" MydeviceType0)]).1 "c0").result
      = .ok ["example.com/mydevice=d0"] ∧
    (NodeUnprepareResource sampleAgentConfig (constStore sampleRecord)
      (sampleNodeState.announceNewDevices sampleCalls
        [("d2", sampleDeviceInfo "d2" MydeviceType0)]).1 "c9").persisted.map
        (fun p => mkeys p.Spec.AllocatableMydevices) = some ["d0", "d1", "d2"] :=
  ⟨(prepare_publishes_no_inventory sampleAgentConfig (constStore sampleRecord) sampleNodeState
      sampleCalls [("d2", sampleDeviceInfo "d2" MydeviceType0)] "c0" rfl).2,
    rfl, by decide⟩

/-! ## C23: cleanup of the PendingRequest table -/

theorem exists_iff_lookup (p : PerNodeClaimRequests) (c n : String) :
    p.Exists c n = (mlookup ((mlookup p.requests c).getD []) n).isSome := by
  unfold PerNodeClaimRequests.Exists
  cases mlookup p.requests c with
  | none => simp [mlookup]
  | some nodes => simp [mhas]

theorem cleanupStep_lookup (st : PerNodeClaimRequests × MydeviceAllocationState)
    (k c : String) :
    (c ≠ k →
      mlookup (cleanupStep st k).1.requests c = mlookup st.1.requests c ∧
      mhas (cleanupStep st k).2.Spec.requests c = mhas st.2.Spec.requests c) ∧
    mlookup (cleanupStep st k).1.requests k =
      if st.1.Exists k st.2.Name = true ∧ mhas st.2.Spec.requests k = true then none
      else mlookup st.1.requests k := by
  have hex := exists_iff_lookup st.1 k st.2.Name
  unfold cleanupStep
  cases hl : mlookup ((mlookup st.1.requests k).getD []) st.2.Name with
  | none =>
    rw [hl] at hex
    simp [hex]
  | some request =>
    rw [hl] at hex
    by_cases hm : mhas st.2.Spec.requests k = true
    · simp only [hm, if_true, hex, Option.isSome_some, and_self]
      refine ⟨fun hc => ⟨mlookup_mdelete_ne _ _ _ (fun h => hc h.symm), trivial⟩, ?_⟩
      exact mlookup_mdelete_same _ _
    · simp only [hm, Bool.false_eq_true, if_false, and_false]
      refine ⟨fun hc => ⟨trivial, ?_⟩, trivial⟩
      simp only [mhas, MydeviceAllocationState.setRequest, MydeviceAllocationStateSpec.requests,
        Option.getD_some]
      rw [mlookup_minsert_ne _ _ _ _ (fun h => hc h.symm)]

theorem cleanupFold_lookup :
    ∀ (l : List String) (st : PerNodeClaimRequests × MydeviceAllocationState) (c : String),
      l.Nodup →
      mlookup (l.foldl cleanupStep st).1.requests c =
        if c ∈ l ∧ st.1.Exists c st.2.Name = true ∧ mhas st.2.Spec.requests c = true
        then none else mlookup st.1.requests c := by
  intro l
  induction l with
  | nil => intro st c _; simp
  | cons k rest ih =>
    intro st c hnd
    rw [List.nodup_cons] at hnd
    rw [List.foldl_cons, ih (cleanupStep st k) c hnd.2, cleanupStep_name]
    have hstep := cleanupStep_lookup st k c
    by_cases hc : c = k
    · subst hc
      have h2 := hstep.2
      simp only [hnd.1, false_and, if_false, List.mem_cons, true_or, true_and]
      exact h2
    · have h1 := hstep.1 hc
      have hex : (cleanupStep st k).1.Exists c st.2.Name = st.1.Exists c st.2.Name := by
        rw [exists_iff_lookup, exists_iff_lookup, h1.1]
      rw [hex, h1.1, h1.2]
      simp [hc]

/-- C23 (as amended). Cleanup of the PendingRequest table.  For a table that binds
no claim twice and a loaded record of node `N`, handed over with a requests map
that is not nil as `unsuitableNode` does, `CleanupNode` removes a claim from the
table exactly when the claim has an entry for `N` in the table and an entry in
the requests of the record (whether or not it is committed), and it removes the
claim with its entries for all nodes; every other claim keeps its entries for
all nodes. -/
theorem cleanupNode_removes_requested_claims (p : PerNodeClaimRequests)
    (mas : MydeviceAllocationState) (hmap : (mkeys p.requests).Nodup) (c : String) :
    (p.Exists c mas.Name = true ∧ mhas mas.Spec.requests c = true →
      mlookup (p.CleanupNode (withRequestsMap mas)).1.requests c = none ∧
      ∀ node, (p.CleanupNode (withRequestsMap mas)).1.Exists c node = false) ∧
    (¬ (p.Exists c mas.Name = true ∧ mhas mas.Spec.requests c = true) →
      mlookup (p.CleanupNode (withRequestsMap mas)).1.requests c = mlookup p.requests c ∧
      ∀ node, (p.CleanupNode (withRequestsMap mas)).1.Exists c node = p.Exists c node) := by
  have h := cleanupFold_lookup (mkeys p.requests) (p, withRequestsMap mas) c hmap
  have hfold : (mkeys p.requests).foldl cleanupStep (p, withRequestsMap mas)
      = p.CleanupNode (withRequestsMap mas) := rfl
  have hn : (withRequestsMap mas).Name = mas.Name := rfl
  have hr : (withRequestsMap mas).Spec.requests = mas.Spec.requests := rfl
  rw [hfold] at h
  simp only [hn, hr] at h
  constructor
  · intro hcond
    have hmem : c ∈ mkeys p.requests := by
      rw [← mhas_iff_mem_keys]
      have hex := hcond.1
      unfold PerNodeClaimRequests.Exists at hex
      cases hl : mlookup p.requests c with
      | none => simp [hl] at hex
      | some nodes => simp [mhas, hl]
    have hnone : mlookup (p.CleanupNode (withRequestsMap mas)).1.requests c = none := by
      rw [h]
      simp [hmem, hcond.1, hcond.2]
    refine ⟨hnone, ?_⟩
    intro node
    simp [PerNodeClaimRequests.Exists, hnone]
  · intro hcond
    have hsame : mlookup (p.CleanupNode (withRequestsMap mas)).1.requests c
        = mlookup p.requests c := by
      rw [h]
      have : ¬ (c ∈ mkeys p.requests ∧ p.Exists c mas.Name = true ∧
          mhas mas.Spec.requests c = true) := fun hx => hcond hx.2
      simp only [this, if_false]
    refine ⟨hsame, ?_⟩
    intro node
    simp [PerNodeClaimRequests.Exists, hsame]

/-- Witness of C23: in `twoNodePending` claim `c1` has an entry for `n1` and the
record of `n1` has a request for `c1`, so `c1` is removed; claim `c2` has no
request in the record and keeps its entry. -/
theorem cleanupNode_removes_requested_claims_witness :
    (twoNodePending.CleanupNode (withRequestsMap requestedOnlyRecord)).1.Exists "c1" "n2"
      = false ∧
    (twoNodePending.CleanupNode (withRequestsMap requestedOnlyRecord)).1.Exists "c2" "n1"
      = true :=
  ⟨((cleanupNode_removes_requested_claims twoNodePending requestedOnlyRecord (by decide)
      "c1").1 (by decide)).2 "n2",
    (((cleanupNode_removes_requested_claims twoNodePending requestedOnlyRecord (by decide)
      "c2").2 (by decide)).2 "n1").trans (by decide)⟩

/-- Counterexample to C23 as stated: claim `c1` is not committed in the record of
`n1` (it only has a request there), yet `CleanupNode` removes its entry for
`n1`, and it also removes its entry for the other node `n2`. -/
theorem cleanupNode_removes_other_node_entry :
    requestedOnlyRecord.Spec.ResourceClaimRequests ≠ none ∧
    mhas requestedOnlyRecord.Spec.ResourceClaimAllocations "c1" = false ∧
    twoNodePending.Exists "c1" "n1" = true ∧
    twoNodePending.Exists "c1" "n2" = true ∧
    (twoNodePending.CleanupNode requestedOnlyRecord).1.Exists "c1" "n1" = false ∧
    (twoNodePending.CleanupNode requestedOnlyRecord).1.Exists "c1" "n2" = false :=
  ⟨by decide, rfl, rfl, rfl, rfl, rfl⟩

/-! ## C24: node-binding round trip -/

/-- C24. Node-binding round trip.  `getSelectedNode` applied to a claim whose
recorded allocation is `buildAllocationResult n shared` returns `n`; and for a
claim with no recorded allocation, or with an allocation without node selector,
`getSelectedNode` returns the empty string and `Deallocate` returns success
without persisting a record and without changing the PendingRequest table. -/
theorem node_binding_round_trip :
    (∀ (claim : ResourceClaim) (n : String) (shared : Bool),
      getSelectedNode { claim with Allocation := some (buildAllocationResult n shared) }
        = some n) ∧
    (∀ (claim : ResourceClaim),
      (claim.Allocation = none ∨
        ∃ allocation, claim.Allocation = some allocation ∧
          allocation.AvailableOnNodes = none) →
      getSelectedNode claim = some "" ∧
      ∀ (cs : Clientset) (pending : PerNodeClaimRequests),
        (Deallocate cs pending claim).result = .ok () ∧
        (Deallocate cs pending claim).persisted = none ∧
        (Deallocate cs pending claim).pending = pending) := by
  refine ⟨fun claim n shared => rfl, ?_⟩
  intro claim h
  have hsel : getSelectedNode claim = some "" := by
    rcases h with h | ⟨allocation, h, hnone⟩
    · simp [getSelectedNode, h]
    · simp [getSelectedNode, h, hnone]
  refine ⟨hsel, ?_⟩
  intro cs pending
  simp [Deallocate, hsel]

/-- Witness of C24: the binding to node `n1` is read back from a claim, and a
claim without recorded allocation is deallocated as a no-op. -/
theorem node_binding_round_trip_witness :
    getSelectedNode (boundClaim "c1" "n1") = some "n1" ∧
    getSelectedNode (sampleClaim "c1" .Immediate) = some "" ∧
    (Deallocate emptyStore (samplePending "c1" "n1" ["d0"])
      (sampleClaim "c1" .Immediate)).pending = samplePending "c1" "n1" ["d0"] :=
  ⟨node_binding_round_trip.1 (sampleClaim "c1" .WaitForFirstConsumer) "n1" true,
    (node_binding_round_trip.2 (sampleClaim "c1" .Immediate) (Or.inl rfl)).1,
    ((node_binding_round_trip.2 (sampleClaim "c1" .Immediate) (Or.inl rfl)).2 emptyStore
      (samplePending "c1" "n1" ["d0"])).2.2⟩

/-! ## C25: the selections of a batch -/

/-- C25 fails on the code.  Take a record in which the device that the loop of
`Available` visits last is of the supported type and the available set has a key
other than its UID, and a batch of supported claims none of which has a stored
selection.  Then `selectPotentialDevices` returns an entry for every claim of the
batch, and every entry lists the UID of that one device as many times as the
claim requests devices.  So the list of a claim that requests two or more
devices has a UID twice, the lists of any two claims that request a device share
a UID, and when the device visited last is allocated no UID listed is a key of
`Available()`. -/
theorem batch_selections_repeat_one_device (mas : MydeviceAllocationState)
    (mcas : List ClaimAllocation) (hsup : Supported mcas)
    (hno : ∀ ca ∈ mcas, mlookup mas.Spec.requests ca.Claim.UID = none)
    (hv : (lastVisited mas).Type_ = MydeviceType0)
    (hother : ∃ u, mhas (Available mas) u = true ∧ u ≠ (lastVisited mas).UID) :
    ∃ allocated, selectPotentialDevices mas mcas = some allocated ∧
      (∀ ca ∈ mcas, mhas allocated ca.Claim.UID = true) ∧
      (∀ claimUID sel, mlookup allocated claimUID = some sel →
        sel.Mydevices = List.replicate sel.Spec.Count.toNat
          ({ UID := (lastVisited mas).UID } : RequestedMydevice)) ∧
      (∀ claimUID sel, mlookup allocated claimUID = some sel → 2 ≤ sel.Spec.Count →
        ¬ (sel.Mydevices.map (fun d => d.UID)).Nodup) ∧
      (∀ c1 c2 sel1 sel2, c1 ≠ c2 →
        mlookup allocated c1 = some sel1 → mlookup allocated c2 = some sel2 →
        1 ≤ sel1.Spec.Count → 1 ≤ sel2.Spec.Count →
        ∃ d1 ∈ sel1.Mydevices, ∃ d2 ∈ sel2.Mydevices, d1.UID = d2.UID) ∧
      (DeviceIsAllocated mas (lastVisited mas).UID = true →
        ∀ claimUID sel, mlookup allocated claimUID = some sel →
          ∀ d ∈ sel.Mydevices, mhas (Available mas) d.UID = false) := by
  obtain ⟨out, hout⟩ := selectLoop_supported mas mcas (Available mas, []) hsup
  have hrep := (selectLoop_repeats mas (lastVisited mas) hv mcas _ out hno
    (repeats_available mas hother) hout).2.2
  have hlist : ∀ claimUID sel, mlookup out.2 claimUID = some sel →
      sel.Mydevices = List.replicate sel.Spec.Count.toNat
        ({ UID := (lastVisited mas).UID } : RequestedMydevice) :=
    fun claimUID sel hl => hrep _ (mlookup_mem _ _ _ hl)
  refine ⟨out.2, by simp [selectPotentialDevices, hout],
    (selectLoop_has mas mcas _ out hout).2, hlist, ?_, ?_, ?_⟩
  · intro claimUID sel hl h2
    rw [hlist claimUID sel hl, List.map_replicate]
    obtain ⟨m, hm⟩ : ∃ m, sel.Spec.Count.toNat = m + 2 := ⟨sel.Spec.Count.toNat - 2, by omega⟩
    rw [hm]
    simp [List.replicate_succ]
  · intro c1 c2 sel1 sel2 _ h1 h2 hc1 hc2
    refine ⟨{ UID := (lastVisited mas).UID }, ?_, { UID := (lastVisited mas).UID }, ?_, rfl⟩
    · rw [hlist c1 sel1 h1, List.mem_replicate]
      exact ⟨by omega, rfl⟩
    · rw [hlist c2 sel2 h2, List.mem_replicate]
      exact ⟨by omega, rfl⟩
  · intro hbusy claimUID sel hl d hd
    rw [hlist claimUID sel hl] at hd
    rw [List.eq_of_mem_replicate hd]
    cases hm : mhas (Available mas) (lastVisited mas).UID with
    | false => rfl
    | true =>
      have := (mhas_available mas _ hm).1
      rw [hbusy] at this
      cases this

/-- Witness for C25: on the sample record, its devices visited in the order
`d0`, `d1`, `d2`, the batch of `c1` and `c2` asking for one and two devices is
given the selections `[d2]` and `[d2, d2]`. -/
theorem batch_selections_repeat_one_device_witness :
    selectPotentialDevices sampleRecord [sampleCA "c1" 1, sampleCA "c2" 2]
      = some [("c1", { Spec := { Count := 1, Type_ := MydeviceType0 },
                       Mydevices := [{ UID := "d2" }] }),
              ("c2", { Spec := { Count := 2, Type_ := MydeviceType0 },
                       Mydevices := [{ UID := "d2" }, { UID := "d2" }] })] ∧
    ∃ allocated,
      selectPotentialDevices sampleRecord [sampleCA "c1" 1, sampleCA "c2" 2] = some allocated ∧
      (∀ claimUID sel, mlookup allocated claimUID = some sel →
        sel.Mydevices = List.replicate sel.Spec.Count.toNat
          ({ UID := (lastVisited sampleRecord).UID } : RequestedMydevice)) ∧
      (∀ claimUID sel, mlookup allocated claimUID = some sel → 2 ≤ sel.Spec.Count →
        ¬ (sel.Mydevices.map (fun d => d.UID)).Nodup) ∧
      (∀ c1 c2 sel1 sel2, c1 ≠ c2 →
        mlookup allocated c1 = some sel1 → mlookup allocated c2 = some sel2 →
        1 ≤ sel1.Spec.Count → 1 ≤ sel2.Spec.Count →
        ∃ d1 ∈ sel1.Mydevices, ∃ d2 ∈ sel2.Mydevices, d1.UID = d2.UID) := by
  obtain ⟨allocated, h1, _, h3, h4, h5, _⟩ :=
    batch_selections_repeat_one_device sampleRecord [sampleCA "c1" 1, sampleCA "c2" 2]
      supported_samples (by decide) (by decide) ⟨"d1", by decide, by decide⟩
  exact ⟨by decide, allocated, h1, h3, h4, h5⟩

/-! ## C26: what unprepare persists for the other claims -/

theorem mlookup_foldl_minsert_nodup {α β : Type} (f : String × β → α) (k : String) :
    ∀ (l : GoMap β) (init : GoMap α), (mkeys l).Nodup →
      mlookup (l.foldl (fun m e => minsert m e.1 (f e)) init) k =
        match mlookup l k with
        | some v => some (f (k, v))
        | none => mlookup init k := by
  intro l
  induction l with
  | nil => intro init _; simp [mlookup]
  | cons e rest ih =>
    intro init hnd
    obtain ⟨k1, v1⟩ := e
    simp only [mkeys, List.map_cons, List.nodup_cons] at hnd
    rw [List.foldl_cons, ih _ hnd.2]
    by_cases hk : k1 = k
    · subst hk
      have hnone : mlookup rest k1 = none := by
        cases hx : mlookup rest k1 with
        | none => rfl
        | some v =>
          exact absurd ((mhas_iff_mem_keys rest k1).mp (by simp [mhas, hx])) hnd.1
      simp [hnone, mlookup, mlookup_minsert_same]
    · simp only [mlookup, hk, if_false]
      rw [mlookup_minsert_ne _ _ _ _ hk]

theorem free_ok_allocations (s : nodeState) (claimUid : String)
    (h : (s.free claimUid).2 = none) :
    (s.free claimUid).1 = { s with allocations := mdelete s.allocations claimUid } := by
  unfold nodeState.free at h ⊢
  cases hl : mlookup s.allocations claimUid with
  | none =>
    simp only [hl]
    rw [mdelete_absent _ _ (not_mem_mkeys_of_lookup_none _ _ hl)]
  | some devices =>
    simp only [hl] at h ⊢
    cases hf : freeLoop devices with
    | none => simp
    | some e => simp [hf] at h

theorem free_free (s : nodeState) (claimUid : String) (h : (s.free claimUid).2 = none) :
    (s.free claimUid).1.free claimUid = ((s.free claimUid).1, none) := by
  apply free_absent
  rw [free_ok_allocations s claimUid h]
  exact mlookup_mdelete_same _ _

/-- A successful run of the retry loop of `NodeUnprepareResource`: in the attempt
that succeeded the record was reloaded, and the record handed to `Update` is the
reloaded record with the spec recomputed from the state left by `free`. -/
theorem unprepare_retry_ok (cfg : AgentConfig) (store : NodeStore) (claimUid : String) :
    ∀ (steps attempt : Nat) (s : nodeState)
      (st : nodeState × Option MydeviceAllocationState),
      retryOnConflict (unprepareAttempt cfg store claimUid) steps attempt (s, none)
        = (st, .ok ()) →
      (s.free claimUid).2 = none ∧
      ∃ k mas, store.Get k = .ok mas ∧
        st = ((s.free claimUid).1,
          some { mas with Spec := (s.free claimUid).1.getUpdatedSpec cfg mas.Spec }) := by
  intro steps
  induction steps with
  | zero =>
    intro attempt s st h
    simp [retryOnConflict] at h
  | succ n ih =>
    intro attempt s st h
    unfold retryOnConflict at h
    cases hg : store.Get attempt with
    | error e =>
      simp [unprepareAttempt, hg, AgentError.isConflict] at h
    | ok mas =>
      cases hf : s.free claimUid with
      | mk s1 err =>
        cases err with
        | some e =>
          simp [unprepareAttempt, hg, hf, AgentError.isConflict] at h
        | none =>
          have hf2 : (s.free claimUid).2 = none := by rw [hf]
          have hf1 : (s.free claimUid).1 = s1 := by rw [hf]
          cases hu : store.Update attempt { mas with Spec := s1.getUpdatedSpec cfg mas.Spec } with
          | none =>
            simp only [unprepareAttempt, hg, hf, hu] at h
            simp only [Prod.mk.injEq, and_true] at h
            exact ⟨rfl, attempt, mas, hg, by rw [← h]⟩
          | some e =>
            simp only [unprepareAttempt, hg, hf, hu] at h
            by_cases hc : (AgentError.store e).isConflict = true
            · by_cases hn : n = 0
              · simp [hc, hn] at h
              · simp only [hc, if_true, hn, if_false] at h
                obtain ⟨_, k, mas2, hk, hst⟩ := ih (attempt + 1) s1 st h
                have hff := free_free s claimUid hf2
                rw [hf1] at hff
                rw [hff] at hst
                exact ⟨rfl, k, mas2, hk, hst⟩
            · simp [hc] at h

/-- C26 (as amended). What unprepare persists.  Let the local active allocations
bind no claim twice.  The record persisted by a successful
`NodeUnprepareResource` of claim `C` is the record reloaded in the successful
attempt with its requests unchanged and its committed allocations recomputed
from Local Node State: no entry for `C`, and for every other claim an entry
exactly when Local Node State has an active allocation for it, listing the
devices of the supported type of that allocation with the CDI name
`cdiKind=cdiname`. -/
theorem unprepare_recomputes_allocations (cfg : AgentConfig) (store : NodeStore)
    (s : nodeState) (claimUid : String)
    (hmap : (mkeys s.allocations).Nodup)
    (hok : (NodeUnprepareResource cfg store s claimUid).result = .ok ()) :
    ∃ attempt mas p,
      store.Get attempt = .ok mas ∧
      (NodeUnprepareResource cfg store s claimUid).persisted = some p ∧
      p.Name = mas.Name ∧ p.Status = mas.Status ∧
      p.Spec.ResourceClaimRequests = mas.Spec.ResourceClaimRequests ∧
      mlookup p.Spec.ResourceClaimAllocations claimUid = none ∧
      ∀ c, c ≠ claimUid →
        mlookup p.Spec.ResourceClaimAllocations c
          = (mlookup s.allocations c).map (allocatedDevicesOf cfg) := by
  unfold NodeUnprepareResource at hok ⊢
  cases hr : retryOnConflict (unprepareAttempt cfg store claimUid) cfg.retrySteps 0 (s, none) with
  | mk st res =>
    rw [hr] at hok
    simp only at hok
    subst hok
    obtain ⟨hfree, k, mas, hk, hst⟩ :=
      unprepare_retry_ok cfg store claimUid cfg.retrySteps 0 s st hr
    rw [free_ok_allocations s claimUid hfree] at hst
    have hnd : (mkeys (mdelete s.allocations claimUid)).Nodup := by
      rw [mkeys_mdelete]
      exact hmap.filter _
    have hlook : ∀ c, mlookup ((({ s with allocations := mdelete s.allocations claimUid } :
        nodeState).getUpdatedSpec cfg mas.Spec).ResourceClaimAllocations) c
        = (mlookup (mdelete s.allocations claimUid) c).map (allocatedDevicesOf cfg) := by
      intro c
      simp only [nodeState.getUpdatedSpec, nodeState.syncAllocatedDevicesToMASSpec]
      rw [mlookup_foldl_minsert_nodup (fun e => allocatedDevicesOf cfg e.2) c _ [] hnd]
      cases mlookup (mdelete s.allocations claimUid) c with
      | none => simp [mlookup]
      | some v => simp
    subst hst
    refine ⟨k, mas,
      { mas with Spec := ({ s with allocations := mdelete s.allocations claimUid } :
          nodeState).getUpdatedSpec cfg mas.Spec },
      hk, rfl, rfl, rfl, rfl, ?_, ?_⟩
    · rw [hlook, mlookup_mdelete_same]
      rfl
    · intro c hc
      rw [hlook, mlookup_mdelete_ne _ _ _ (fun h => hc h.symm)]

/-- Witness of C26: the local node state holds `d0` and `d1` for claim `c1`; the
unprepare of `c1` succeeds and the record it persists has no entry for `c1`. -/
theorem unprepare_recomputes_allocations_witness :
    ∃ p, (NodeUnprepareResource sampleAgentConfig (constStore twoCommittedRecord)
        allocatedNodeState "c1").persisted = some p ∧
      mlookup p.Spec.ResourceClaimAllocations "c1" = none := by
  obtain ⟨_, _, p, _, hp, _, _, _, hnone, _⟩ :=
    unprepare_recomputes_allocations sampleAgentConfig (constStore twoCommittedRecord)
      allocatedNodeState "c1" (by decide) rfl
  exact ⟨p, hp, hnone⟩

/-- Counterexample to C26 as stated: the reloaded record commits `d0` to claim `c0`
and `d1` to claim `c1`, and the local node state has an active allocation for
`c1` only.  The unprepare of `c1` succeeds, and the record it persists has no
entry for the other claim `c0`. -/
theorem unprepare_drops_other_claim :
    mlookup twoClaimsRecord.Spec.ResourceClaimAllocations "c0"
      = some [{ CDIDevice := "d0", Type_ := MydeviceType0, UID := "d0" }] ∧
    (NodeUnprepareResource sampleAgentConfig (constStore twoClaimsRecord)
      oneClaimNodeState "c1").result = .ok () ∧
    (NodeUnprepareResource sampleAgentConfig (constStore twoClaimsRecord)
      oneClaimNodeState "c1").persisted.map
        (fun p => mlookup p.Spec.ResourceClaimAllocations "c0") = some none :=
  ⟨rfl, rfl, by decide⟩

/-! ## C27: a failed sync and the local node state -/

/-- C27 fails on the code.  The local node state holds `d0` and `d1` for claim `c1`
and only `d0` is allocatable; the record commits `d0` and `d1` to `c1`.  The sync
returns the error for `d1`, and the active allocation of `c1` has been reset and
refilled with `d0` only, so that `getUpdatedSpec` now writes back `[d0]` for `c1`
where it wrote `[d0, d1]` before the failed sync. -/
theorem failed_sync_truncates_allocation :
    (unpluggedNodeState.syncAllocatedDevicesFromMASSpec twoCommittedRecord.Spec).2
      = some (.deviceNotFound "d1" "c1") ∧
    mlookup unpluggedNodeState.allocations "c1"
      = some [sampleDeviceInfo "d0" MydeviceType0, sampleDeviceInfo "d1" MydeviceType0] ∧
    mlookup (unpluggedNodeState.syncAllocatedDevicesFromMASSpec
      twoCommittedRecord.Spec).1.allocations "c1"
      = some [sampleDeviceInfo "d0" MydeviceType0] ∧
    (mlookup (unpluggedNodeState.getUpdatedSpec sampleAgentConfig
      twoCommittedRecord.Spec).ResourceClaimAllocations "c1").map (List.map (fun d => d.UID))
      = some ["d0", "d1"] ∧
    (mlookup ((unpluggedNodeState.syncAllocatedDevicesFromMASSpec
      twoCommittedRecord.Spec).1.getUpdatedSpec sampleAgentConfig
      twoCommittedRecord.Spec).ResourceClaimAllocations "c1").map (List.map (fun d => d.UID))
      = some ["d0"] :=
  ⟨rfl, rfl, rfl, by decide, by decide⟩

/-! ## C28: release of what Allocate accepted -/

/-- C28 (what the code does).  Immediate-mode Allocate accepts claim parameters of
any type: when it succeeds for a spec whose type is not `type0` (the empty type
included), `Deallocate` of the claim bound to the node, run on the persisted
record, returns the unknown-device-type error, persists nothing and so leaves
the claim's requested and committed devices in the record. -/
theorem deallocate_rejects_accepted_type (cs cs2 : Clientset)
    (pending pending2 : PerNodeClaimRequests) (claim : ResourceClaim)
    (spec : MydeviceClaimParametersSpec) (out : MydeviceAllocationState)
    (halloc : (allocateImmediateClaim cs pending claim (.mydevice spec)).persisted = some out)
    (htype : spec.Type_ ≠ MydeviceType0)
    (hname : out.Name ≠ "")
    (hget : masGet cs2 out.Name = some out) :
    (allocateImmediateClaim cs pending claim (.mydevice spec)).result
      = .ok (buildAllocationResult out.Name true) ∧
    (Deallocate cs2 pending2
      { claim with Allocation := some (buildAllocationResult out.Name true) }).result
      = .error (.unknownDeviceType spec.Type_) ∧
    (Deallocate cs2 pending2
      { claim with Allocation := some (buildAllocationResult out.Name true) }).persisted
      = none := by
  unfold allocateImmediateClaim at halloc ⊢
  cases hlist : cs.ListNames with
  | none => simp [hlist] at halloc
  | some masnames =>
    simp only [hlist] at halloc ⊢
    obtain ⟨mas, spec2, allocated, _, _, hp, hsel, _, hout, hres⟩ :=
      allocateImmediateLoop_persisted cs pending claim (.mydevice spec) masnames out halloc
    cases hp
    have hspec : (selectionOf allocated claim.UID).Spec = spec := by
      simp only [selectPotentialDevices, selectLoop] at hsel
      simp only [Option.map_some', Option.some.injEq] at hsel
      rw [← hsel]
      exact selectOne_spec mas claim.UID spec _
    have hreq : mlookup out.Spec.requests claim.UID
        = some (selectionOf allocated claim.UID) := by
      rw [hout, commit_spec]
      simp only [MydeviceAllocationStateSpec.requests, Option.getD_some]
      exact mlookup_minsert_same _ _ _
    have hsn : getSelectedNode
        { claim with Allocation := some (buildAllocationResult out.Name true) }
        = some out.Name := rfl
    refine ⟨hres, ?_, ?_⟩
    · simp [Deallocate, hsn, hname, hget, hreq, hspec, htype]
    · simp [Deallocate, hsn, hname, hget, hreq, hspec, htype]

/-- Witness of C28: on the record with the single free device `e0`, immediate
Allocate of one device with the empty type succeeds and binds to `n0`;
`Deallocate` on the persisted record fails and persists nothing. -/
theorem deallocate_rejects_accepted_type_witness :
    (allocateImmediateClaim (singleNode oneDeviceRecord) NewPerNodeClaimRequests
      (sampleClaim "c1" .Immediate) (.mydevice { Count := 1, Type_ := "" })).result
      = .ok (buildAllocationResult "n0" true) ∧
    (Deallocate
      (singleNode (MakeResourceClaimAllocation
        (oneDeviceRecord.setRequest "c1"
          { Spec := { Count := 1, Type_ := "" }, Mydevices := [{ UID := "e0" }] }) "c1"))
      NewPerNodeClaimRequests (boundClaim "c1" "n0")).result
      = .error (.unknownDeviceType "") ∧
    (Deallocate
      (singleNode (MakeResourceClaimAllocation
        (oneDeviceRecord.setRequest "c1"
          { Spec := { Count := 1, Type_ := "" }, Mydevices := [{ UID := "e0" }] }) "c1"))
      NewPerNodeClaimRequests (boundClaim "c1" "n0")).persisted = none :=
  deallocate_rejects_accepted_type (singleNode oneDeviceRecord)
    (singleNode (MakeResourceClaimAllocation
      (oneDeviceRecord.setRequest "c1"
        { Spec := { Count := 1, Type_ := "" }, Mydevices := [{ UID := "e0" }] }) "c1"))
    NewPerNodeClaimRequests NewPerNodeClaimRequests (sampleClaim "c1" .Immediate)
    { Count := 1, Type_ := "" }
    (MakeResourceClaimAllocation
      (oneDeviceRecord.setRequest "c1"
        { Spec := { Count := 1, Type_ := "" }, Mydevices := [{ UID := "e0" }] }) "c1")
    (by decide) (by decide) (by decide) (by decide)

/-! ## C29: what filtering writes for an unsuitable node -/

theorem unsuitableLoop_short (allocated : GoMap RequestedMydevices)
    (allcas : List ClaimAllocation) (ca : ClaimAllocation) (suf : List ClaimAllocation)
    (spec : MydeviceClaimParametersSpec) (hca : ca.ClaimParameters = .mydevice spec)
    (hshort : spec.Count ≠ ((selectionOf allocated ca.Claim.UID).Mydevices.length : Int)) :
    ∀ (pre : List ClaimAllocation) (pending : PerNodeClaimRequests)
      (mas : MydeviceAllocationState),
      (∀ c ∈ pre, ∃ s, c.ClaimParameters = .mydevice s ∧
        s.Count = ((selectionOf allocated c.Claim.UID).Mydevices.length : Int)) →
      (unsuitableLoop allocated allcas (pre ++ ca :: suf) pending mas).err = none ∧
      (unsuitableLoop allocated allcas (pre ++ ca :: suf) pending mas).cas
        = markUnsuitable allcas mas.Name ∧
      (unsuitableLoop allocated allcas (pre ++ ca :: suf) pending mas).pending
        = setSelections allocated mas.Name pre pending := by
  intro pre
  induction pre with
  | nil =>
    intro pending mas _
    simp [unsuitableLoop, hca, hshort, setSelections]
  | cons c rest ih =>
    intro pending mas hpre
    obtain ⟨s, hs, hcount⟩ := hpre c (List.mem_cons_self _ _)
    have hrest := ih (pending.Set c.Claim.UID mas.Name (selectionOf allocated c.Claim.UID))
      (mas.setRequest c.Claim.UID (selectionOf allocated c.Claim.UID))
      (fun c2 hc2 => hpre c2 (List.mem_cons_of_mem _ hc2))
    have hname : (mas.setRequest c.Claim.UID (selectionOf allocated c.Claim.UID)).Name
        = mas.Name := rfl
    rw [hname] at hrest
    simp only [List.cons_append, unsuitableLoop, hs, hcount, ne_eq, not_true_eq_false,
      if_false]
    simpa [setSelections] using hrest

/-- C29 (as amended). What filtering writes for an unsuitable node.  Let the record
of the node be handed to `unsuitableMydeviceNode` with a requests map that is not
nil, as `unsuitableNode` does, and let the batch be `pre ++ ca :: suf`, where the
selection of every claim of `pre` is complete and the selection of `ca` is
short.  Then the node is marked unsuitable for every claim, and the
PendingRequest table after the call is the table as it was right after
`CleanupNode` with the entry `(claim, node)` set to the claim's selection for
every claim of `pre`, in order: no entry is written for the short claim or the
claims after it, and the table is the cleaned one when the first claim of the
batch is the short one. -/
theorem filtering_writes_before_short_claim (pending : PerNodeClaimRequests)
    (mas : MydeviceAllocationState) (pre suf allcas : List ClaimAllocation)
    (ca : ClaimAllocation) (spec : MydeviceClaimParametersSpec)
    (allocated : GoMap RequestedMydevices)
    (hsel : selectPotentialDevices (pending.CleanupNode (withRequestsMap mas)).2
      (pre ++ ca :: suf) = some allocated)
    (hpre : ∀ c ∈ pre, ∃ s, c.ClaimParameters = .mydevice s ∧
      s.Count = ((selectionOf allocated c.Claim.UID).Mydevices.length : Int))
    (hca : ca.ClaimParameters = .mydevice spec)
    (hshort : spec.Count ≠ ((selectionOf allocated ca.Claim.UID).Mydevices.length : Int)) :
    (unsuitableMydeviceNode pending (withRequestsMap mas) (pre ++ ca :: suf) allcas).err
      = none ∧
    (unsuitableMydeviceNode pending (withRequestsMap mas) (pre ++ ca :: suf) allcas).cas
      = markUnsuitable allcas mas.Name ∧
    (unsuitableMydeviceNode pending (withRequestsMap mas) (pre ++ ca :: suf) allcas).pending
      = setSelections allocated mas.Name pre (pending.CleanupNode (withRequestsMap mas)).1 ∧
    (pre = [] →
      (unsuitableMydeviceNode pending (withRequestsMap mas) (pre ++ ca :: suf) allcas).pending
        = (pending.CleanupNode (withRequestsMap mas)).1) := by
  have h := unsuitableLoop_short allocated allcas ca suf spec hca hshort pre
    (pending.CleanupNode (withRequestsMap mas)).1 (pending.CleanupNode (withRequestsMap mas)).2
    hpre
  have hn : (withRequestsMap mas).Name = mas.Name := rfl
  rw [cleanupNode_name, hn] at h
  have hrun : unsuitableMydeviceNode pending (withRequestsMap mas) (pre ++ ca :: suf) allcas
      = unsuitableLoop allocated allcas (pre ++ ca :: suf)
          (pending.CleanupNode (withRequestsMap mas)).1
          (pending.CleanupNode (withRequestsMap mas)).2 := by
    simp [unsuitableMydeviceNode, hsel]
  rw [hrun]
  refine ⟨h.1, h.2.1, h.2.2, ?_⟩
  intro hnil
  rw [h.2.2, hnil]
  rfl

/-- Witness of C29: on `oneDeviceRecord` (the single free device `e0`) the batch
of `c1` asking for one device and `c2` asking for five marks `n0` unsuitable, and
the table afterwards holds the selection `[e0]` for `(c1, n0)`. -/
theorem filtering_writes_before_short_claim_witness :
    (unsuitableMydeviceNode NewPerNodeClaimRequests (withRequestsMap oneDeviceRecord)
      [sampleCA "c1" 1, sampleCA "c2" 5] [sampleCA "c1" 1, sampleCA "c2" 5]).pending
      = NewPerNodeClaimRequests.Set "c1" "n0"
          { Spec := { Count := 1, Type_ := MydeviceType0 }, Mydevices := [{ UID := "e0" }] } :=
  (filtering_writes_before_short_claim NewPerNodeClaimRequests oneDeviceRecord
    [sampleCA "c1" 1] [] [sampleCA "c1" 1, sampleCA "c2" 5] (sampleCA "c2" 5)
    { Count := 5, Type_ := MydeviceType0 }
    [("c1", { Spec := { Count := 1, Type_ := MydeviceType0 }, Mydevices := [{ UID := "e0" }] }),
     ("c2", { Spec := { Count := 5, Type_ := MydeviceType0 }, Mydevices := [] })]
    (by decide)
    (by
      intro c hc
      rw [List.mem_singleton] at hc
      subst hc
      exact ⟨{ Count := 1, Type_ := MydeviceType0 }, rfl, by decide⟩)
    rfl (by decide)).2.2.1

/-- Counterexample to C29 as stated: the record, with the single free device
`e0`, is Ready, the node is marked unsuitable because the selection of `c2` is
short (it is empty), and the table after the call differs from the table right
after `CleanupNode`: the entry `(c1, n0)` has been created. -/
theorem filtering_creates_entry_for_unsuitable_node :
    oneDeviceRecord.Status = MydeviceAllocationStateStatusReady ∧
    selectPotentialDevices
        (NewPerNodeClaimRequests.CleanupNode (withRequestsMap oneDeviceRecord)).2
        [sampleCA "c1" 1, sampleCA "c2" 5]
      = some [("c1", { Spec := { Count := 1, Type_ := MydeviceType0 },
                       Mydevices := [{ UID := "e0" }] }),
              ("c2", { Spec := { Count := 5, Type_ := MydeviceType0 }, Mydevices := [] })] ∧
    (unsuitableMydeviceNode NewPerNodeClaimRequests (withRequestsMap oneDeviceRecord)
      [sampleCA "c1" 1, sampleCA "c2" 5] [sampleCA "c1" 1, sampleCA "c2" 5]).cas
      = markUnsuitable [sampleCA "c1" 1, sampleCA "c2" 5] "n0" ∧
    (NewPerNodeClaimRequests.CleanupNode (withRequestsMap oneDeviceRecord)).1
      = NewPerNodeClaimRequests ∧
    (NewPerNodeClaimRequests.CleanupNode (withRequestsMap oneDeviceRecord)).1.Exists "c1" "n0"
      = false ∧
    (unsuitableMydeviceNode NewPerNodeClaimRequests (withRequestsMap oneDeviceRecord)
      [sampleCA "c1" 1, sampleCA "c2" 5] [sampleCA "c1" 1, sampleCA "c2" 5]).pending.Exists
      "c1" "n0" = true :=
  ⟨rfl, by decide, by decide, rfl, rfl, by decide⟩

/-! ## C30: promotion of the requested devices -/

/-- C30 (as amended). Promotion copies the requested devices faithfully.  Let every
device requested for the claim be a key of the allocatable map whose descriptor
carries that UID.  Then `MakeResourceClaimAllocation` sets the allocation of the
claim to a list of the same length as the requested devices, whose i-th entry has
the UID of the i-th requested device and the type and CDI name stored for that
UID in the allocatable map; the allocatable map, the requests and the
allocations of all other claims are unchanged. -/
theorem promotion_copies_requested (g : MydeviceAllocationState) (claimUID : String)
    (hfound : ∀ d ∈ (g.Spec.requestOf claimUID).Mydevices,
      ∃ a, mlookup g.Spec.AllocatableMydevices d.UID = some a ∧ a.UID = d.UID) :
    (∃ committed,
      mlookup (MakeResourceClaimAllocation g claimUID).Spec.ResourceClaimAllocations claimUID
        = some committed ∧
      committed.length = (g.Spec.requestOf claimUID).Mydevices.length ∧
      ∀ (i : Nat) (d : RequestedMydevice),
        (g.Spec.requestOf claimUID).Mydevices[i]? = some d →
        ∃ a, mlookup g.Spec.AllocatableMydevices d.UID = some a ∧
          committed[i]? = some { CDIDevice := a.CDIDevice, Type_ := a.Type_, UID := d.UID }) ∧
    (MakeResourceClaimAllocation g claimUID).Spec.AllocatableMydevices
      = g.Spec.AllocatableMydevices ∧
    (MakeResourceClaimAllocation g claimUID).Spec.ResourceClaimRequests
      = g.Spec.ResourceClaimRequests ∧
    (∀ c, c ≠ claimUID →
      mlookup (MakeResourceClaimAllocation g claimUID).Spec.ResourceClaimAllocations c
        = mlookup g.Spec.ResourceClaimAllocations c) ∧
    (MakeResourceClaimAllocation g claimUID).Name = g.Name ∧
    (MakeResourceClaimAllocation g claimUID).Status = g.Status := by
  refine ⟨⟨(g.Spec.requestOf claimUID).Mydevices.map (allocatedOf g), ?_, ?_, ?_⟩,
    rfl, rfl, ?_, rfl, rfl⟩
  · simp only [MakeResourceClaimAllocation]
    exact mlookup_minsert_same _ _ _
  · simp
  · intro i d hd
    have hmem : d ∈ (g.Spec.requestOf claimUID).Mydevices := List.getElem?_mem hd
    obtain ⟨a, ha, hu⟩ := hfound d hmem
    refine ⟨a, ha, ?_⟩
    rw [List.getElem?_map, hd]
    simp [allocatedOf, ha, hu]
  · intro c hc
    simp only [MakeResourceClaimAllocation]
    exact mlookup_minsert_ne _ _ _ _ (fun h => hc h.symm)

/-- Witness of C30: in the sample record claim `c0` requests `d0`, which is
allocatable under its own UID, and the promotion commits to `c0` one descriptor,
the one stored for `d0`. -/
theorem promotion_copies_requested_witness :
    ∃ committed,
      mlookup (MakeResourceClaimAllocation sampleRecord "c0").Spec.ResourceClaimAllocations "c0"
        = some committed ∧
      committed.length = 1 ∧
      committed[0]? = some { CDIDevice := "d0", Type_ := MydeviceType0, UID := "d0" } := by
  obtain ⟨committed, hc, hlen, hi⟩ :=
    (promotion_copies_requested sampleRecord "c0" (by decide)).1
  obtain ⟨a, ha, hget⟩ := hi 0 { UID := "d0" } rfl
  have ha2 : a = sampleDevice "d0" := by
    have h0 : mlookup sampleRecord.Spec.AllocatableMydevices "d0" = some (sampleDevice "d0") :=
      by decide
    rw [h0] at ha
    exact (Option.some.inj ha).symm
  subst ha2
  exact ⟨committed, hc, hlen, hget⟩

/-- Counterexample to C30 as stated: the requests of `unknownRequestRecord` select
for claim `c1` the device `d9`, which is not allocatable; the promotion commits
for `c1` one descriptor with the empty UID, not the UID `d9`. -/
theorem promotion_copies_zero_descriptor :
    (unknownRequestRecord.Spec.requestOf "c1").Mydevices = [{ UID := "d9" }] ∧
    mlookup (MakeResourceClaimAllocation unknownRequestRecord "c1").Spec.ResourceClaimAllocations
      "c1" = some [{ CDIDevice := "", Type_ := "", UID := "" }] :=
  ⟨rfl, rfl⟩

end Dra
